import Mathlib

/-!
# crash-reporter: diagnostic collection, report assembly and payload splitting

A shallow embedding of the C sources

* `src/src/src/crash_reporter.c`  (executor, collectors, section aggregator, error detector)
* `src/src/crash_reporter_gui.c`  (payload splitter inside `on_report_bug_button_clicked`)
* `src/crash_reporter.c`  (request body of the standalone crash handler)

Modelling conventions.

* A C string is the list of its bytes before the terminating NUL (`CStr`); a `char*` that may be
  `NULL` is an `Option CStr`.  String literals of the source are written as Lean literals.
* `size_t` values are lengths of strings held in memory, far below `2^64`; every subtraction of
  the source is guarded by a comparison, which the model keeps, so natural numbers are used;
  the splitter's arithmetic is given a second time with wrapping 64-bit operations
  (`available_size_t` and its companions) and shown to agree.
* `snprintf(buf, size, ...)` stores the first `size - 1` bytes of the formatted text.
* The outside world (effective uid, executable files, what a shell command prints, whether the
  allocation made on a given source line succeeds, `mkstemp`) is an explicit `Env`; the mutable
  state of the process (`polkit_authenticated`, plus the list of commands handed to `popen`) is
  an explicit `State`.
-/

namespace CrashReporter

/-- A C string: its bytes before the terminating NUL. -/
abbrev CStr := List Char

/-- The text stored by `snprintf(buf, size, ...)`: the first `size - 1` bytes of the output. -/
def snprintf (size : Nat) (formatted : CStr) : CStr :=
  formatted.take (size - 1)

/-! ## Payload splitter (`on_report_bug_button_clicked`, crash_reporter_gui.c 134-184) -/

/-- The shipped budget: `const size_t GITHUB_BODY_LIMIT = 65536;`. -/
def GITHUB_BODY_LIMIT : Nat := 65536

def header_fmt : CStr := "@%s\n\n## System Information\n```\n".toList

def mid_fmt : CStr := "\n```\n\n## AI Generated Summary\n".toList

def tail_fmt : CStr := "\n".toList

def trunc_suffix : CStr := "\n... (truncated)".toList

/-- Length `strlen(trunc_suffix)`. -/
def suffix_len : Nat := trunc_suffix.length

/-- Measured header length `strlen(header_fmt) + strlen(GITHUB_PING_USERS)`.  The macro
`GITHUB_PING_USERS` lives in `config.h`, which is not part of the sources at hand, so the
mention target is the parameter `ping`. -/
def header_len (ping : CStr) : Nat := header_fmt.length + ping.length

def mid_len : Nat := mid_fmt.length

def tail_len : Nat := tail_fmt.length

/-- Budget left for the two variable parts (line 144).  The source fixes the budget to
`GITHUB_BODY_LIMIT`; it is the parameter `limit` here so that other budgets can be discussed. -/
def available (limit : Nat) (ping : CStr) : Nat :=
  if limit > header_len ping + mid_len + tail_len then
    limit - header_len ping - mid_len - tail_len
  else 0

/-- Share of the system report: `available / 2` (line 147). -/
def sys_allow (limit : Nat) (ping : CStr) : Nat := available limit ping / 2

/-- Share of the AI summary: `available - sys_allow` (line 148). -/
def ai_allow (limit : Nat) (ping : CStr) : Nat := available limit ping - sys_allow limit ping

/-- The copy `sys_part` of the report (lines 154-164), for a share `allow`. -/
def sys_part (all_info : CStr) (allow : Nat) : CStr :=
  if all_info.length > allow then
    let take := if allow > suffix_len then allow - suffix_len else 0
    all_info.take take ++ trunc_suffix
  else all_info

/-- The copy `ai_part` of the summary (lines 167-177), for a share `allow`. -/
def ai_part (ai_message : CStr) (allow : Nat) : CStr :=
  if ai_message.length > allow then
    let take := if allow > suffix_len then allow - suffix_len else 0
    ai_message.take take ++ trunc_suffix
  else ai_message

/-- The size `body_needed` computed on line 179. -/
def body_needed (limit : Nat) (ping all_info ai_message : CStr) : Nat :=
  header_len ping + (sys_part all_info (sys_allow limit ping)).length + mid_len
    + (ai_part ai_message (ai_allow limit ping)).length + tail_len + 1

/-- The issue body handed to `create_github_issue` (lines 179-184). -/
def issue_body (limit : Nat) (ping all_info ai_message : CStr) : CStr :=
  snprintf (body_needed limit ping all_info ai_message)
    ("@".toList ++ ping ++ "\n\n## System Information\n```\n".toList
      ++ sys_part all_info (sys_allow limit ping)
      ++ "\n```\n\n## AI Generated Summary\n".toList
      ++ ai_part ai_message (ai_allow limit ping) ++ "\n".toList)

/-! ## Environment and process state (crash_reporter.c) -/

/-- The outside world as seen by the program. -/
structure Env where
  /-- Result of `geteuid()`. -/
  euid : Nat
  /-- Whether `access(path, X_OK) == 0`. -/
  access_x : CStr → Bool
  /-- What `popen(cmd, "r")` yields after the commands of the first argument have been run:
  `none` when the process cannot be started, otherwise the bytes the command prints. -/
  popen : List CStr → CStr → Option CStr
  /-- Whether the allocation (`malloc`/`realloc`/`strdup`) made on line `site` of
  crash_reporter.c succeeds at this point of the run (the point being identified by the commands
  run so far). -/
  alloc : List CStr → Nat → Bool
  /-- Result of `mkstemp(tmpf)`: `none` for a negative descriptor, otherwise the file name
  written back into `tmpf`. -/
  mkstemp : Option CStr

/-- The mutable state of the process: the file-scope flag of line 15 and, as a record of the
effects, the commands handed to `popen` so far (oldest first). -/
structure State where
  polkit_authenticated : Bool
  log : List CStr

/-- The byte `'\0'`. -/
def NUL : Char := Char.ofNat 0

/-- The byte `'\n'`. -/
def newline : Char := Char.ofNat 10

/-- The single-quote byte. -/
def quote : Char := Char.ofNat 39

/-- The backslash byte. -/
def backslash : Char := Char.ofNat 92

/-- What `strlen`/`strcpy` see of a byte array: the bytes before the first NUL. -/
def c_str (bytes : List Char) : CStr := bytes.takeWhile (fun c => c != NUL)

/-- Result of the `strdup(s)` of line `site` at a point of the run. -/
def strdup (env : Env) (log : List CStr) (site : Nat) (s : CStr) : Option CStr :=
  if env.alloc log site then some s else none

/-- Result of `strstr(haystack, needle)`: `none` for `NULL`, otherwise the part of the haystack
starting at the first occurrence of the needle. -/
def strstr : CStr → CStr → Option CStr
  | [], needle => if needle = [] then some [] else none
  | c :: haystack, needle =>
    if needle.isPrefixOf (c :: haystack) then some (c :: haystack) else strstr haystack needle

/-! ## `execute_command` (lines 67-102) -/

/-- One successful `fgets(path, n + 1, fp)`: at most `n` bytes are read, reading stops after a
newline.  Returns the bytes stored in `path` and the rest of the stream. -/
def fgets : Nat → List Char → List Char × List Char
  | 0, stream => ([], stream)
  | _ + 1, [] => ([], [])
  | n + 1, c :: stream =>
    if c = newline then ([c], stream) else (c :: (fgets n stream).1, (fgets n stream).2)

/-- The loop `while (fgets(path, sizeof(path), fp) != NULL)` of lines 82-95 on the bytes still to
be read; `result` is the string accumulated so far.  When the `realloc` of line 85 fails the
function returns the `strdup` of line 90.  Every turn consumes at least one byte, so a fuel equal
to the length of the stream is never used up. -/
def read_loop (env : Env) (log : List CStr) : Nat → List Char → Option CStr → Option CStr
  | 0, _, result => result
  | fuel + 1, stream, result =>
    if stream = [] then result
    else if env.alloc log 85 then
      read_loop env log fuel (fgets 1023 stream).2
        (some (result.getD [] ++ c_str (fgets 1023 stream).1))
    else strdup env log 90 "Error: Memory allocation failure".toList

def execute_command (env : Env) (st : State) (cmd : CStr) : Option CStr × State :=
  let result := strdup env st.log 70 []
  let st1 : State := { st with log := st.log ++ [cmd] }
  match env.popen st.log cmd with
  | none => (strdup env st1.log 78 "Error: Command failed to execute".toList, st1)
  | some stream => (read_loop env st1.log stream.length stream result, st1)

/-! ## `escape_single_quotes` and `execute_privileged_command` (lines 104-169) -/

/-- The loop of lines 113-121. -/
def escape_loop : CStr → CStr
  | [] => []
  | c :: s =>
    if c = quote then quote :: backslash :: quote :: quote :: escape_loop s
    else c :: escape_loop s

/-- Model of `escape_single_quotes`: `NULL` for a `NULL` argument or when the `malloc` of line 110
fails, otherwise the escaped text. -/
def escape_single_quotes (env : Env) (log : List CStr) (s : Option CStr) : Option CStr :=
  match s with
  | none => none
  | some s => if env.alloc log 110 then some (escape_loop s) else none

def pkexec_paths : List CStr := ["/usr/bin/pkexec".toList, "/bin/pkexec".toList]

/-- The loop of lines 137-139 (and 28-30): the first executable path of the list. -/
def find_pkexec (env : Env) : Option CStr := pkexec_paths.find? env.access_x

/-- The probe of lines 147-153 (and 33-39): run the no-op privileged command and set the flag
when its output contains the sentinel. -/
def run_probe (env : Env) (st : State) (pkexec : CStr) : State :=
  let probe_cmd := snprintf 256 (pkexec ++ " /bin/sh -c 'echo POLKIT_OK'".toList)
  let r := execute_command env st probe_cmd
  match r.1 with
  | some probe_out =>
    if (strstr probe_out "POLKIT_OK".toList).isSome then
      { r.2 with polkit_authenticated := true }
    else r.2
  | none => r.2

def preauthenticate_polkit (env : Env) (st : State) : State :=
  if env.euid = 0 then st
  else if st.polkit_authenticated then st
  else
    match find_pkexec env with
    | none => st
    | some pkexec => run_probe env st pkexec

def execute_privileged_command (env : Env) (st : State) (cmd : CStr) : Option CStr × State :=
  if env.euid = 0 then execute_command env st cmd
  else
    match find_pkexec env with
    | none => execute_command env st cmd
    | some pkexec =>
      let st1 := if st.polkit_authenticated then st else run_probe env st pkexec
      match escape_single_quotes env st1.log (some cmd) with
      | none => execute_command env st1 cmd
      | some escaped =>
        let full_len := pkexec.length + " /bin/sh -c '' 2>&1".toList.length + escaped.length + 1
        if env.alloc st1.log 161 then
          execute_command env st1
            (snprintf full_len (pkexec ++ " /bin/sh -c '".toList ++ escaped ++ "' 2>&1".toList))
        else execute_command env st1 cmd

/-! ## `detect_errors` (lines 274-284) -/

def error_keywords : List CStr :=
  ["error".toList, "fail".toList, "warn".toList, "critical".toList]

/-- The loop of lines 278-283 over the keywords still to be tried. -/
def detect_loop (text : CStr) : List CStr → Int
  | [] => 0
  | keyword :: rest => if (strstr text keyword).isSome then 1 else detect_loop text rest

def detect_errors (text : CStr) : Int := detect_loop text error_keywords

/-- The branch `on_report_bug_button_clicked` takes once `gather_all_errors` has returned
(crash_reporter_gui.c lines 114-121 and 213-215). -/
inductive GateBranch where
  /-- The pointer is `NULL`: "Failed to gather system errors", return. -/
  | failed_to_gather : GateBranch
  /-- The test `detect_errors(all_info)` is non-zero: the issue is built and uploaded. -/
  | errors_detected : GateBranch
  /-- The `else` branch: "No significant errors detected." -/
  | no_significant_errors : GateBranch

/-- The gate of `on_report_bug_button_clicked` on the pointer returned by `gather_all_errors`. -/
def report_gate (all_info : Option CStr) : GateBranch :=
  match all_info with
  | none => GateBranch.failed_to_gather
  | some text =>
    if detect_errors text ≠ 0 then GateBranch.errors_detected
    else GateBranch.no_significant_errors

/-! ## `append_section_with_limit` (lines 286-327) -/

/-- The growing buffer `(*out_buf, *out_len, *out_cap)`.  `buf` is `none` for a `NULL` pointer,
otherwise the bytes stored before the terminator. -/
structure Buffer where
  buf : Option CStr
  len : Nat
  cap : Nat

/-- Storing `bytes` at offset `p` of a block whose bytes `mem` are known so far (bytes between
the end of `mem` and `p`, if any, are unspecified and shown as NUL). -/
def write_at (mem : List Char) (p : Nat) (bytes : List Char) : List Char :=
  mem.take p ++ List.replicate (p - mem.length) NUL ++ bytes

/-- The truncation note of line 314. -/
def note : CStr := "\n... (truncated)\n".toList

/-- Model of `append_section_with_limit`.  `realloc_ok` tells whether the `realloc` of line 297,
if reached, succeeds.  The header length `wrote` is below `INT_MAX` (titles are short literals),
so the test `wrote < 0` never fires. -/
def append_section_with_limit (realloc_ok : Bool) (b : Buffer) (title content : Option CStr)
    (section_limit : Nat) : Buffer :=
  let title := title.getD []
  let content := content.getD "(no data)".toList
  let title_len := title.length
  let content_len := content.length
  let add := title_len + 4
    + (if content_len > section_limit then section_limit + 32 else content_len) + 4
  let grow : Bool := decide (b.len + add + 1 > b.cap)
  if grow && !realloc_ok then b
  else
    let cap := if grow then (if b.cap = 0 then add + 1024 else b.cap * 2 + add) else b.cap
    let mem0 := b.buf.getD []
    let p0 := b.len
    let header := "== ".toList ++ title ++ " ==\n".toList
    let mem1 := write_at mem0 p0 (snprintf (cap - p0) header)
    let p1 := p0 + header.length
    let mem2 :=
      if content_len > section_limit then
        write_at (write_at mem1 p1 (content.take section_limit)) (p1 + section_limit) note
      else write_at mem1 p1 content
    let p2 :=
      if content_len > section_limit then p1 + section_limit + note.length
      else p1 + content_len
    { buf := some (write_at mem2 p2 [newline]), len := p2 + 1, cap := cap }

/-! ## `gather_all_errors` (lines 329-398) -/

structure SystemInfo where
  hostname : Option CStr
  kernel : Option CStr
  os_release : Option CStr
  uptime : Option CStr
  pacman_log_errors : Option CStr
  journalctl_errors : Option CStr
  dmesg_errors : Option CStr

def SECTION_LIMIT : Nat := 200 * 1024

def unknown_text : CStr := "(unknown)".toList

def none_text : CStr := "(none)".toList

/-- The array `meta` after the `snprintf` of lines 337-341. -/
def meta_text (info : Option SystemInfo) : CStr :=
  snprintf 1024
    ("Hostname: ".toList ++ (info.bind (fun i => i.hostname)).getD unknown_text
      ++ "\nKernel: ".toList ++ (info.bind (fun i => i.kernel)).getD unknown_text
      ++ "\nOS Release: ".toList ++ (info.bind (fun i => i.os_release)).getD unknown_text
      ++ "\nUptime: ".toList ++ (info.bind (fun i => i.uptime)).getD unknown_text
      ++ "\n\n".toList)

def title_meta : CStr := "System Metadata".toList
def title_svc : CStr := "Systemd Failed Units".toList
def title_journal : CStr := "Journalctl (errors)".toList
def title_dmesg : CStr := "Kernel dmesg (err,warn)".toList
def title_pac : CStr := "Pacman Log Errors".toList
def title_others : CStr := "Other /var/log Matches (grep -i 'error')".toList
def title_units : CStr := "Failed Unit Statuses (truncated)".toList
def title_units_detail : CStr := "Detailed Failed Unit Statuses".toList

def cmd_svc : CStr := "systemctl --failed --no-legend --no-pager 2>/dev/null || true".toList
def cmd_journal : CStr := "journalctl -p err..emerg --no-pager 2>/dev/null || true".toList
def cmd_dmesg : CStr := "dmesg --level=err,warn 2>/dev/null || true".toList
def cmd_pac : CStr := "grep -I -n -i \"error\" /var/log/pacman.log 2>/dev/null || true".toList
def cmd_others : CStr :=
  "find /var/log -type f -maxdepth 3 -readable -exec grep -I -n -i \"error\" \x7b\x7d + 2>/dev/null || true".toList
def cmd_unit_list : CStr :=
  "systemctl --failed --no-legend --no-pager | awk '\x7bprint $1\x7d' 2>/dev/null || true".toList

/-- The array `cmd` after the `snprintf` of line 381. -/
def cmd_units_status (tmpf : CStr) : CStr :=
  snprintf 512
    ("while read u; do systemctl status --no-pager --full $u 2>/dev/null || true; echo \"---\"; done < ".toList
      ++ tmpf ++ " 2>/dev/null || true".toList)

/-- Line 345: the variable `svc` and the state after the call. -/
def svc (env : Env) (st : State) : Option CStr × State :=
  execute_command env st cmd_svc

/-- Line 350: the variable `journal` and the state after the call. -/
def journal (env : Env) (st : State) : Option CStr × State :=
  execute_privileged_command env (svc env st).2 cmd_journal

/-- Line 355: the variable `dmesg` and the state after the call. -/
def dmesg (env : Env) (st : State) : Option CStr × State :=
  execute_privileged_command env (journal env st).2 cmd_dmesg

/-- Line 360: the variable `pac` and the state after the call. -/
def pac (env : Env) (st : State) : Option CStr × State :=
  execute_privileged_command env (dmesg env st).2 cmd_pac

/-- Line 365: the variable `others` and the state after the call. -/
def others (env : Env) (st : State) : Option CStr × State :=
  execute_privileged_command env (pac env st).2 cmd_others

/-- Line 370: the variable `unit_list` and the state after the call. -/
def unit_list (env : Env) (st : State) : Option CStr × State :=
  execute_command env (others env st).2 cmd_unit_list

/-- Line 382: the variable `units_status` and the state after the call. -/
def units_status (env : Env) (st : State) (tmpf : CStr) : Option CStr × State :=
  execute_privileged_command env (unit_list env st).2 (cmd_units_status tmpf)

/-- Lines 335-367: the buffer after the six sections that are always appended. -/
def gather_fixed (env : Env) (st : State) (info : Option SystemInfo) : Buffer :=
  let b0 : Buffer := { buf := none, len := 0, cap := 0 }
  let b1 := append_section_with_limit (env.alloc st.log 297) b0
    (some title_meta) (some (meta_text info)) SECTION_LIMIT
  let b2 := append_section_with_limit (env.alloc (svc env st).2.log 297) b1
    (some title_svc) (some ((svc env st).1.getD none_text)) SECTION_LIMIT
  let b3 := append_section_with_limit (env.alloc (journal env st).2.log 297) b2
    (some title_journal) (some ((journal env st).1.getD none_text)) SECTION_LIMIT
  let b4 := append_section_with_limit (env.alloc (dmesg env st).2.log 297) b3
    (some title_dmesg) (some ((dmesg env st).1.getD none_text)) SECTION_LIMIT
  let b5 := append_section_with_limit (env.alloc (pac env st).2.log 297) b4
    (some title_pac) (some ((pac env st).1.getD none_text)) SECTION_LIMIT
  append_section_with_limit (env.alloc (others env st).2.log 297) b5
    (some title_others) (some ((others env st).1.getD none_text)) SECTION_LIMIT

/-- Lines 371-389: the block guarded by `unit_list && strlen(unit_list) > 0`, from the buffer
`b` reached before it.  Returns the buffer and the state after the block. -/
def gather_units (env : Env) (st : State) (b : Buffer) : Buffer × State :=
  let b1 := append_section_with_limit (env.alloc (unit_list env st).2.log 297) b
    (some title_units) (some "Collecting unit statuses...".toList) SECTION_LIMIT
  match env.mkstemp with
  | none => (b1, (unit_list env st).2)
  | some tmpf =>
    match (units_status env st tmpf).1 with
    | some status =>
      (append_section_with_limit (env.alloc (units_status env st tmpf).2.log 297) b1
        (some title_units_detail) (some status) SECTION_LIMIT, (units_status env st tmpf).2)
    | none => (b1, (units_status env st tmpf).2)

/-- Model of `gather_all_errors`: the returned pointer and the state after the call. -/
def gather_all_errors (env : Env) (st : State) (info : Option SystemInfo) : Option CStr × State :=
  let b6 := gather_fixed env st info
  let r : Buffer × State :=
    match (unit_list env st).1 with
    | some list => if list.length > 0 then gather_units env st b6 else (b6, (unit_list env st).2)
    | none => (b6, (unit_list env st).2)
  match r.1.buf with
  | some report => (some report, r.2)
  | none =>
    (strdup env r.2.log 394 "(no errors found or failed to collect error data)".toList, r.2)

/-! ## Sections of a report -/

/-- Content that a section with the given content shows under the limit `section_limit`
(lines 310-321). -/
def section_body (content : CStr) (section_limit : Nat) : CStr :=
  if content.length > section_limit then content.take section_limit ++ note else content

/-- Text of one section: delimiter line, body, final newline. -/
def render_section (section_limit : Nat) (s : CStr × CStr) : CStr :=
  "== ".toList ++ s.1 ++ " ==\n".toList ++ section_body s.2 section_limit ++ [newline]

/-- Text of a sequence of sections. -/
def render_sections (section_limit : Nat) : List (CStr × CStr) → CStr
  | [] => []
  | s :: rest => render_section section_limit s ++ render_sections section_limit rest

/-- The six sections appended by lines 335-367, as (title, content) pairs in call order. -/
def fixed_sections (env : Env) (st : State) (info : Option SystemInfo) : List (CStr × CStr) :=
  [ (title_meta, meta_text info),
    (title_svc, (svc env st).1.getD none_text),
    (title_journal, (journal env st).1.getD none_text),
    (title_dmesg, (dmesg env st).1.getD none_text),
    (title_pac, (pac env st).1.getD none_text),
    (title_others, (others env st).1.getD none_text) ]

/-- The sections appended by lines 369-390, as (title, content) pairs in call order. -/
def unit_sections (env : Env) (st : State) : List (CStr × CStr) :=
  match (unit_list env st).1 with
  | none => []
  | some list =>
    if list.length > 0 then
      (title_units, "Collecting unit statuses...".toList) ::
        (match env.mkstemp with
         | none => []
         | some tmpf =>
           match (units_status env st tmpf).1 with
           | some status => [(title_units_detail, status)]
           | none => [])
    else []

/-- The (title, content) arguments of the `append_section_with_limit` calls made by
`gather_all_errors`, in call order. -/
def gather_sections (env : Env) (st : State) (info : Option SystemInfo) : List (CStr × CStr) :=
  fixed_sections env st info ++ unit_sections env st

/-- The titles in the order of the source. -/
def all_titles : List CStr :=
  [title_meta, title_svc, title_journal, title_dmesg, title_pac, title_others,
   title_units, title_units_detail]

/-- A buffer as the program keeps it: either the initial `NULL` buffer, or a block holding
`len` bytes and their terminator within its capacity. -/
def Buffer.wf (b : Buffer) : Prop :=
  (b.buf = none ∧ b.len = 0 ∧ b.cap = 0) ∨
  (∃ s, b.buf = some s ∧ s.length = b.len ∧ b.len + 1 ≤ b.cap)

/-- Allocation never fails in the environment, at any point of the run and at any call site. -/
def Env.alloc_ok (env : Env) : Prop := ∀ log site, env.alloc log site = true

/-! ## Sample environments -/

/-- A process already running as root whose commands all print nothing. -/
def quiet_env : Env :=
  { euid := 0, access_x := fun _ => false, popen := fun _ _ => some [],
    alloc := fun _ _ => true, mkstemp := some "/tmp/crashrep_units_a1b2c3".toList }

/-- As `quiet_env`, but one unit has failed: the two listings of failed units and the status
command print something. -/
def one_failed_unit_env : Env :=
  { euid := 0, access_x := fun _ => false,
    popen := fun _ cmd =>
      if cmd = cmd_svc then some "foo.service loaded failed failed Foo\n".toList
      else if cmd = cmd_unit_list then some "foo.service\n".toList
      else if cmd = cmd_units_status "/tmp/crashrep_units_a1b2c3".toList then
        some "x foo.service - Foo\n---\n".toList
      else some [],
    alloc := fun _ _ => true, mkstemp := some "/tmp/crashrep_units_a1b2c3".toList }

/-- A `SystemInfo` whose OS-release text has 2000 bytes. -/
def long_os_release_info : SystemInfo :=
  { hostname := some "h".toList, kernel := some "k".toList,
    os_release := some (List.replicate 2000 'x'), uptime := some "up 2 weeks".toList,
    pacman_log_errors := none, journalctl_errors := none, dmesg_errors := none }

/-- The state of a fresh process. -/
def init_state : State := { polkit_authenticated := false, log := [] }

/-! ## Command lines of the privileged executor -/

/-- The array `probe_cmd` after the `snprintf` of line 34 (and 148). -/
def probe_cmd (pkexec : CStr) : CStr :=
  snprintf 256 (pkexec ++ " /bin/sh -c 'echo POLKIT_OK'".toList)

/-- The block `fullcmd` after the `snprintf` of line 163, for an escaped command. -/
def wrapped_cmd (pkexec cmd : CStr) : CStr :=
  snprintf (pkexec.length + " /bin/sh -c '' 2>&1".toList.length + (escape_loop cmd).length + 1)
    (pkexec ++ " /bin/sh -c '".toList ++ escape_loop cmd ++ "' 2>&1".toList)

/-! ## Collectors (lines 171-272) -/

/-- The effect of `s[strcspn(s, "\n")] = '\0'`: the bytes before the first newline. -/
def trim_newline (s : CStr) : CStr := s.takeWhile (fun c => c != newline)

/-- The test `out == NULL || strlen(out) == 0`. -/
def null_or_empty (out : Option CStr) : Bool :=
  match out with
  | none => true
  | some s => s.isEmpty

/-- Model of `get_hostname`.  `etc_hostname` is what `fopen("/etc/hostname", "r")` gives:
`none` when the file cannot be opened, otherwise its bytes. -/
def get_hostname (env : Env) (etc_hostname : Option (List Char)) (st : State) :
    Option CStr × State :=
  let r1 : Option CStr × State :=
    if env.access_x "/bin/hostname".toList then execute_command env st "/bin/hostname".toList
    else (none, st)
  let r2 : Option CStr × State :=
    if null_or_empty r1.1 then execute_command env r1.2 "hostname".toList else r1
  if null_or_empty r2.1 then
    match etc_hostname with
    | some file =>
      if file = [] then (strdup env r2.2.log 196 "unknown".toList, r2.2)
      else (strdup env r2.2.log 192 (trim_newline (c_str (fgets 255 file).1)), r2.2)
    | none => (strdup env r2.2.log 196 "unknown".toList, r2.2)
  else (r2.1.map trim_newline, r2.2)

def get_uptime (env : Env) (st : State) : Option CStr × State :=
  execute_command env st "uptime".toList

def get_pacman_log_errors (env : Env) (st : State) : Option CStr × State :=
  execute_privileged_command env st "grep -i \"error\" /var/log/pacman.log".toList

def get_journalctl_errors (env : Env) (st : State) : Option CStr × State :=
  execute_privileged_command env st "journalctl -b -p err..warning --no-pager".toList

def get_dmesg_errors (env : Env) (st : State) : Option CStr × State :=
  let r := execute_privileged_command env st "dmesg --level=err,warn".toList
  match r.1 with
  | none => execute_command env r.2 "dmesg".toList
  | some output =>
    if (strstr output "not found".toList).isSome
        || (strstr output "Operation not permitted".toList).isSome then
      execute_command env r.2 "dmesg".toList
    else (some output, r.2)

/-! ## Sequences of executor calls -/

/-- A call that may run shell commands or change the authentication flag. -/
inductive Op where
  | preauthenticate : Op
  | command (cmd : CStr) : Op
  | privileged (cmd : CStr) : Op

/-- The state after one call. -/
def step (env : Env) (st : State) : Op → State
  | Op.preauthenticate => preauthenticate_polkit env st
  | Op.command cmd => (execute_command env st cmd).2
  | Op.privileged cmd => (execute_privileged_command env st cmd).2

/-- The state after a sequence of calls, made in order. -/
def run_ops (env : Env) (st : State) (ops : List Op) : State := ops.foldl (step env) st

/-- Whether a call is a call of `execute_privileged_command`. -/
def Op.is_privileged : Op → Bool
  | Op.privileged _ => true
  | _ => false

/-- The commands a call hands to `popen` when the flag is already set and `pkexec` is the helper
found. -/
def commands_when_authenticated (pkexec : CStr) : Op → List CStr
  | Op.preauthenticate => []
  | Op.command cmd => [cmd]
  | Op.privileged cmd => [wrapped_cmd pkexec cmd]

/-- The executor calls made by `gather_all_errors`, in call order (lines 345-382). -/
def gather_calls (env : Env) (st : State) : List Op :=
  [Op.command cmd_svc, Op.privileged cmd_journal, Op.privileged cmd_dmesg,
   Op.privileged cmd_pac, Op.privileged cmd_others, Op.command cmd_unit_list] ++
  (match (unit_list env st).1 with
   | none => []
   | some list =>
     if list.length > 0 then
       (match env.mkstemp with
        | none => []
        | some tmpf => [Op.privileged (cmd_units_status tmpf)])
     else [])

/-- An operation of the program that touches the executor: a plain call or a collector. -/
inductive Operation where
  | call (op : Op) : Operation
  | hostname (etc_hostname : Option (List Char)) : Operation
  | uptime : Operation
  | pacman_log_errors : Operation
  | journalctl_errors : Operation
  | dmesg_errors : Operation
  | gather (info : Option SystemInfo) : Operation

/-- The state after an operation. -/
def Operation.run (env : Env) (st : State) : Operation → State
  | Operation.call op => step env st op
  | Operation.hostname etc_hostname => (get_hostname env etc_hostname st).2
  | Operation.uptime => (get_uptime env st).2
  | Operation.pacman_log_errors => (get_pacman_log_errors env st).2
  | Operation.journalctl_errors => (get_journalctl_errors env st).2
  | Operation.dmesg_errors => (get_dmesg_errors env st).2
  | Operation.gather info => (gather_all_errors env st info).2

/-- A probe run at some point from `st` on (the flag still clear there) printed the sentinel. -/
def probe_succeeded_after (env : Env) (st : State) : Prop :=
  ∃ (s : State) (pkexec out : CStr),
    st.log <+: s.log ∧ s.polkit_authenticated = false ∧ env.euid ≠ 0 ∧
    find_pkexec env = some pkexec ∧
    (execute_command env s (probe_cmd pkexec)).1 = some out ∧
    "POLKIT_OK".toList <:+: out

/-- How one operation may move the state from `st` to `st2`: commands are only added to the
record, a set flag stays set, and the flag is set afterwards only if it was set before or a probe
run in between printed the sentinel. -/
def flag_step (env : Env) (st st2 : State) : Prop :=
  st.log <+: st2.log ∧
  (st.polkit_authenticated = true → st2.polkit_authenticated = true) ∧
  (st2.polkit_authenticated = true →
    st.polkit_authenticated = true ∨ probe_succeeded_after env st)

/-! ## Shell quoting -/

/-- Where the reader of a shell command line stands: outside quotes, inside single quotes, or
right after an unquoted backslash. -/
inductive ShMode where
  | plain : ShMode
  | quoted : ShMode
  | escaped : ShMode

/-- Whether a byte separates words outside quotes: space, tab, newline. -/
def is_blank (c : Char) : Bool :=
  c == Char.ofNat 32 || c == Char.ofNat 9 || c == Char.ofNat 10

/-- Splitting of a command line into words under the POSIX quoting rules the wrapping relies on:
inside single quotes every byte is literal up to the closing quote; outside them a backslash
makes the next byte literal, a single quote opens a quoted part, and unquoted blanks separate
words.  `cur` is the word being read, if any.  The result is `none` for an unterminated quote or
a trailing backslash.  Operators are not interpreted: `2>&1` comes out as a word of its own. -/
def sh_words_from : ShMode → Option CStr → CStr → Option (List CStr)
  | ShMode.plain, cur, [] =>
    match cur with
    | none => some []
    | some w => some [w]
  | ShMode.quoted, _, [] => none
  | ShMode.escaped, _, [] => none
  | ShMode.plain, cur, c :: rest =>
    if c = quote then sh_words_from ShMode.quoted (some (cur.getD [])) rest
    else if c = backslash then sh_words_from ShMode.escaped (some (cur.getD [])) rest
    else if is_blank c then
      match cur with
      | none => sh_words_from ShMode.plain none rest
      | some w => (sh_words_from ShMode.plain none rest).map (fun ws => w :: ws)
    else sh_words_from ShMode.plain (some (cur.getD [] ++ [c])) rest
  | ShMode.quoted, cur, c :: rest =>
    if c = quote then sh_words_from ShMode.plain cur rest
    else sh_words_from ShMode.quoted (some (cur.getD [] ++ [c])) rest
  | ShMode.escaped, cur, c :: rest =>
    sh_words_from ShMode.plain (some (cur.getD [] ++ [c])) rest

/-- The words of a command line. -/
def sh_words (line : CStr) : Option (List CStr) := sh_words_from ShMode.plain none line

/-! ## Further sample environments -/

/-- An unprivileged user with `/usr/bin/pkexec` installed whose authentication never goes
through: the probe prints nothing, and so does every other command. -/
def unauthenticated_env : Env :=
  { euid := 1000, access_x := fun path => path == "/usr/bin/pkexec".toList,
    popen := fun _ _ => some [], alloc := fun _ _ => true, mkstemp := none }

/-- An unprivileged user with `/usr/bin/pkexec` installed; the probe prints the sentinel, the
wrapped `journalctl` and `dmesg` calls report that the program is missing, and every other
command prints nothing. -/
def tools_missing_env : Env :=
  { euid := 1000, access_x := fun path => path == "/usr/bin/pkexec".toList,
    popen := fun _ cmd =>
      if cmd = probe_cmd "/usr/bin/pkexec".toList then some "POLKIT_OK\n".toList
      else if cmd = wrapped_cmd "/usr/bin/pkexec".toList
          "journalctl -b -p err..warning --no-pager".toList then
        some "sh: line 1: journalctl: not found\n".toList
      else if cmd = wrapped_cmd "/usr/bin/pkexec".toList "dmesg --level=err,warn".toList then
        some "sh: line 1: dmesg: not found\n".toList
      else some [],
    alloc := fun _ _ => true, mkstemp := none }

/-- A machine whose host name is the empty string: `/bin/hostname` prints an empty line. -/
def empty_hostname_env : Env :=
  { euid := 1000, access_x := fun path => path == "/bin/hostname".toList,
    popen := fun _ cmd =>
      if cmd = "/bin/hostname".toList ∨ cmd = "hostname".toList then some "\n".toList
      else some [],
    alloc := fun _ _ => true, mkstemp := none }

/-- An unprivileged user with `/usr/bin/pkexec` installed and one failed unit: the probe prints
the sentinel, the two listings of failed units print the unit, every other command prints
nothing, and the temporary file for the unit names cannot be created. -/
def no_temp_file_env : Env :=
  { euid := 1000, access_x := fun path => path == "/usr/bin/pkexec".toList,
    popen := fun _ cmd =>
      if cmd = probe_cmd "/usr/bin/pkexec".toList then some "POLKIT_OK\n".toList
      else if cmd = cmd_svc then some "foo.service loaded failed failed Foo\n".toList
      else if cmd = cmd_unit_list then some "foo.service\n".toList
      else some [],
    alloc := fun _ _ => true, mkstemp := none }

/-- A process running as root on a machine without failed units and with long logs, where
memory runs out while the report is built: the two listings of failed units print nothing, every
other command prints 1100 bytes, and the `realloc` of `append_section_with_limit` (line 297)
succeeds only before the first command has run; every other allocation succeeds. -/
def low_memory_env : Env :=
  { euid := 0, access_x := fun _ => false,
    popen := fun _ cmd =>
      if cmd = cmd_svc ∨ cmd = cmd_unit_list then some [] else some (List.replicate 1100 'x'),
    alloc := fun log site => site != 297 || log.isEmpty,
    mkstemp := none }

/-- As `quiet_env`, but the `realloc` of `append_section_with_limit` (line 297) always fails;
every other allocation succeeds. -/
def no_report_buffer_env : Env :=
  { euid := 0, access_x := fun _ => false, popen := fun _ _ => some [],
    alloc := fun _ site => site != 297, mkstemp := none }

/-! ## `size_t` arithmetic of the payload splitter -/

/-- Number of values of `size_t` (64 bits). -/
def SIZE_RANGE : Nat := 18446744073709551616

/-- Addition of two `size_t` values, wrapping. -/
def size_add (a b : Nat) : Nat := (a + b) % SIZE_RANGE

/-- Subtraction of two `size_t` values, wrapping. -/
def size_sub (a b : Nat) : Nat := (a + SIZE_RANGE - b) % SIZE_RANGE

/-- Line 144 of crash_reporter_gui.c with the arithmetic of `size_t`. -/
def available_size_t (limit header_len mid_len tail_len : Nat) : Nat :=
  if limit > size_add (size_add header_len mid_len) tail_len then
    size_sub (size_sub (size_sub limit header_len) mid_len) tail_len
  else 0

/-- Line 147 with the arithmetic of `size_t`. -/
def sys_allow_size_t (available : Nat) : Nat := available / 2

/-- Line 148 with the arithmetic of `size_t`. -/
def ai_allow_size_t (available : Nat) : Nat := size_sub available (sys_allow_size_t available)

/-- Lines 155 and 168 with the arithmetic of `size_t`: the number of bytes taken from a text. -/
def take_size_t (allow suffix_len : Nat) : Nat :=
  if allow > suffix_len then size_sub allow suffix_len else 0

/-! ## Sequences of `append_section_with_limit` calls -/

/-- The value `add` computed on line 294. -/
def section_add (title content : Option CStr) (section_limit : Nat) : Nat :=
  (title.getD []).length + 4
    + (if (content.getD "(no data)".toList).length > section_limit then section_limit + 32
       else (content.getD "(no data)".toList).length) + 4

/-- The buffer before the first call: `NULL`, length 0, capacity 0. -/
def null_buffer : Buffer := { buf := none, len := 0, cap := 0 }

/-- The buffer after a sequence of calls (title, content, limit), every `realloc` succeeding. -/
def append_sections (b : Buffer) (calls : List (Option CStr × Option CStr × Nat)) : Buffer :=
  calls.foldl (fun acc call => append_section_with_limit true acc call.1 call.2.1 call.2.2) b

/-! ## Standalone crash handler (src/crash_reporter.c) -/

/-- The structure `CrashReport` of lines 15-19. -/
structure CrashReport where
  backtrace : CStr
  system_info : CStr
  user_notes : CStr

/-- Model of `get_system_info` (lines 56-62).  `uname` is `none` when `uname()` fails, otherwise
the fields `sysname`, `release`, `machine` it filled in. -/
def get_system_info (uname : Option (CStr × CStr × CStr)) : CStr :=
  match uname with
  | none => "Could not get system info.".toList
  | some fields =>
    "OS: ".toList ++ fields.1 ++ " ".toList ++ fields.2.1 ++ "\nArchitecture: ".toList
      ++ fields.2.2

/-- The block `json_payload` built by `send_report` (lines 74-87). -/
def json_payload (report : CrashReport) : CStr :=
  "\x7b\"content\": \"New Crash Report\",\"embeds\": [\x7b\"title\": \"Crash Report\",\"fields\": [\x7b\"name\": \"System Info\", \"value\": \"".toList
    ++ report.system_info
    ++ "\"\x7d,\x7b\"name\": \"User Notes\", \"value\": \"".toList
    ++ report.user_notes
    ++ "\"\x7d,\x7b\"name\": \"Backtrace\", \"value\": \"```".toList
    ++ report.backtrace
    ++ "```\"\x7d]\x7d]\x7d".toList

/-! ## Well-formed JSON (RFC 8259) -/

/-- The double-quote byte. -/
def dquote : Char := Char.ofNat 34

/-- The tokens of a JSON text; `atom` is a number or one of `true`, `false`, `null`. -/
inductive JTok where
  | lbrace : JTok
  | rbrace : JTok
  | lbrack : JTok
  | rbrack : JTok
  | colon : JTok
  | comma : JTok
  | string : JTok
  | atom : JTok

/-- JSON whitespace: space, tab, line feed, carriage return. -/
def json_ws (c : Char) : Bool :=
  c == Char.ofNat 32 || c == Char.ofNat 9 || c == Char.ofNat 10 || c == Char.ofNat 13

/-- The structural characters of JSON. -/
def json_punct (c : Char) : Option JTok :=
  if c = Char.ofNat 123 then some JTok.lbrace
  else if c = Char.ofNat 125 then some JTok.rbrace
  else if c = Char.ofNat 91 then some JTok.lbrack
  else if c = Char.ofNat 93 then some JTok.rbrack
  else if c = Char.ofNat 58 then some JTok.colon
  else if c = Char.ofNat 44 then some JTok.comma
  else none

def json_digit (c : Char) : Bool := decide (48 ≤ c.toNat) && decide (c.toNat ≤ 57)

def json_hex_digit (c : Char) : Bool :=
  json_digit c || (decide (65 ≤ c.toNat) && decide (c.toNat ≤ 70))
    || (decide (97 ≤ c.toNat) && decide (c.toNat ≤ 102))

/-- Where the reader of a JSON number stands. -/
inductive NumState where
  | start : NumState
  | minus : NumState
  | zero : NumState
  | int : NumState
  | dot : NumState
  | frac : NumState
  | e : NumState
  | esign : NumState
  | exp : NumState
  | bad : NumState

/-- One byte of a JSON number: `-? (0 | [1-9][0-9]*) (. [0-9]+)? ([eE] [+-]? [0-9]+)?`. -/
def num_step (q : NumState) (c : Char) : NumState :=
  match q with
  | NumState.start =>
    if c = Char.ofNat 45 then NumState.minus
    else if c = Char.ofNat 48 then NumState.zero
    else if json_digit c then NumState.int else NumState.bad
  | NumState.minus =>
    if c = Char.ofNat 48 then NumState.zero
    else if json_digit c then NumState.int else NumState.bad
  | NumState.zero =>
    if c = Char.ofNat 46 then NumState.dot
    else if c = Char.ofNat 101 ∨ c = Char.ofNat 69 then NumState.e else NumState.bad
  | NumState.int =>
    if json_digit c then NumState.int
    else if c = Char.ofNat 46 then NumState.dot
    else if c = Char.ofNat 101 ∨ c = Char.ofNat 69 then NumState.e else NumState.bad
  | NumState.dot => if json_digit c then NumState.frac else NumState.bad
  | NumState.frac =>
    if json_digit c then NumState.frac
    else if c = Char.ofNat 101 ∨ c = Char.ofNat 69 then NumState.e else NumState.bad
  | NumState.e =>
    if c = Char.ofNat 43 ∨ c = Char.ofNat 45 then NumState.esign
    else if json_digit c then NumState.exp else NumState.bad
  | NumState.esign => if json_digit c then NumState.exp else NumState.bad
  | NumState.exp => if json_digit c then NumState.exp else NumState.bad
  | NumState.bad => NumState.bad

def json_number (w : CStr) : Bool :=
  match w.foldl num_step NumState.start with
  | NumState.zero => true
  | NumState.int => true
  | NumState.frac => true
  | NumState.exp => true
  | _ => false

/-- A word outside strings is well formed when it is a literal name or a number. -/
def json_atom (w : CStr) : Bool :=
  w == "true".toList || w == "false".toList || w == "null".toList || json_number w

/-- Where the reader of a JSON text stands: between tokens, inside a word, inside a string,
after a backslash in a string, or inside a `\u` escape with `n` hex digits to come. -/
inductive LexState where
  | out : LexState
  | word (w : CStr) : LexState
  | str : LexState
  | esc : LexState
  | hex (n : Nat) : LexState

/-- One byte of a JSON text: the tokens completed by it and the new state, or `none` when the
byte is not allowed there (a control character in a string, a bad escape, a malformed word). -/
def lex_step (q : LexState) (c : Char) : Option (List JTok × LexState) :=
  match q with
  | LexState.out =>
    if json_ws c then some ([], LexState.out)
    else
      match json_punct c with
      | some t => some ([t], LexState.out)
      | none => if c = dquote then some ([], LexState.str) else some ([], LexState.word [c])
  | LexState.word w =>
    if json_ws c then (if json_atom w then some ([JTok.atom], LexState.out) else none)
    else
      match json_punct c with
      | some t => if json_atom w then some ([JTok.atom, t], LexState.out) else none
      | none =>
        if c = dquote then (if json_atom w then some ([JTok.atom], LexState.str) else none)
        else some ([], LexState.word (w ++ [c]))
  | LexState.str =>
    if c = dquote then some ([JTok.string], LexState.out)
    else if c = backslash then some ([], LexState.esc)
    else if c.toNat < 32 then none
    else some ([], LexState.str)
  | LexState.esc =>
    if c = dquote ∨ c = backslash ∨ c = Char.ofNat 47 ∨ c = Char.ofNat 98 ∨ c = Char.ofNat 102
        ∨ c = Char.ofNat 110 ∨ c = Char.ofNat 114 ∨ c = Char.ofNat 116 then
      some ([], LexState.str)
    else if c = Char.ofNat 117 then some ([], LexState.hex 4)
    else none
  | LexState.hex n =>
    if json_hex_digit c then
      (if n ≤ 1 then some ([], LexState.str) else some ([], LexState.hex (n - 1)))
    else none

/-- The end of a JSON text: allowed between tokens and after a well-formed word. -/
def lex_finish (q : LexState) : Option (List JTok) :=
  match q with
  | LexState.out => some []
  | LexState.word w => if json_atom w then some [JTok.atom] else none
  | _ => none

/-- The tokens of a text read from state `q`, `none` when it is lexically malformed. -/
def lex : LexState → CStr → Option (List JTok)
  | q, [] => lex_finish q
  | q, c :: rest =>
    match lex_step q c with
    | none => none
    | some r => (lex r.2 rest).map (fun toks => r.1 ++ toks)

/-- The state reached after reading a text from state `q`, `none` when a byte is not allowed
where it stands. -/
def lex_state : LexState → CStr → Option LexState
  | q, [] => some q
  | q, c :: rest =>
    match lex_step q c with
    | none => none
    | some r => lex_state r.2 rest

mutual

/-- A JSON value at the head of the tokens: the tokens left after it.  The first argument bounds
the number of nested calls. -/
def parse_value : Nat → List JTok → Option (List JTok)
  | 0, _ => none
  | _ + 1, JTok.string :: r => some r
  | _ + 1, JTok.atom :: r => some r
  | _ + 1, JTok.lbrace :: JTok.rbrace :: r => some r
  | f + 1, JTok.lbrace :: r => parse_members f r
  | _ + 1, JTok.lbrack :: JTok.rbrack :: r => some r
  | f + 1, JTok.lbrack :: r => parse_elements f r
  | _ + 1, _ => none

/-- The members of an object after its opening brace, up to the closing brace. -/
def parse_members : Nat → List JTok → Option (List JTok)
  | 0, _ => none
  | f + 1, JTok.string :: JTok.colon :: r =>
    match parse_value f r with
    | some (JTok.comma :: r2) => parse_members f r2
    | some (JTok.rbrace :: r2) => some r2
    | _ => none
  | _ + 1, _ => none

/-- The elements of an array after its opening bracket, up to the closing bracket. -/
def parse_elements : Nat → List JTok → Option (List JTok)
  | 0, _ => none
  | f + 1, r =>
    match parse_value f r with
    | some (JTok.comma :: r2) => parse_elements f r2
    | some (JTok.rbrack :: r2) => some r2
    | _ => none

end

/-- Whether a text is a well-formed JSON text: it splits into tokens and the tokens form exactly
one value. -/
def json_well_formed (text : CStr) : Bool :=
  match lex LexState.out text with
  | none => false
  | some toks =>
    match parse_value (toks.length + 1) toks with
    | some [] => true
    | _ => false

/-! ## Lemmas on the payload splitter -/

theorem header_fmt_length : header_fmt.length = 31 := by decide

theorem mid_fmt_length : mid_fmt.length = 30 := by decide

theorem suffix_len_eq : suffix_len = 16 := by decide

theorem sys_part_length_le (text : CStr) (allow : Nat)
    (h : text.length ≤ allow ∨ suffix_len ≤ allow) : (sys_part text allow).length ≤ allow := by
  unfold sys_part
  split_ifs with h1 h2
  · simp only [List.length_append, List.length_take]
    change min (allow - suffix_len) text.length + suffix_len ≤ allow
    omega
  · rcases h with h | h
    · omega
    · simp only [List.length_append, List.length_take]
      change min 0 text.length + suffix_len ≤ allow
      omega
  · omega

theorem ai_part_eq_sys_part (text : CStr) (allow : Nat) : ai_part text allow = sys_part text allow :=
  rfl

theorem issue_body_length (limit : Nat) (ping all_info ai_message : CStr) :
    (issue_body limit ping all_info ai_message).length
      = ping.length + 29 + (sys_part all_info (sys_allow limit ping)).length + 30
          + (ai_part ai_message (ai_allow limit ping)).length + 1 := by
  unfold issue_body snprintf body_needed header_len mid_len tail_len
  rw [List.length_take]
  simp only [List.length_append, header_fmt_length, mid_fmt_length]
  have e1 : "@".toList.length = 1 := by decide
  have e2 : "\n\n## System Information\n```\n".toList.length = 28 := by decide
  have e3 : "\n```\n\n## AI Generated Summary\n".toList.length = 30 := by decide
  have e4 : "\n".toList.length = 1 := by decide
  have e5 : tail_fmt.length = 1 := by decide
  rw [e1, e2, e3, e4, e5]
  omega

theorem shares_sum (limit : Nat) (ping : CStr) :
    sys_allow limit ping + ai_allow limit ping = available limit ping := by
  unfold ai_allow sys_allow
  omega

theorem available_add_overhead (limit : Nat) (ping : CStr)
    (h : 0 < available limit ping) : available limit ping + (ping.length + 62) = limit := by
  have e5 : tail_fmt.length = 1 := by decide
  unfold available at h ⊢
  unfold header_len mid_len tail_len at h ⊢
  rw [header_fmt_length, mid_fmt_length, e5] at h ⊢
  split_ifs at h ⊢ with h1 <;> omega

theorem sys_part_eq (text : CStr) (share : Nat) :
    sys_part text share
      = if text.length ≤ share then text else text.take (share - 16) ++ trunc_suffix := by
  unfold sys_part
  rw [suffix_len_eq]
  by_cases h : text.length ≤ share
  · rw [if_neg (by omega), if_pos h]
  · rw [if_pos (by omega), if_neg h]
    by_cases h2 : share > 16
    · simp only [if_pos h2]
    · simp only [if_neg h2]
      have : share - 16 = 0 := by omega
      rw [this]

theorem sys_part_length_of_lt (text : CStr) (share : Nat) (h : share < text.length)
    (h2 : 16 < share) : (sys_part text share).length = share := by
  rw [sys_part_eq, if_neg (by omega), List.length_append, List.length_take]
  have : trunc_suffix.length = 16 := by decide
  omega

theorem shares_of_overhead_300 (ping : CStr) (hp : header_len ping + mid_len + tail_len = 300) :
    sys_allow GITHUB_BODY_LIMIT ping = 32618 ∧ ai_allow GITHUB_BODY_LIMIT ping = 32618 := by
  have hav : available GITHUB_BODY_LIMIT ping = 65236 := by
    unfold available GITHUB_BODY_LIMIT
    rw [if_pos (by omega)]
    omega
  unfold ai_allow sys_allow
  rw [hav]
  exact ⟨by norm_num, by norm_num⟩

theorem issue_body_length_300 (ping a b : CStr)
    (hp : header_len ping + mid_len + tail_len = 300)
    (ha : a.length = 100000) (hb : b.length = 100000) :
    (issue_body GITHUB_BODY_LIMIT ping a b).length = 65534 := by
  obtain ⟨h1, h2⟩ := shares_of_overhead_300 ping hp
  rw [issue_body_length, h1, h2, ai_part_eq_sys_part,
    sys_part_length_of_lt a 32618 (by omega) (by omega),
    sys_part_length_of_lt b 32618 (by omega) (by omega)]
  have e5 : tail_fmt.length = 1 := by decide
  unfold header_len mid_len tail_len at hp
  rw [header_fmt_length, mid_fmt_length, e5] at hp
  omega

theorem overhead_300 : header_len (List.replicate 238 'u') + mid_len + tail_len = 300 := by
  have e5 : tail_fmt.length = 1 := by decide
  unfold header_len mid_len tail_len
  rw [header_fmt_length, mid_fmt_length, e5, List.length_replicate]

/-- C1 (counterexample). The assembled body is longer than the budget when the fixed text alone
exceeds it (budget 10, empty texts: 60 bytes), and also when a share is below the 16-byte suffix
(budget 80, two 20-byte texts: shares of 9 bytes, parts of 16 bytes, body of 92 bytes). -/
theorem issue_body_exceeds_budget :
    ¬ ((issue_body 10 [] [] []).length ≤ 10) ∧
    ¬ ((issue_body 80 [] "aaaaaaaaaaaaaaaaaaaa".toList "bbbbbbbbbbbbbbbbbbbb".toList).length ≤ 80) := by
  decide

/-- C1 (amended). For every report, summary, budget and mention target: (1) when the fixed text
(the measured overhead less the two bytes of the `%s` placeholder) fits the budget and each
variable part either fits its share or has a share of at least the 16-byte suffix, the assembled
body `header+part1+mid+part2+tail` has length at most the budget; (2) in the degenerate case
where the measured overhead is at least the budget, both shares are 0, each part is empty when
its text is empty and the bare 16-byte suffix otherwise, and the body has length at most the
budget exactly when both texts are empty and the measured overhead exceeds the budget by at most
the two bytes of the placeholder. -/
theorem issue_body_within_budget (limit : Nat) (ping all_info ai_message : CStr) :
    (header_len ping + mid_len + tail_len ≤ limit + 2 →
      (all_info.length ≤ sys_allow limit ping ∨ suffix_len ≤ sys_allow limit ping) →
      (ai_message.length ≤ ai_allow limit ping ∨ suffix_len ≤ ai_allow limit ping) →
      (issue_body limit ping all_info ai_message).length ≤ limit) ∧
    (limit ≤ header_len ping + mid_len + tail_len →
      sys_allow limit ping = 0 ∧ ai_allow limit ping = 0 ∧
      sys_part all_info (sys_allow limit ping) = (if all_info = [] then [] else trunc_suffix) ∧
      ai_part ai_message (ai_allow limit ping)
        = (if ai_message = [] then [] else trunc_suffix) ∧
      ((issue_body limit ping all_info ai_message).length ≤ limit ↔
        header_len ping + mid_len + tail_len ≤ limit + 2 ∧ all_info = [] ∧ ai_message = [])) := by
  have e5 : tail_fmt.length = 1 := by decide
  have h3 := shares_sum limit ping
  constructor
  · intro hfix hs ha
    have h1 := sys_part_length_le all_info _ hs
    have h2 := sys_part_length_le ai_message _ ha
    rw [← ai_part_eq_sys_part] at h2
    unfold header_len mid_len tail_len at hfix
    rw [header_fmt_length, mid_fmt_length, e5] at hfix
    rw [issue_body_length]
    rcases Nat.eq_zero_or_pos (available limit ping) with h0 | h0
    · omega
    · have h4 := available_add_overhead limit ping h0
      omega
  · intro hdeg
    have hav : available limit ping = 0 := by
      unfold available
      rw [if_neg (by omega)]
    have hs0 : sys_allow limit ping = 0 := by omega
    have ha0 : ai_allow limit ping = 0 := by omega
    have part0 : ∀ text : CStr, sys_part text 0 = (if text = [] then [] else trunc_suffix) := by
      intro text
      rw [sys_part_eq]
      cases text with
      | nil => rfl
      | cons c t =>
        rw [if_neg (by simp), if_neg (List.cons_ne_nil _ _)]
        rfl
    have len0 : ∀ text : CStr, text ≠ [] → (sys_part text 0).length = 16 := by
      intro text hne
      rw [part0, if_neg hne]
      decide
    refine ⟨hs0, ha0, ?_, ?_, ?_⟩
    · rw [hs0]; exact part0 all_info
    · rw [ha0, ai_part_eq_sys_part]; exact part0 ai_message
    · rw [issue_body_length, hs0, ha0, ai_part_eq_sys_part]
      unfold header_len mid_len tail_len at hdeg ⊢
      rw [header_fmt_length, mid_fmt_length, e5] at hdeg ⊢
      constructor
      · intro hle
        by_cases h1 : all_info = []
        · by_cases h2 : ai_message = []
          · subst h1; subst h2
            rw [part0, if_pos rfl] at hle
            simp only [List.length_nil] at hle
            exact ⟨by omega, rfl, rfl⟩
          · have := len0 ai_message h2
            omega
        · have := len0 all_info h1
          omega
      · rintro ⟨hfix, h1, h2⟩
        subst h1; subst h2
        rw [part0, if_pos rfl]
        simp only [List.length_nil]
        omega

theorem issue_body_within_budget_witness :
    (issue_body 100 "dev".toList "kernel: error in module".toList "ok".toList).length ≤ 100 ∧
    (sys_part "kernel: error in module".toList (sys_allow 10 "dev".toList) = trunc_suffix ∧
      ¬ (issue_body 10 "dev".toList "kernel: error in module".toList "ok".toList).length ≤ 10) ∧
    (issue_body 61 "d".toList [] []).length ≤ 61 :=
  ⟨(issue_body_within_budget 100 "dev".toList "kernel: error in module".toList "ok".toList).1
      (by decide) (by decide) (by decide),
    ⟨((issue_body_within_budget 10 "dev".toList "kernel: error in module".toList
        "ok".toList).2 (by decide)).2.2.1,
     fun h => absurd (((issue_body_within_budget 10 "dev".toList
        "kernel: error in module".toList "ok".toList).2 (by decide)).2.2.2.2.1 h).2.1
        (by decide)⟩,
    ((issue_body_within_budget 61 "d".toList [] []).2 (by decide)).2.2.2.2.2
      ⟨by decide, rfl, rfl⟩⟩

/-- C2. With the shipped budget `GITHUB_BODY_LIMIT = 65536`: for every report, summary and mention
target such that both shares are at least the 16-byte suffix, the issue body handed to
`create_github_issue` has length at most 65536, and in fact at most 65534. -/
theorem shipped_issue_body_length (ping all_info ai_message : CStr)
    (hs : suffix_len ≤ sys_allow GITHUB_BODY_LIMIT ping)
    (ha : suffix_len ≤ ai_allow GITHUB_BODY_LIMIT ping) :
    (issue_body GITHUB_BODY_LIMIT ping all_info ai_message).length ≤ 65536 ∧
    (issue_body GITHUB_BODY_LIMIT ping all_info ai_message).length ≤ 65534 := by
  have h1 := sys_part_length_le all_info _ (Or.inr hs)
  have h2 := sys_part_length_le ai_message _ (Or.inr ha)
  rw [← ai_part_eq_sys_part] at h2
  have h3 := shares_sum GITHUB_BODY_LIMIT ping
  have h16 := suffix_len_eq
  have h4 := available_add_overhead GITHUB_BODY_LIMIT ping (by omega)
  rw [issue_body_length]
  unfold GITHUB_BODY_LIMIT at *
  omega

theorem shipped_issue_body_length_witness :
    (issue_body GITHUB_BODY_LIMIT "maintainer".toList "dmesg: error".toList
        "summary".toList).length ≤ 65536 ∧
    (issue_body GITHUB_BODY_LIMIT "maintainer".toList "dmesg: error".toList
        "summary".toList).length ≤ 65534 :=
  shipped_issue_body_length "maintainer".toList "dmesg: error".toList "summary".toList
    (by decide) (by decide)

theorem ai_allow_ge_sys_allow (limit : Nat) (ping : CStr) :
    sys_allow limit ping ≤ ai_allow limit ping := by
  unfold ai_allow sys_allow
  omega

theorem issue_body_length_truncated (limit : Nat) (ping a b : CStr)
    (h16 : 16 < sys_allow limit ping) (ha : sys_allow limit ping < a.length)
    (hb : ai_allow limit ping < b.length) :
    (issue_body limit ping a b).length + 2 = limit := by
  have hle := ai_allow_ge_sys_allow limit ping
  have hsum := shares_sum limit ping
  have hav := available_add_overhead limit ping (by omega)
  rw [issue_body_length, ai_part_eq_sys_part, sys_part_length_of_lt a _ ha h16,
    sys_part_length_of_lt b _ hb (by omega)]
  omega

theorem shares_of_overhead_302 (ping : CStr) (hp : header_len ping + mid_len + tail_len = 302) :
    sys_allow GITHUB_BODY_LIMIT ping = 32617 ∧ ai_allow GITHUB_BODY_LIMIT ping = 32617 := by
  have hav : available GITHUB_BODY_LIMIT ping = 65234 := by
    unfold available GITHUB_BODY_LIMIT
    rw [if_pos (by omega)]
    omega
  unfold ai_allow sys_allow
  rw [hav]
  exact ⟨by norm_num, by norm_num⟩

theorem overhead_302 : header_len (List.replicate 240 'u') + mid_len + tail_len = 302 := by
  have e5 : tail_fmt.length = 1 := by decide
  unfold header_len mid_len tail_len
  rw [header_fmt_length, mid_fmt_length, e5, List.length_replicate]

/-- C3 (counterexample). With budget 65536 and two texts of 100000 bytes, the assembled body has
length 65534, not 65536: both for a mention target of 238 bytes (measured overhead 300, shares of
32618) and for one of 240 bytes (emitted fixed text of 300 bytes, measured overhead 302, shares of
32617). -/
theorem assembled_length_not_65536 :
    (issue_body GITHUB_BODY_LIMIT (List.replicate 238 'u') (List.replicate 100000 'a')
      (List.replicate 100000 'b')).length = 65534 ∧
    (issue_body GITHUB_BODY_LIMIT (List.replicate 238 'u') (List.replicate 100000 'a')
      (List.replicate 100000 'b')).length ≠ 65536 ∧
    sys_allow GITHUB_BODY_LIMIT (List.replicate 240 'u') = 32617 ∧
    (issue_body GITHUB_BODY_LIMIT (List.replicate 240 'u') (List.replicate 100000 'a')
      (List.replicate 100000 'b')).length = 65534 := by
  have h := issue_body_length_300 (List.replicate 238 'u') (List.replicate 100000 'a')
    (List.replicate 100000 'b') overhead_300 (List.length_replicate _ _)
    (List.length_replicate _ _)
  obtain ⟨s2, a2⟩ := shares_of_overhead_302 (List.replicate 240 'u') overhead_302
  have h2 := issue_body_length_truncated GITHUB_BODY_LIMIT (List.replicate 240 'u')
    (List.replicate 100000 'a') (List.replicate 100000 'b')
    (by rw [s2]; omega) (by rw [s2, List.length_replicate]; omega)
    (by rw [a2, List.length_replicate]; omega)
  have e : ∀ n : Nat, n + 2 = GITHUB_BODY_LIMIT → n = 65534 := by
    intro n hn
    unfold GITHUB_BODY_LIMIT at hn
    omega
  rw [h]
  exact ⟨rfl, by decide, s2, e _ h2⟩

/-- C3 (amended). For every text and share, the part built for it is the text unchanged when its
length is at most the share, and otherwise the first `share - 16` bytes of the text followed by
the 16-byte suffix `"\n... (truncated)"`; a truncated part has length exactly the share and
starts with a prefix of the text when the share exceeds 16, and is the suffix alone when the
share is at most 16.  Instance: two texts of 100000 bytes with budget 65536 and measured overhead
300 get shares of 32618 and parts of 32602 text bytes plus the suffix; the measured total is
65536 and the assembled body has length 65534. -/
theorem part_truncation (text : CStr) (share : Nat) (ping a b : CStr)
    (hp : header_len ping + mid_len + tail_len = 300)
    (ha : a.length = 100000) (hb : b.length = 100000) :
    (sys_part text share
        = if text.length ≤ share then text else text.take (share - 16) ++ trunc_suffix) ∧
    (ai_part text share
        = if text.length ≤ share then text else text.take (share - 16) ++ trunc_suffix) ∧
    trunc_suffix = "\n... (truncated)".toList ∧ trunc_suffix.length = 16 ∧
    (share < text.length → 16 < share →
        (sys_part text share).length = share ∧ (text.take (share - 16)).length = share - 16 ∧
        text.take (share - 16) <+: sys_part text share) ∧
    (share < text.length → share ≤ 16 → sys_part text share = trunc_suffix) ∧
    sys_allow GITHUB_BODY_LIMIT ping = 32618 ∧ ai_allow GITHUB_BODY_LIMIT ping = 32618 ∧
    sys_part a 32618 = a.take 32602 ++ trunc_suffix ∧
    ai_part b 32618 = b.take 32602 ++ trunc_suffix ∧
    (a.take 32602).length = 32602 ∧ (b.take 32602).length = 32602 ∧
    (sys_part a 32618).length = 32618 ∧ (ai_part b 32618).length = 32618 ∧
    body_needed GITHUB_BODY_LIMIT ping a b - 1 = 65536 ∧
    (issue_body GITHUB_BODY_LIMIT ping a b).length = 65534 := by
  obtain ⟨h1, h2⟩ := shares_of_overhead_300 ping hp
  have hsa := sys_part_length_of_lt a 32618 (by omega) (by omega)
  have hsb := sys_part_length_of_lt b 32618 (by omega) (by omega)
  refine ⟨sys_part_eq text share, ?_, rfl, by decide, ?_, ?_, h1, h2, ?_, ?_, ?_, ?_, hsa, ?_,
    ?_, issue_body_length_300 ping a b hp ha hb⟩
  · rw [ai_part_eq_sys_part]; exact sys_part_eq text share
  · intro hlt h16
    refine ⟨sys_part_length_of_lt text share hlt h16, ?_, ?_⟩
    · rw [List.length_take]; omega
    · rw [sys_part_eq, if_neg (by omega)]
      exact List.prefix_append _ _
  · intro hlt h16
    rw [sys_part_eq, if_neg (by omega)]
    have : share - 16 = 0 := by omega
    rw [this]; rfl
  · rw [sys_part_eq, if_neg (by omega)]
  · rw [ai_part_eq_sys_part, sys_part_eq, if_neg (by omega)]
  · rw [List.length_take]; omega
  · rw [List.length_take]; omega
  · rw [ai_part_eq_sys_part]; exact hsb
  · unfold body_needed
    rw [h1, h2, ai_part_eq_sys_part, hsa, hsb]
    omega

theorem part_truncation_witness :
    sys_part "0123456789abcdefghijklmnopqrstuvwxyz".toList 20
        = "0123".toList ++ trunc_suffix ∧
    (issue_body GITHUB_BODY_LIMIT (List.replicate 238 'u') (List.replicate 100000 'a')
      (List.replicate 100000 'b')).length = 65534 := by
  have h := part_truncation "0123456789abcdefghijklmnopqrstuvwxyz".toList 20
    (List.replicate 238 'u') (List.replicate 100000 'a') (List.replicate 100000 'b')
    overhead_300 (List.length_replicate _ _) (List.length_replicate _ _)
  refine ⟨?_, h.2.2.2.2.2.2.2.2.2.2.2.2.2.2.2⟩
  rw [h.1]
  decide

/-! ## The error detector -/

theorem strstr_isSome_iff (haystack needle : CStr) :
    (strstr haystack needle).isSome = true ↔ needle <:+: haystack := by
  induction haystack with
  | nil =>
    unfold strstr
    by_cases h : needle = []
    · simp [h]
    · simp [h]
  | cons c t ih =>
    unfold strstr
    rw [List.infix_cons_iff]
    by_cases h : needle.isPrefixOf (c :: t) = true
    · rw [if_pos h]
      simp only [Option.isSome_some, true_iff]
      exact Or.inl (List.isPrefixOf_iff_prefix.mp h)
    · rw [if_neg h, ih]
      constructor
      · exact Or.inr
      · rintro (h1 | h1)
        · exact absurd (List.isPrefixOf_iff_prefix.mpr h1) h
        · exact h1

theorem detect_loop_eq_one (text : CStr) (keywords : List CStr) (k : CStr)
    (hk : k ∈ keywords) (h : k <:+: text) : detect_loop text keywords = 1 := by
  induction keywords with
  | nil => cases hk
  | cons k0 rest ih =>
    unfold detect_loop
    by_cases h0 : (strstr text k0).isSome = true
    · rw [if_pos h0]
    · rw [if_neg h0]
      rcases List.mem_cons.mp hk with e | e
      · subst e
        exact absurd ((strstr_isSome_iff text k).mpr h) h0
      · exact ih e

theorem detect_loop_eq_zero (text : CStr) (keywords : List CStr)
    (h : ∀ k ∈ keywords, ¬ k <:+: text) : detect_loop text keywords = 0 := by
  induction keywords with
  | nil => rfl
  | cons k0 rest ih =>
    unfold detect_loop
    have h0 : ¬ (strstr text k0).isSome = true := fun hs =>
      h k0 (List.mem_cons_self _ _) ((strstr_isSome_iff text k0).mp hs)
    rw [if_neg h0]
    exact ih (fun k hk => h k (List.mem_cons_of_mem _ hk))

/-- C10 (counterexample). The report `"Kernel Error"` contains the text `"Error"`, and
`detect_errors` returns 0 for it. -/
theorem detect_errors_misses_capital_Error :
    "Error".toList <:+: "Kernel Error".toList ∧ detect_errors "Kernel Error".toList = 0 := by
  decide

/-- C10 (amended). `detect_errors` returns 1 for every report that contains the lowercase text
`"error"` anywhere, and returns 0 for every report that contains none of the keywords
`"error"`, `"fail"`, `"warn"`, `"critical"`; the match is case-sensitive. -/
theorem detect_errors_lowercase (text : CStr) :
    ("error".toList <:+: text → detect_errors text = 1) ∧
    ((∀ k ∈ error_keywords, ¬ k <:+: text) → detect_errors text = 0) := by
  constructor
  · intro h
    exact detect_loop_eq_one text error_keywords "error".toList (by decide) h
  · intro h
    exact detect_loop_eq_zero text error_keywords h

theorem detect_errors_lowercase_witness :
    detect_errors "disk error on sda".toList = 1 ∧ detect_errors "Kernel Error".toList = 0 :=
  ⟨(detect_errors_lowercase "disk error on sda".toList).1 (by decide),
   (detect_errors_lowercase "Kernel Error".toList).2 (by decide)⟩

/-! ## The section aggregator -/

theorem write_at_end (mem : List Char) (p : Nat) (bytes : List Char) (h : mem.length = p) :
    write_at mem p bytes = mem ++ bytes := by
  unfold write_at
  rw [← h, List.take_length, Nat.sub_self]
  simp

theorem snprintf_fits (size : Nat) (s : CStr) (h : s.length + 1 ≤ size) : snprintf size s = s := by
  unfold snprintf
  exact List.take_of_length_le (by omega)

theorem Buffer.wf_length (b : Buffer) (h : b.wf) : (b.buf.getD []).length = b.len := by
  rcases h with ⟨h1, h2, _⟩ | ⟨s, h1, h2, _⟩
  · rw [h1, h2]; rfl
  · rw [h1]; exact h2

theorem Buffer.wf_cap (b : Buffer) (h : b.wf) :
    (b.cap ≠ 0 → b.len + 1 ≤ b.cap) ∧ (b.cap = 0 → b.len = 0) := by
  rcases h with ⟨_, h2, h3⟩ | ⟨s, _, _, h3⟩
  · omega
  · omega

theorem section_delimiter_length (title : CStr) :
    ("== ".toList ++ title ++ " ==\n".toList).length = title.length + 7 := by
  simp only [List.length_append]
  have e1 : "== ".toList.length = 3 := by decide
  have e2 : " ==\n".toList.length = 4 := by decide
  omega

theorem note_length : note.length = 17 := by decide

theorem section_body_length_le (content : CStr) (limit : Nat) :
    (section_body content limit).length ≤ limit + note.length := by
  unfold section_body
  split_ifs with h
  · rw [List.length_append, List.length_take]; omega
  · omega

theorem append_section_spec (b : Buffer) (hwf : b.wf) (title content : Option CStr)
    (limit : Nat) :
    (append_section_with_limit true b title content limit).buf
        = some (b.buf.getD [] ++ render_section limit (title.getD [], content.getD "(no data)".toList)) ∧
    (append_section_with_limit true b title content limit).len
        = b.len + (render_section limit (title.getD [], content.getD "(no data)".toList)).length ∧
    (append_section_with_limit true b title content limit).len + 1
        ≤ (append_section_with_limit true b title content limit).cap := by
  have hlen := b.wf_length hwf
  obtain ⟨hc1, hc2⟩ := b.wf_cap hwf
  have hd := section_delimiter_length (title.getD [])
  have hn := note_length
  generalize hT : title.getD [] = t at *
  generalize hC : content.getD "(no data)".toList = c at *
  generalize hM : b.buf.getD [] = m at *
  unfold append_section_with_limit render_section section_body
  simp only [hT, hC, hM, Bool.not_true, Bool.and_false, Bool.false_eq_true, if_false]
  generalize hH : "== ".toList ++ t ++ " ==\n".toList = hdr at *
  by_cases hgt : c.length > limit
  · simp only [if_pos hgt]
    generalize hcap : (if decide (b.len + (t.length + 4 + (limit + 32) + 4) + 1 > b.cap) = true
      then (if b.cap = 0 then t.length + 4 + (limit + 32) + 4 + 1024
        else b.cap * 2 + (t.length + 4 + (limit + 32) + 4)) else b.cap) = cap
    have hcap2 : b.len + (t.length + 4 + (limit + 32) + 4) + 1 ≤ cap := by
      rw [← hcap]
      split_ifs with h1 h2
      · have := hc2 h2; omega
      · have := hc1 h2; omega
      · simp only [gt_iff_lt, decide_eq_true_eq, not_lt] at h1; omega
    have htk : (List.take limit c).length = limit := by rw [List.length_take]; omega
    rw [snprintf_fits _ _ (by omega), write_at_end m _ hdr hlen,
      write_at_end (m ++ hdr) _ (List.take limit c) (by rw [List.length_append]; omega),
      write_at_end (m ++ hdr ++ List.take limit c) _ note
        (by simp only [List.length_append]; omega),
      write_at_end (m ++ hdr ++ List.take limit c ++ note) _ [newline]
        (by simp only [List.length_append]; omega)]
    refine ⟨by simp only [List.append_assoc], ?_, ?_⟩
    · simp only [List.length_append, List.length_singleton]; omega
    · omega
  · simp only [if_neg hgt]
    generalize hcap : (if decide (b.len + (t.length + 4 + c.length + 4) + 1 > b.cap) = true
      then (if b.cap = 0 then t.length + 4 + c.length + 4 + 1024
        else b.cap * 2 + (t.length + 4 + c.length + 4)) else b.cap) = cap
    have hcap2 : b.len + (t.length + 4 + c.length + 4) + 1 ≤ cap := by
      rw [← hcap]
      split_ifs with h1 h2
      · have := hc2 h2; omega
      · have := hc1 h2; omega
      · simp only [gt_iff_lt, decide_eq_true_eq, not_lt] at h1; omega
    rw [snprintf_fits _ _ (by omega), write_at_end m _ hdr hlen,
      write_at_end (m ++ hdr) _ c (by rw [List.length_append]; omega),
      write_at_end (m ++ hdr ++ c) _ [newline] (by simp only [List.length_append]; omega)]
    refine ⟨by simp only [List.append_assoc], ?_, ?_⟩
    · simp only [List.length_append, List.length_singleton]; omega
    · omega

theorem append_section_wf (b : Buffer) (hwf : b.wf) (title content : Option CStr) (limit : Nat) :
    (append_section_with_limit true b title content limit).wf := by
  obtain ⟨h1, h2, h3⟩ := append_section_spec b hwf title content limit
  refine Or.inr ⟨_, h1, ?_, h3⟩
  rw [h2, List.length_append, b.wf_length hwf]

theorem append_section_data (b : Buffer) (hwf : b.wf) (title content : CStr) (limit : Nat) :
    (append_section_with_limit true b (some title) (some content) limit).buf
      = some (b.buf.getD [] ++ render_section limit (title, content)) :=
  (append_section_spec b hwf (some title) (some content) limit).1

theorem null_buffer_wf : Buffer.wf { buf := none, len := 0, cap := 0 } :=
  Or.inl ⟨rfl, rfl, rfl⟩

/-- C4. For every well-formed buffer, title, limit and content (allocation succeeding), the
content that `append_section_with_limit` emits between the delimiter line and the final newline
of the section has length at most `limit + 17`; when the content is longer than the limit it is
the first `limit` bytes followed by the marker `"\n... (truncated)\n"`, so its length is exactly
`limit + 17` and it ends with the marker. -/
theorem section_content_truncated (b : Buffer) (title content : Option CStr) (limit : Nat)
    (hwf : b.wf) :
    ∃ body : CStr,
      (append_section_with_limit true b title content limit).buf
        = some (b.buf.getD [] ++ ("== ".toList ++ title.getD [] ++ " ==\n".toList) ++ body
            ++ [newline]) ∧
      note = "\n... (truncated)\n".toList ∧ note.length = 17 ∧
      body.length ≤ limit + note.length ∧
      ((content.getD "(no data)".toList).length > limit →
        body = (content.getD "(no data)".toList).take limit ++ note ∧
        ((content.getD "(no data)".toList).take limit).length = limit ∧
        body.length = limit + note.length ∧ note <:+ body) := by
  refine ⟨section_body (content.getD "(no data)".toList) limit, ?_, rfl, note_length,
    section_body_length_le _ _, ?_⟩
  · rw [(append_section_spec b hwf title content limit).1]
    unfold render_section
    simp only [List.append_assoc]
  · intro h
    have htk : ((content.getD "(no data)".toList).take limit).length = limit := by
      rw [List.length_take]; omega
    unfold section_body
    rw [if_pos h]
    refine ⟨rfl, htk, ?_, List.suffix_append _ _⟩
    rw [List.length_append, htk]

theorem section_content_truncated_witness :
    ∃ body : CStr,
      (append_section_with_limit true { buf := none, len := 0, cap := 0 } (some "Log".toList)
          (some "0123456789".toList) 4).buf
        = some (([] : CStr) ++ ("== ".toList ++ "Log".toList ++ " ==\n".toList) ++ body
            ++ [newline]) ∧
      note = "\n... (truncated)\n".toList ∧ note.length = 17 ∧
      body.length ≤ 4 + note.length ∧
      ("0123456789".toList.length > 4 →
        body = "0123456789".toList.take 4 ++ note ∧
        ("0123456789".toList.take 4).length = 4 ∧
        body.length = 4 + note.length ∧ note <:+ body) :=
  section_content_truncated { buf := none, len := 0, cap := 0 } (some "Log".toList)
    (some "0123456789".toList) 4 null_buffer_wf

/-- C5. For every well-formed buffer, title, content and limit (allocation succeeding),
`append_section_with_limit` keeps the previous bytes as a prefix and appends exactly
`"== " + title + " ==\n" + body + "\n"`, where `body` is the content when its length is at most
the limit and otherwise its first `limit` bytes followed by `"\n... (truncated)\n"`; an absent
title counts as the empty string and an absent content as `"(no data)"`; the new length is the
old length plus the length of the appended text. -/
theorem append_section_appends (b : Buffer) (title content : Option CStr) (limit : Nat)
    (hwf : b.wf) :
    (append_section_with_limit true b title content limit).buf
      = some (b.buf.getD [] ++
          ("== ".toList ++ title.getD [] ++ " ==\n".toList
            ++ (if (content.getD "(no data)".toList).length ≤ limit
                then content.getD "(no data)".toList
                else (content.getD "(no data)".toList).take limit ++ "\n... (truncated)\n".toList)
            ++ "\n".toList)) ∧
    (append_section_with_limit true b title content limit).len
      = b.len +
          ("== ".toList ++ title.getD [] ++ " ==\n".toList
            ++ (if (content.getD "(no data)".toList).length ≤ limit
                then content.getD "(no data)".toList
                else (content.getD "(no data)".toList).take limit ++ "\n... (truncated)\n".toList)
            ++ "\n".toList).length := by
  have hb : ∀ c : CStr, section_body c limit
      = if c.length ≤ limit then c else c.take limit ++ "\n... (truncated)\n".toList := by
    intro c
    unfold section_body
    by_cases h : c.length ≤ limit
    · rw [if_pos h, if_neg (by omega)]
    · rw [if_neg h, if_pos (by omega)]; rfl
  obtain ⟨h1, h2, _⟩ := append_section_spec b hwf title content limit
  unfold render_section at h1 h2
  rw [hb] at h1 h2
  exact ⟨h1, h2⟩

theorem append_section_appends_witness :
    (append_section_with_limit true { buf := some "old\n".toList, len := 4, cap := 5 } none none
        3).buf
      = some ("old\n".toList ++ "==  ==\n(no\n... (truncated)\n\n".toList) := by
  have h := (append_section_appends { buf := some "old\n".toList, len := 4, cap := 5 } none none 3
    (Or.inr ⟨"old\n".toList, rfl, by decide, by decide⟩)).1
  rw [h]
  decide

/-! ## The executor when allocation succeeds -/

theorem read_loop_isSome (env : Env) (h : env.alloc_ok) (log : List CStr) (fuel : Nat) :
    ∀ (stream : List Char) (acc : CStr),
      (read_loop env log fuel stream (some acc)).isSome = true := by
  induction fuel with
  | zero => intro stream acc; rfl
  | succ n ih =>
    intro stream acc
    unfold read_loop
    by_cases hs : stream = []
    · rw [if_pos hs]; rfl
    · rw [if_neg hs, if_pos (h log 85)]
      exact ih _ _

theorem execute_command_log (env : Env) (st : State) (cmd : CStr) :
    (execute_command env st cmd).2 = { st with log := st.log ++ [cmd] } := by
  unfold execute_command
  cases env.popen st.log cmd <;> rfl

theorem execute_command_isSome (env : Env) (h : env.alloc_ok) (st : State) (cmd : CStr) :
    (execute_command env st cmd).1.isSome = true := by
  unfold execute_command strdup
  simp only [h _, if_true]
  cases env.popen st.log cmd with
  | none => rfl
  | some stream => exact read_loop_isSome env h _ _ _ _

theorem execute_privileged_command_isSome (env : Env) (h : env.alloc_ok) (st : State)
    (cmd : CStr) : (execute_privileged_command env st cmd).1.isSome = true := by
  unfold execute_privileged_command escape_single_quotes
  simp only [h _, if_true]
  by_cases h0 : env.euid = 0
  · rw [if_pos h0]
    exact execute_command_isSome env h _ _
  · rw [if_neg h0]
    cases find_pkexec env with
    | none => exact execute_command_isSome env h _ _
    | some p => exact execute_command_isSome env h _ _

theorem execute_command_empty (env : Env) (h : env.alloc_ok)
    (he : ∀ log cmd, env.popen log cmd = some []) (st : State) (cmd : CStr) :
    (execute_command env st cmd).1 = some [] := by
  unfold execute_command strdup
  simp only [h _, if_true, he]
  rfl

theorem execute_privileged_command_empty (env : Env) (h : env.alloc_ok)
    (he : ∀ log cmd, env.popen log cmd = some []) (st : State) (cmd : CStr) :
    (execute_privileged_command env st cmd).1 = some [] := by
  unfold execute_privileged_command escape_single_quotes
  simp only [h _, if_true]
  by_cases h0 : env.euid = 0
  · rw [if_pos h0]
    exact execute_command_empty env h he _ _
  · rw [if_neg h0]
    cases find_pkexec env with
    | none => exact execute_command_empty env h he _ _
    | some p => exact execute_command_empty env h he _ _

/-! ## The report as a sequence of sections -/

theorem render_sections_append (limit : Nat) (a b : List (CStr × CStr)) :
    render_sections limit (a ++ b) = render_sections limit a ++ render_sections limit b := by
  induction a with
  | nil => rfl
  | cons s rest ih =>
    show render_section limit s ++ render_sections limit (rest ++ b) = _
    rw [ih]
    simp only [render_sections, List.append_assoc]

theorem gather_fixed_spec_of_realloc (env : Env) (h : ∀ log, env.alloc log 297 = true)
    (st : State) (info : Option SystemInfo) :
    (gather_fixed env st info).wf ∧
    (gather_fixed env st info).buf
      = some (render_sections SECTION_LIMIT (fixed_sections env st info)) := by
  unfold gather_fixed fixed_sections
  simp only [h _]
  have w0 := null_buffer_wf
  have w1 := append_section_wf _ w0 (some title_meta) (some (meta_text info)) SECTION_LIMIT
  have w2 := append_section_wf _ w1 (some title_svc) (some ((svc env st).1.getD none_text))
    SECTION_LIMIT
  have w3 := append_section_wf _ w2 (some title_journal)
    (some ((journal env st).1.getD none_text)) SECTION_LIMIT
  have w4 := append_section_wf _ w3 (some title_dmesg)
    (some ((dmesg env st).1.getD none_text)) SECTION_LIMIT
  have w5 := append_section_wf _ w4 (some title_pac)
    (some ((pac env st).1.getD none_text)) SECTION_LIMIT
  refine ⟨append_section_wf _ w5 _ _ _, ?_⟩
  rw [append_section_data _ w5, append_section_data _ w4, append_section_data _ w3,
    append_section_data _ w2, append_section_data _ w1, append_section_data _ w0]
  simp only [render_sections, Option.getD_some, Option.getD_none, List.nil_append,
    List.append_nil, List.append_assoc]

theorem gather_fixed_spec (env : Env) (h : env.alloc_ok) (st : State) (info : Option SystemInfo) :
    (gather_fixed env st info).wf ∧
    (gather_fixed env st info).buf
      = some (render_sections SECTION_LIMIT (fixed_sections env st info)) :=
  gather_fixed_spec_of_realloc env (fun log => h log 297) st info

theorem gather_report_of_realloc (env : Env) (h : ∀ log, env.alloc log 297 = true)
    (st : State) (info : Option SystemInfo) :
    (gather_all_errors env st info).1
      = some (render_sections SECTION_LIMIT (gather_sections env st info)) := by
  obtain ⟨w6, e6⟩ := gather_fixed_spec_of_realloc env h st info
  have e6d : (gather_fixed env st info).buf.getD []
      = render_sections SECTION_LIMIT (fixed_sections env st info) := by rw [e6]; rfl
  unfold gather_all_errors gather_sections unit_sections
  rw [render_sections_append]
  cases hl : (unit_list env st).1 with
  | none => simp only [e6, render_sections, List.append_nil]
  | some list =>
    by_cases hpos : list.length > 0
    · simp only [if_pos hpos]
      unfold gather_units
      simp only [h _]
      have w7 := append_section_wf _ w6 (some title_units)
        (some "Collecting unit statuses...".toList) SECTION_LIMIT
      have e7 := append_section_data _ w6 title_units "Collecting unit statuses...".toList
        SECTION_LIMIT
      cases hm : env.mkstemp with
      | none =>
        simp only [e7, e6d, render_sections, List.append_nil]
      | some tmpf =>
        dsimp only
        cases hu : (units_status env st tmpf).1 with
        | none => simp only [e7, e6d, render_sections, List.append_nil]
        | some status =>
          simp only [append_section_data _ w7, e7, Option.getD_some, e6d, render_sections,
            List.append_nil, List.append_assoc]
    · simp only [if_neg hpos, e6, render_sections, List.append_nil]

theorem gather_report (env : Env) (h : env.alloc_ok) (st : State) (info : Option SystemInfo) :
    (gather_all_errors env st info).1
      = some (render_sections SECTION_LIMIT (gather_sections env st info)) :=
  gather_report_of_realloc env (fun log => h log 297) st info

theorem unit_sections_titles (env : Env) (h : env.alloc_ok) (st : State) :
    (unit_sections env st).map Prod.fst
      = if (unit_list env st).1.getD [] = [] then []
        else if env.mkstemp.isSome = true then [title_units, title_units_detail]
        else [title_units] := by
  unfold unit_sections
  cases hl : (unit_list env st).1 with
  | none => simp
  | some list =>
    cases list with
    | nil => simp
    | cons c t =>
      simp only [List.length_cons, gt_iff_lt, Nat.zero_lt_succ, if_true, Option.getD_some,
        reduceCtorEq, if_false]
      cases hm : env.mkstemp with
      | none => simp
      | some tmpf =>
        have hu := execute_privileged_command_isSome env h (unit_list env st).2
          (cmd_units_status tmpf)
        change (units_status env st tmpf).1.isSome = true at hu
        cases hs : (units_status env st tmpf).1 with
        | none => rw [hs] at hu; cases hu
        | some status => simp [hs]

theorem gather_titles (env : Env) (h : env.alloc_ok) (st : State) (info : Option SystemInfo) :
    (gather_sections env st info).map Prod.fst
      = all_titles.take 6 ++
        (if (unit_list env st).1.getD [] = [] then []
         else if env.mkstemp.isSome = true then [title_units, title_units_detail]
         else [title_units]) := by
  unfold gather_sections
  rw [List.map_append, unit_sections_titles env h st]
  rfl

/-- C6. For every `SystemInfo` and every outcome of the commands (allocation succeeding), the
string returned by `gather_all_errors` is the concatenation of the renderings of its sections,
and the titles of these sections are the first 6, 7 or 8 entries of one fixed list: System
Metadata, Systemd Failed Units, Journalctl (errors), Kernel dmesg (err,warn), Pacman Log Errors,
Other /var/log Matches (grep -i 'error'), then the per-unit status sections. -/
theorem report_sections_in_fixed_order (env : Env) (st : State) (info : Option SystemInfo)
    (h : env.alloc_ok) :
    (gather_all_errors env st info).1
      = some (render_sections SECTION_LIMIT (gather_sections env st info)) ∧
    all_titles = ["System Metadata".toList, "Systemd Failed Units".toList,
      "Journalctl (errors)".toList, "Kernel dmesg (err,warn)".toList,
      "Pacman Log Errors".toList, "Other /var/log Matches (grep -i 'error')".toList,
      "Failed Unit Statuses (truncated)".toList, "Detailed Failed Unit Statuses".toList] ∧
    ∃ n, 6 ≤ n ∧ n ≤ 8 ∧ (gather_sections env st info).map Prod.fst = all_titles.take n := by
  refine ⟨gather_report env h st info, rfl, ?_⟩
  rw [gather_titles env h st info]
  split_ifs
  · exact ⟨6, by omega, by omega, by simp⟩
  · exact ⟨8, by omega, by omega, rfl⟩
  · exact ⟨7, by omega, by omega, rfl⟩

theorem report_sections_in_fixed_order_witness :
    (gather_all_errors one_failed_unit_env init_state none).1
      = some (render_sections SECTION_LIMIT (gather_sections one_failed_unit_env init_state none)) :=
  (report_sections_in_fixed_order one_failed_unit_env init_state none (fun _ _ => rfl)).1

set_option maxRecDepth 20000 in
/-- C7 (counterexample). Two collection outcomes: when no unit has failed (empty listing) the
report has the six fixed sections; when one unit has failed it has eight. -/
theorem section_count_depends_on_unit_listing :
    (gather_all_errors quiet_env init_state none).1
      = some "== System Metadata ==\nHostname: (unknown)\nKernel: (unknown)\nOS Release: (unknown)\nUptime: (unknown)\n\n\n== Systemd Failed Units ==\n\n== Journalctl (errors) ==\n\n== Kernel dmesg (err,warn) ==\n\n== Pacman Log Errors ==\n\n== Other /var/log Matches (grep -i 'error') ==\n\n".toList ∧
    (gather_all_errors one_failed_unit_env init_state none).1
      = some "== System Metadata ==\nHostname: (unknown)\nKernel: (unknown)\nOS Release: (unknown)\nUptime: (unknown)\n\n\n== Systemd Failed Units ==\nfoo.service loaded failed failed Foo\n\n== Journalctl (errors) ==\n\n== Kernel dmesg (err,warn) ==\n\n== Pacman Log Errors ==\n\n== Other /var/log Matches (grep -i 'error') ==\n\n== Failed Unit Statuses (truncated) ==\nCollecting unit statuses...\n== Detailed Failed Unit Statuses ==\nx foo.service - Foo\n---\n\n".toList ∧
    (gather_sections quiet_env init_state none).map Prod.fst = all_titles.take 6 ∧
    (gather_sections one_failed_unit_env init_state none).map Prod.fst = all_titles ∧
    (gather_sections quiet_env init_state none).length
      ≠ (gather_sections one_failed_unit_env init_state none).length := by
  decide

/-- C7 (amended). For any two collection outcomes (allocation succeeding), both reports are the
renderings of their sections and start with the same six sections, with the same titles in the
same order; the section "Failed Unit Statuses (truncated)" is present exactly when the listing of
failed units is non-empty, and "Detailed Failed Unit Statuses" exactly when moreover the
temporary file could be created. -/
theorem fixed_sections_same_titles (env1 env2 : Env) (st1 st2 : State)
    (info1 info2 : Option SystemInfo) (h1 : env1.alloc_ok) (h2 : env2.alloc_ok) :
    (gather_all_errors env1 st1 info1).1
      = some (render_sections SECTION_LIMIT (gather_sections env1 st1 info1)) ∧
    (gather_all_errors env2 st2 info2).1
      = some (render_sections SECTION_LIMIT (gather_sections env2 st2 info2)) ∧
    ((gather_sections env1 st1 info1).map Prod.fst).take 6
      = ((gather_sections env2 st2 info2).map Prod.fst).take 6 ∧
    ((gather_sections env1 st1 info1).map Prod.fst).take 6 = all_titles.take 6 ∧
    (title_units ∈ (gather_sections env1 st1 info1).map Prod.fst
      ↔ (unit_list env1 st1).1.getD [] ≠ []) ∧
    (title_units_detail ∈ (gather_sections env1 st1 info1).map Prod.fst
      ↔ ((unit_list env1 st1).1.getD [] ≠ [] ∧ env1.mkstemp.isSome = true)) := by
  have t1 := gather_titles env1 h1 st1 info1
  have t2 := gather_titles env2 h2 st2 info2
  have e6 : ∀ l : List CStr, (all_titles.take 6 ++ l).take 6 = all_titles.take 6 := by
    intro l
    rw [List.take_append_of_le_length (by decide)]
    rfl
  have n1 : title_units ∉ all_titles.take 6 := by decide
  have n2 : title_units_detail ∉ all_titles.take 6 := by decide
  have n3 : title_units_detail ≠ title_units := by decide
  refine ⟨gather_report env1 h1 st1 info1, gather_report env2 h2 st2 info2, ?_, ?_, ?_, ?_⟩
  · rw [t1, t2, e6, e6]
  · rw [t1, e6]
  · rw [t1, List.mem_append]
    split_ifs with ha hb
    · simp [n1, ha]
    · simp [ha]
    · simp [ha]
  · rw [t1, List.mem_append]
    split_ifs with ha hb
    · simp [n2, ha]
    · simp [ha, hb]
    · simp [n2, n3, ha, hb]

theorem fixed_sections_same_titles_witness :
    ((gather_sections quiet_env init_state none).map Prod.fst).take 6
      = ((gather_sections one_failed_unit_env init_state none).map Prod.fst).take 6 :=
  (fixed_sections_same_titles quiet_env one_failed_unit_env init_state init_state none none
    (fun _ _ => rfl) (fun _ _ => rfl)).2.2.1

theorem meta_text_length_le (info : Option SystemInfo) : (meta_text info).length ≤ 1023 := by
  unfold meta_text snprintf
  rw [List.length_take]
  omega

theorem gather_sections_of_empty_outputs (env : Env) (h : env.alloc_ok)
    (he : ∀ log cmd, env.popen log cmd = some []) (st : State) (info : Option SystemInfo) :
    gather_sections env st info
      = [(title_meta, meta_text info), (title_svc, []), (title_journal, []), (title_dmesg, []),
         (title_pac, []), (title_others, [])] := by
  have e1 : (svc env st).1 = some [] := execute_command_empty env h he _ _
  have e2 : (journal env st).1 = some [] := execute_privileged_command_empty env h he _ _
  have e3 : (dmesg env st).1 = some [] := execute_privileged_command_empty env h he _ _
  have e4 : (pac env st).1 = some [] := execute_privileged_command_empty env h he _ _
  have e5 : (others env st).1 = some [] := execute_privileged_command_empty env h he _ _
  have e6 : (unit_list env st).1 = some [] := execute_command_empty env h he _ _
  unfold gather_sections fixed_sections unit_sections
  rw [e1, e2, e3, e4, e5, e6]
  rfl

set_option maxRecDepth 20000 in
theorem gather_report_of_empty_outputs (env : Env) (h : env.alloc_ok)
    (he : ∀ log cmd, env.popen log cmd = some []) (st : State) (info : Option SystemInfo) :
    (gather_all_errors env st info).1
      = some ("== System Metadata ==\n".toList ++ meta_text info
          ++ "\n== Systemd Failed Units ==\n\n== Journalctl (errors) ==\n\n== Kernel dmesg (err,warn) ==\n\n== Pacman Log Errors ==\n\n== Other /var/log Matches (grep -i 'error') ==\n\n".toList) := by
  rw [gather_report env h st info, gather_sections_of_empty_outputs env h he st info]
  have hm := meta_text_length_le info
  have hb : section_body (meta_text info) SECTION_LIMIT = meta_text info := by
    unfold section_body SECTION_LIMIT
    rw [if_neg (by omega)]
  simp only [render_sections, render_section, hb, List.append_nil, List.append_assoc]
  rfl

/-- C8 (counterexample). When every command prints nothing, the five command sections of the
report are empty and the metadata section holds the metadata lines: no section has the content
`"(none)"`. -/
theorem empty_outputs_show_no_placeholder :
    (∀ log cmd, quiet_env.popen log cmd = some []) ∧
    (gather_sections quiet_env init_state none).map Prod.snd
      = ["Hostname: (unknown)\nKernel: (unknown)\nOS Release: (unknown)\nUptime: (unknown)\n\n".toList,
         [], [], [], [], []] ∧
    ¬ (∀ s ∈ gather_sections quiet_env init_state none, s.2 = "(none)".toList) := by
  refine ⟨fun _ _ => rfl, ?_, ?_⟩
  · decide
  · decide

/-- C8 (amended). When every command run by `gather_all_errors` prints nothing (allocation
succeeding), the report consists of the six fixed sections in the fixed order and no per-unit
section; the System Metadata section holds the formatted metadata and each of the five command
sections has empty content, because `execute_command` returns the empty string and not `NULL`
for empty output. -/
theorem empty_outputs_report (env : Env) (st : State) (info : Option SystemInfo)
    (h : env.alloc_ok) (he : ∀ log cmd, env.popen log cmd = some []) :
    gather_sections env st info
      = [("System Metadata".toList, meta_text info), ("Systemd Failed Units".toList, []),
         ("Journalctl (errors)".toList, []), ("Kernel dmesg (err,warn)".toList, []),
         ("Pacman Log Errors".toList, []),
         ("Other /var/log Matches (grep -i 'error')".toList, [])] ∧
    (gather_all_errors env st info).1
      = some ("== System Metadata ==\n".toList ++ meta_text info
          ++ "\n== Systemd Failed Units ==\n\n== Journalctl (errors) ==\n\n== Kernel dmesg (err,warn) ==\n\n== Pacman Log Errors ==\n\n== Other /var/log Matches (grep -i 'error') ==\n\n".toList) ∧
    (∀ (s : State) (cmd : CStr), (execute_command env s cmd).1 = some []) :=
  ⟨gather_sections_of_empty_outputs env h he st info,
   gather_report_of_empty_outputs env h he st info,
   fun s cmd => execute_command_empty env h he s cmd⟩

theorem empty_outputs_report_witness :
    gather_sections quiet_env init_state none
      = [("System Metadata".toList, meta_text none), ("Systemd Failed Units".toList, []),
         ("Journalctl (errors)".toList, []), ("Kernel dmesg (err,warn)".toList, []),
         ("Pacman Log Errors".toList, []),
         ("Other /var/log Matches (grep -i 'error')".toList, [])] :=
  (empty_outputs_report quiet_env init_state none (fun _ _ => rfl) (fun _ _ => rfl)).1

theorem long_os_release_meta_text :
    meta_text (some long_os_release_info)
      = "Hostname: h\nKernel: k\nOS Release: ".toList ++ List.replicate 989 'x' := by
  unfold meta_text snprintf long_os_release_info unknown_text
  simp only [Option.some_bind, Option.getD_some, List.append_assoc]
  have e : "Hostname: ".toList ++ ("h".toList ++ ("\nKernel: ".toList ++ ("k".toList
      ++ ("\nOS Release: ".toList ++ (List.replicate 2000 'x' ++ ("\nUptime: ".toList
      ++ ("up 2 weeks".toList ++ "\n\n".toList)))))))
      = "Hostname: h\nKernel: k\nOS Release: ".toList ++ (List.replicate 2000 'x'
        ++ "\nUptime: up 2 weeks\n\n".toList) := by
    have e1 : "Hostname: h\nKernel: k\nOS Release: ".toList
        = "Hostname: ".toList ++ ("h".toList ++ ("\nKernel: ".toList ++ ("k".toList
          ++ "\nOS Release: ".toList))) := by decide
    have e2 : "\nUptime: up 2 weeks\n\n".toList
        = "\nUptime: ".toList ++ ("up 2 weeks".toList ++ "\n\n".toList) := by decide
    rw [e1, e2]
    simp only [List.append_assoc]
  rw [e]
  have l1 : "Hostname: h\nKernel: k\nOS Release: ".toList.length = 34 := by decide
  rw [List.take_append_eq_append_take, List.take_append_eq_append_take, l1,
    List.length_replicate, List.take_replicate]
  have t1 : List.take (1024 - 1) "Hostname: h\nKernel: k\nOS Release: ".toList
      = "Hostname: h\nKernel: k\nOS Release: ".toList :=
    List.take_of_length_le (by rw [l1]; omega)
  rw [t1]
  have n1 : min (1024 - 1 - 34) 2000 = 989 := by decide
  have n2 : 1024 - 1 - 34 - 2000 = 0 := by decide
  rw [n1, n2, List.take_zero, List.append_nil]

theorem not_infix_of_mem (c : Char) (needle haystack : CStr) (hc : c ∈ needle)
    (hn : c ∉ haystack) : ¬ needle <:+: haystack :=
  fun h => hn (h.subset hc)

set_option maxRecDepth 20000 in
/-- C9 (failing input). With an OS-release text of 2000 bytes, the metadata section of the report
holds only the first 1023 bytes of the formatted metadata: the OS-release text is cut after 989
bytes, the uptime field is absent, and the report contains no truncation marker. -/
theorem metadata_cut_without_marker :
    ∃ report : CStr,
      (gather_all_errors quiet_env init_state (some long_os_release_info)).1 = some report ∧
      report = "== System Metadata ==\nHostname: h\nKernel: k\nOS Release: ".toList
        ++ List.replicate 989 'x'
        ++ "\n== Systemd Failed Units ==\n\n== Journalctl (errors) ==\n\n== Kernel dmesg (err,warn) ==\n\n== Pacman Log Errors ==\n\n== Other /var/log Matches (grep -i 'error') ==\n\n".toList ∧
      long_os_release_info.os_release = some (List.replicate 2000 'x') ∧
      long_os_release_info.uptime = some "up 2 weeks".toList ∧
      ¬ (List.replicate 2000 'x' <:+: report) ∧
      ¬ ("up 2 weeks".toList <:+: report) ∧
      ¬ (note <:+: report) := by
  refine ⟨_, ?_, rfl, rfl, rfl, ?_, ?_, ?_⟩
  · rw [gather_report_of_empty_outputs quiet_env (fun _ _ => rfl) (fun _ _ => rfl),
      long_os_release_meta_text]
    have e : "== System Metadata ==\nHostname: h\nKernel: k\nOS Release: ".toList
        = "== System Metadata ==\n".toList ++ "Hostname: h\nKernel: k\nOS Release: ".toList := by
      decide
    rw [e]
    simp only [List.append_assoc]
  · intro h
    have hl := h.length_le
    simp only [List.length_append, List.length_replicate] at hl
    revert hl
    decide
  · refine not_infix_of_mem '2' _ _ (by decide) ?_
    simp only [List.mem_append, List.mem_replicate, not_or]
    exact ⟨⟨by decide, by decide⟩, by decide⟩
  · refine not_infix_of_mem '.' _ _ (by decide) ?_
    simp only [List.mem_append, List.mem_replicate, not_or]
    exact ⟨⟨by decide, by decide⟩, by decide⟩

/-! ## The error detector, exactly -/

theorem detect_loop_values (text : CStr) (keywords : List CStr) :
    detect_loop text keywords = 1 ∨ detect_loop text keywords = 0 := by
  induction keywords with
  | nil => exact Or.inr rfl
  | cons k rest ih =>
    unfold detect_loop
    split_ifs
    · exact Or.inl rfl
    · exact ih

/-- C11. For every text, `detect_errors` returns 1 exactly when the text contains one of the four
lowercase keywords `"error"`, `"fail"`, `"warn"`, `"critical"` as a contiguous substring
(case-sensitive, no word boundary needed: `"terror"` and `"failover"` count), and 0 otherwise. -/
theorem detect_errors_iff_keyword (text : CStr) :
    error_keywords = ["error".toList, "fail".toList, "warn".toList, "critical".toList] ∧
    (detect_errors text = 1 ↔ ∃ k ∈ error_keywords, k <:+: text) ∧
    (detect_errors text = 0 ↔ ¬ ∃ k ∈ error_keywords, k <:+: text) ∧
    detect_errors "terror".toList = 1 ∧ detect_errors "failover".toList = 1 ∧
    detect_errors "ERROR Fail Warn CRITICAL".toList = 0 := by
  have h1 : (∃ k ∈ error_keywords, k <:+: text) → detect_errors text = 1 := by
    rintro ⟨k, hk, hin⟩
    exact detect_loop_eq_one text error_keywords k hk hin
  have h0 : (¬ ∃ k ∈ error_keywords, k <:+: text) → detect_errors text = 0 := by
    intro hn
    exact detect_loop_eq_zero text error_keywords (fun k hk hin => hn ⟨k, hk, hin⟩)
  refine ⟨rfl, ⟨?_, h1⟩, ⟨?_, h0⟩, by decide, by decide, by decide⟩
  · intro h
    by_contra hn
    rw [h0 hn] at h
    exact absurd h (by decide)
  · intro h hex
    rw [h1 hex] at h
    exact absurd h (by decide)

/-! ## The privileged executor -/

theorem execute_command_flag (env : Env) (st : State) (cmd : CStr) :
    (execute_command env st cmd).2.polkit_authenticated = st.polkit_authenticated := by
  rw [execute_command_log]

theorem execute_command_log_eq (env : Env) (st : State) (cmd : CStr) :
    (execute_command env st cmd).2.log = st.log ++ [cmd] := by
  rw [execute_command_log]

theorem find_pkexec_none (env : Env) (h : ∀ p ∈ pkexec_paths, env.access_x p = false) :
    find_pkexec env = none := by
  unfold find_pkexec
  rw [List.find?_eq_none]
  intro p hp
  rw [h p hp]
  exact Bool.false_ne_true

theorem find_pkexec_cases (env : Env) (helper : CStr) (h : find_pkexec env = some helper) :
    (helper = "/usr/bin/pkexec".toList ∧ env.access_x "/usr/bin/pkexec".toList = true) ∨
    (helper = "/bin/pkexec".toList ∧ env.access_x "/usr/bin/pkexec".toList = false ∧
      env.access_x "/bin/pkexec".toList = true) := by
  unfold find_pkexec pkexec_paths at h
  simp only [List.find?] at h
  cases h1 : env.access_x "/usr/bin/pkexec".toList with
  | true =>
    rw [h1] at h
    exact Or.inl ⟨(Option.some.inj h).symm, rfl⟩
  | false =>
    rw [h1] at h
    cases h2 : env.access_x "/bin/pkexec".toList with
    | true =>
      rw [h2] at h
      exact Or.inr ⟨(Option.some.inj h).symm, rfl, rfl⟩
    | false =>
      rw [h2] at h
      cases h

theorem wrapped_cmd_eq (pkexec cmd : CStr) :
    wrapped_cmd pkexec cmd
      = pkexec ++ " /bin/sh -c '".toList ++ escape_loop cmd ++ "' 2>&1".toList := by
  unfold wrapped_cmd
  apply snprintf_fits
  simp only [List.length_append]
  have e1 : " /bin/sh -c '' 2>&1".toList.length = 19 := by decide
  have e2 : " /bin/sh -c '".toList.length = 13 := by decide
  have e3 : "' 2>&1".toList.length = 6 := by decide
  omega

theorem execute_privileged_command_eq (env : Env) (st : State) (cmd helper : CStr)
    (hroot : env.euid ≠ 0) (hh : find_pkexec env = some helper) (ha : env.alloc_ok) :
    execute_privileged_command env st cmd
      = execute_command env (if st.polkit_authenticated then st else run_probe env st helper)
          (wrapped_cmd helper cmd) := by
  unfold execute_privileged_command escape_single_quotes wrapped_cmd
  rw [if_neg hroot, hh]
  simp only [ha _, if_true]

/-- C14. For every command, when the caller already has effective uid 0, or when neither helper
path is executable, `execute_privileged_command` is `execute_command`: the one command handed to
the shell is `cmd` itself, no probe is run, the output returned is that of `cmd`, and the
authentication flag is unchanged. -/
theorem privileged_same_as_plain (env : Env) (st : State) (cmd : CStr)
    (h : env.euid = 0 ∨ ∀ p ∈ pkexec_paths, env.access_x p = false) :
    execute_privileged_command env st cmd = execute_command env st cmd ∧
    (execute_privileged_command env st cmd).2.log = st.log ++ [cmd] ∧
    (execute_privileged_command env st cmd).2.polkit_authenticated = st.polkit_authenticated := by
  have e : execute_privileged_command env st cmd = execute_command env st cmd := by
    unfold execute_privileged_command
    by_cases h0 : env.euid = 0
    · rw [if_pos h0]
    · rw [if_neg h0]
      rcases h with h | h
      · exact absurd h h0
      · rw [find_pkexec_none env h]
  rw [e]
  exact ⟨rfl, execute_command_log_eq env st cmd, execute_command_flag env st cmd⟩

theorem privileged_same_as_plain_witness :
    execute_privileged_command quiet_env init_state cmd_dmesg
      = execute_command quiet_env init_state cmd_dmesg :=
  (privileged_same_as_plain quiet_env init_state cmd_dmesg (Or.inl rfl)).1

/-- C13. When the caller is not root and a helper is executable (allocation succeeding), the
command that `execute_privileged_command` runs for `cmd` is exactly
`helper + " /bin/sh -c '" + escape_single_quotes(cmd) + "' 2>&1"`, whatever the length of `cmd`:
the size computed for the buffer never cuts it.  The helper is the first executable path of
`/usr/bin/pkexec`, `/bin/pkexec`. -/
theorem privileged_command_line (env : Env) (st : State) (cmd helper : CStr)
    (hroot : env.euid ≠ 0) (hh : find_pkexec env = some helper) (ha : env.alloc_ok) :
    ((helper = "/usr/bin/pkexec".toList ∧ env.access_x "/usr/bin/pkexec".toList = true) ∨
     (helper = "/bin/pkexec".toList ∧ env.access_x "/usr/bin/pkexec".toList = false ∧
        env.access_x "/bin/pkexec".toList = true)) ∧
    escape_single_quotes env
        (if st.polkit_authenticated then st else run_probe env st helper).log (some cmd)
      = some (escape_loop cmd) ∧
    execute_privileged_command env st cmd
      = execute_command env (if st.polkit_authenticated then st else run_probe env st helper)
          (helper ++ " /bin/sh -c '".toList ++ escape_loop cmd ++ "' 2>&1".toList) ∧
    (execute_privileged_command env st cmd).2.log
      = (if st.polkit_authenticated then st else run_probe env st helper).log
          ++ [helper ++ " /bin/sh -c '".toList ++ escape_loop cmd ++ "' 2>&1".toList] := by
  have e := execute_privileged_command_eq env st cmd helper hroot hh ha
  rw [wrapped_cmd_eq] at e
  refine ⟨find_pkexec_cases env helper hh, ?_, e, ?_⟩
  · unfold escape_single_quotes
    simp only [ha _, if_true]
  · rw [e, execute_command_log_eq]

theorem privileged_command_line_witness :
    (execute_privileged_command tools_missing_env init_state "echo 'hi'".toList).2.log
      = ["/usr/bin/pkexec /bin/sh -c 'echo POLKIT_OK'".toList,
         "/usr/bin/pkexec /bin/sh -c 'echo '\\''hi'\\''' 2>&1".toList] := by
  have h := (privileged_command_line tools_missing_env init_state "echo 'hi'".toList
    "/usr/bin/pkexec".toList (by decide) (by decide) (fun _ _ => rfl)).2.2.2
  rw [h]
  decide

/-! ## The probe and the authentication flag -/

theorem run_probe_log (env : Env) (st : State) (pkexec : CStr) :
    (run_probe env st pkexec).log = st.log ++ [probe_cmd pkexec] := by
  unfold run_probe
  simp only []
  cases h : (execute_command env st (snprintf 256 (pkexec ++ " /bin/sh -c 'echo POLKIT_OK'".toList))).1 with
  | none => exact execute_command_log_eq env st _
  | some out =>
    simp only []
    split_ifs
    · exact execute_command_log_eq env st _
    · exact execute_command_log_eq env st _

theorem run_probe_flag_of_sentinel (env : Env) (st : State) (pkexec out : CStr)
    (ho : (execute_command env st (probe_cmd pkexec)).1 = some out)
    (hs : "POLKIT_OK".toList <:+: out) :
    (run_probe env st pkexec).polkit_authenticated = true := by
  unfold run_probe
  unfold probe_cmd at ho
  simp only [ho]
  rw [if_pos ((strstr_isSome_iff out "POLKIT_OK".toList).mpr hs)]

theorem run_probe_flag (env : Env) (st : State) (pkexec : CStr)
    (h : (run_probe env st pkexec).polkit_authenticated = true) :
    st.polkit_authenticated = true ∨
    ∃ out, (execute_command env st (probe_cmd pkexec)).1 = some out ∧
      "POLKIT_OK".toList <:+: out := by
  unfold run_probe at h
  unfold probe_cmd
  simp only [] at h
  cases ho : (execute_command env st (snprintf 256 (pkexec ++ " /bin/sh -c 'echo POLKIT_OK'".toList))).1 with
  | none =>
    rw [ho] at h
    simp only [] at h
    rw [execute_command_flag] at h
    exact Or.inl h
  | some out =>
    rw [ho] at h
    simp only [] at h
    by_cases hs : (strstr out "POLKIT_OK".toList).isSome = true
    · exact Or.inr ⟨out, rfl, (strstr_isSome_iff out _).mp hs⟩
    · rw [if_neg hs, execute_command_flag] at h
      exact Or.inl h

theorem run_probe_flag_of_no_sentinel (env : Env) (st : State) (pkexec : CStr)
    (hf : st.polkit_authenticated = false)
    (hn : ∀ out, (execute_command env st (probe_cmd pkexec)).1 = some out →
      ¬ "POLKIT_OK".toList <:+: out) :
    (run_probe env st pkexec).polkit_authenticated = false := by
  cases h : (run_probe env st pkexec).polkit_authenticated with
  | false => rfl
  | true =>
    rcases run_probe_flag env st pkexec h with h1 | ⟨out, ho, hs⟩
    · rw [hf] at h1; cases h1
    · exact absurd hs (hn out ho)

theorem run_probe_keeps_flag (env : Env) (st : State) (pkexec : CStr)
    (h : st.polkit_authenticated = true) :
    (run_probe env st pkexec).polkit_authenticated = true := by
  unfold run_probe
  simp only []
  cases (execute_command env st (snprintf 256 (pkexec ++ " /bin/sh -c 'echo POLKIT_OK'".toList))).1 with
  | none => simp only []; rw [execute_command_flag]; exact h
  | some out =>
    simp only []
    split_ifs
    · rfl
    · rw [execute_command_flag]; exact h

theorem step_authenticated (env : Env) (st : State) (helper : CStr) (op : Op)
    (hroot : env.euid ≠ 0) (hh : find_pkexec env = some helper) (ha : env.alloc_ok)
    (hf : st.polkit_authenticated = true) :
    (step env st op).polkit_authenticated = true ∧
    (step env st op).log = st.log ++ commands_when_authenticated helper op := by
  cases op with
  | preauthenticate =>
    simp only [step, commands_when_authenticated]
    unfold preauthenticate_polkit
    rw [if_neg hroot, if_pos hf]
    exact ⟨hf, (List.append_nil _).symm⟩
  | command cmd =>
    simp only [step, commands_when_authenticated]
    exact ⟨by rw [execute_command_flag]; exact hf, execute_command_log_eq env st cmd⟩
  | privileged cmd =>
    simp only [step, commands_when_authenticated]
    rw [execute_privileged_command_eq env st cmd helper hroot hh ha, if_pos hf]
    exact ⟨by rw [execute_command_flag]; exact hf, execute_command_log_eq env st _⟩

theorem run_ops_authenticated (env : Env) (helper : CStr) (hroot : env.euid ≠ 0)
    (hh : find_pkexec env = some helper) (ha : env.alloc_ok) (ops : List Op) :
    ∀ st : State, st.polkit_authenticated = true →
      (run_ops env st ops).polkit_authenticated = true ∧
      (run_ops env st ops).log
        = st.log ++ (ops.map (commands_when_authenticated helper)).flatten := by
  induction ops with
  | nil =>
    intro st hf
    exact ⟨hf, by simp [run_ops]⟩
  | cons op rest ih =>
    intro st hf
    obtain ⟨h1, h2⟩ := step_authenticated env st helper op hroot hh ha hf
    obtain ⟨h3, h4⟩ := ih (step env st op) h1
    have e : run_ops env st (op :: rest) = run_ops env (step env st op) rest := rfl
    rw [e]
    refine ⟨h3, ?_⟩
    rw [h4, h2]
    simp only [List.map_cons, List.flatten_cons, List.append_assoc]

theorem wrapped_ne_probe (pkexec cmd : CStr) (hp : pkexec ∈ pkexec_paths) :
    wrapped_cmd pkexec cmd ≠ probe_cmd pkexec := by
  have hprobe : probe_cmd pkexec = pkexec ++ " /bin/sh -c '".toList ++ "echo POLKIT_OK'".toList := by
    unfold probe_cmd
    rw [snprintf_fits]
    · have : " /bin/sh -c 'echo POLKIT_OK'".toList
          = " /bin/sh -c '".toList ++ "echo POLKIT_OK'".toList := by decide
      rw [this, List.append_assoc]
    · unfold pkexec_paths at hp
      simp only [List.mem_cons, List.mem_singleton, List.not_mem_nil, or_false] at hp
      rcases hp with h | h <;> subst h <;> decide
  rw [wrapped_cmd_eq, hprobe]
  intro h
  simp only [List.append_assoc] at h
  have h2 := List.append_cancel_left (List.append_cancel_left h)
  have h3 := congrArg List.getLast? h2
  rw [List.getLast?_append] at h3
  have e1 : "' 2>&1".toList.getLast? = some (Char.ofNat 49) := by decide
  have e2 : "echo POLKIT_OK'".toList.getLast? = some quote := by decide
  rw [e1, e2] at h3
  have h4 : some (Char.ofNat 49) = some quote := h3
  revert h4
  decide

theorem step_privileged_unauthenticated (env : Env) (st : State) (helper cmd : CStr)
    (hroot : env.euid ≠ 0) (hh : find_pkexec env = some helper) (ha : env.alloc_ok)
    (hf : st.polkit_authenticated = false) :
    (step env st (Op.privileged cmd)).log
      = st.log ++ [probe_cmd helper, wrapped_cmd helper cmd] ∧
    (step env st (Op.privileged cmd)).polkit_authenticated
      = (run_probe env st helper).polkit_authenticated := by
  simp only [step]
  rw [execute_privileged_command_eq env st cmd helper hroot hh ha, hf]
  simp only [Bool.false_eq_true, if_false]
  refine ⟨?_, execute_command_flag env _ _⟩
  rw [execute_command_log_eq, run_probe_log, List.append_assoc]
  rfl

theorem find_pkexec_mem (env : Env) (helper : CStr) (h : find_pkexec env = some helper) :
    helper ∈ pkexec_paths := by
  unfold find_pkexec at h
  exact List.mem_of_find?_eq_some h

theorem count_probe_when_authenticated (helper : CStr) (hp : helper ∈ pkexec_paths)
    (ops : List Op) (hops : ∀ op ∈ ops, ∀ c, op ≠ Op.command c) :
    ((ops.map (commands_when_authenticated helper)).flatten).count (probe_cmd helper) = 0 := by
  induction ops with
  | nil => rfl
  | cons op rest ih =>
    rw [List.map_cons, List.flatten_cons, List.count_append,
      ih (fun o ho => hops o (List.mem_cons_of_mem _ ho))]
    cases op with
    | preauthenticate => rfl
    | command c => exact absurd rfl (hops (Op.command c) (List.mem_cons_self _ _) c)
    | privileged c =>
      simp only [commands_when_authenticated, Nat.add_zero]
      rw [List.count_cons, List.count_nil]
      have hne : (wrapped_cmd helper c == probe_cmd helper) = false := by
        rw [beq_eq_false_iff_ne]
        exact wrapped_ne_probe helper c hp
      rw [hne]
      rfl

/-- C15. In a process that is not root, has a helper and whose allocations succeed: a probe whose
output contains `"POLKIT_OK"` sets the flag; from a state with the flag set, every sequence of
calls keeps it set, `preauthenticate_polkit` runs nothing and each `execute_privileged_command`
runs exactly one command, the wrapped one, so the probe is not run again.  Three privileged calls
whose first probe succeeds run the probe once, followed by the three wrapped commands. -/
theorem no_probe_once_authenticated (env : Env) (st : State) (helper : CStr) (ops : List Op)
    (cmd1 cmd2 cmd3 out : CStr)
    (hroot : env.euid ≠ 0) (hh : find_pkexec env = some helper) (ha : env.alloc_ok) :
    ((execute_command env st (probe_cmd helper)).1 = some out → "POLKIT_OK".toList <:+: out →
      (run_probe env st helper).polkit_authenticated = true) ∧
    (st.polkit_authenticated = true →
      (run_ops env st ops).polkit_authenticated = true ∧
      (run_ops env st ops).log
        = st.log ++ (ops.map (commands_when_authenticated helper)).flatten ∧
      ((∀ op ∈ ops, ∀ c, op ≠ Op.command c) →
        ((ops.map (commands_when_authenticated helper)).flatten).count (probe_cmd helper) = 0)) ∧
    (st.polkit_authenticated = false →
      (execute_command env st (probe_cmd helper)).1 = some out → "POLKIT_OK".toList <:+: out →
      (run_ops env st [Op.privileged cmd1, Op.privileged cmd2, Op.privileged cmd3]).log
        = st.log ++ [probe_cmd helper, wrapped_cmd helper cmd1, wrapped_cmd helper cmd2,
            wrapped_cmd helper cmd3] ∧
      [probe_cmd helper, wrapped_cmd helper cmd1, wrapped_cmd helper cmd2,
        wrapped_cmd helper cmd3].count (probe_cmd helper) = 1) := by
  have hp := find_pkexec_mem env helper hh
  refine ⟨fun ho hs => run_probe_flag_of_sentinel env st helper out ho hs, ?_, ?_⟩
  · intro hf
    obtain ⟨h1, h2⟩ := run_ops_authenticated env helper hroot hh ha ops st hf
    exact ⟨h1, h2, count_probe_when_authenticated helper hp ops⟩
  · intro hf ho hs
    obtain ⟨l1, f1⟩ := step_privileged_unauthenticated env st helper cmd1 hroot hh ha hf
    rw [run_probe_flag_of_sentinel env st helper out ho hs] at f1
    obtain ⟨_, l2⟩ := run_ops_authenticated env helper hroot hh ha
      [Op.privileged cmd2, Op.privileged cmd3] (step env st (Op.privileged cmd1)) f1
    have e : run_ops env st [Op.privileged cmd1, Op.privileged cmd2, Op.privileged cmd3]
        = run_ops env (step env st (Op.privileged cmd1))
            [Op.privileged cmd2, Op.privileged cmd3] := rfl
    constructor
    · rw [e, l2, l1]
      simp [commands_when_authenticated]
    · have n1 : (wrapped_cmd helper cmd1 == probe_cmd helper) = false := by
        rw [beq_eq_false_iff_ne]; exact wrapped_ne_probe helper cmd1 hp
      have n2 : (wrapped_cmd helper cmd2 == probe_cmd helper) = false := by
        rw [beq_eq_false_iff_ne]; exact wrapped_ne_probe helper cmd2 hp
      have n3 : (wrapped_cmd helper cmd3 == probe_cmd helper) = false := by
        rw [beq_eq_false_iff_ne]; exact wrapped_ne_probe helper cmd3 hp
      simp [List.count_cons, n1, n2, n3]

set_option maxRecDepth 20000 in
theorem no_probe_once_authenticated_witness :
    (run_ops tools_missing_env init_state
        [Op.privileged cmd_journal, Op.privileged cmd_dmesg, Op.privileged cmd_pac]).log
      = [probe_cmd "/usr/bin/pkexec".toList,
         wrapped_cmd "/usr/bin/pkexec".toList cmd_journal,
         wrapped_cmd "/usr/bin/pkexec".toList cmd_dmesg,
         wrapped_cmd "/usr/bin/pkexec".toList cmd_pac] :=
  ((no_probe_once_authenticated tools_missing_env init_state "/usr/bin/pkexec".toList []
    cmd_journal cmd_dmesg cmd_pac "POLKIT_OK\n".toList (by decide) (by decide)
    (fun _ _ => rfl)).2.2 rfl (by decide) (by decide)).1

theorem run_ops_privileged_unauthenticated (env : Env) (helper : CStr) (hroot : env.euid ≠ 0)
    (hh : find_pkexec env = some helper) (ha : env.alloc_ok)
    (hn : ∀ s out, (execute_command env s (probe_cmd helper)).1 = some out →
      ¬ "POLKIT_OK".toList <:+: out)
    (cmds : List CStr) :
    ∀ st : State, st.polkit_authenticated = false →
      (run_ops env st (cmds.map Op.privileged)).polkit_authenticated = false ∧
      (run_ops env st (cmds.map Op.privileged)).log
        = st.log ++ (cmds.map (fun c => [probe_cmd helper, wrapped_cmd helper c])).flatten := by
  induction cmds with
  | nil =>
    intro st hf
    exact ⟨hf, by simp [run_ops]⟩
  | cons c rest ih =>
    intro st hf
    obtain ⟨l1, f1⟩ := step_privileged_unauthenticated env st helper c hroot hh ha hf
    rw [run_probe_flag_of_no_sentinel env st helper hf (hn st)] at f1
    obtain ⟨f2, l2⟩ := ih (step env st (Op.privileged c)) f1
    have e : run_ops env st ((c :: rest).map Op.privileged)
        = run_ops env (step env st (Op.privileged c)) (rest.map Op.privileged) := rfl
    rw [e]
    refine ⟨f2, ?_⟩
    rw [l2, l1]
    simp only [List.map_cons, List.flatten_cons, List.append_assoc]

theorem count_probe_when_unauthenticated (helper : CStr) (hp : helper ∈ pkexec_paths)
    (cmds : List CStr) :
    ((cmds.map (fun c => [probe_cmd helper, wrapped_cmd helper c])).flatten).count
      (probe_cmd helper) = cmds.length := by
  induction cmds with
  | nil => rfl
  | cons c rest ih =>
    rw [List.map_cons, List.flatten_cons, List.count_append, ih]
    have hne : (wrapped_cmd helper c == probe_cmd helper) = false := by
      rw [beq_eq_false_iff_ne]
      exact wrapped_ne_probe helper c hp
    simp [List.count_cons, hne]
    omega

set_option maxRecDepth 40000 in
/-- C16 (counterexample). For an unprivileged user with a helper whose probe never prints the
sentinel, two privileged calls run the probe twice, and `gather_all_errors` runs it four times. -/
theorem probe_repeated_without_sentinel :
    (run_ops unauthenticated_env init_state
        [Op.privileged "dmesg".toList, Op.privileged "uptime".toList]).log
      = ["/usr/bin/pkexec /bin/sh -c 'echo POLKIT_OK'".toList,
         "/usr/bin/pkexec /bin/sh -c 'dmesg' 2>&1".toList,
         "/usr/bin/pkexec /bin/sh -c 'echo POLKIT_OK'".toList,
         "/usr/bin/pkexec /bin/sh -c 'uptime' 2>&1".toList] ∧
    probe_cmd "/usr/bin/pkexec".toList = "/usr/bin/pkexec /bin/sh -c 'echo POLKIT_OK'".toList ∧
    (gather_all_errors unauthenticated_env init_state none).2.log.count
      (probe_cmd "/usr/bin/pkexec".toList) = 4 := by
  decide

/-- C16 (amended). In one process run (not root, helper present, allocation succeeding), every
call of `execute_privileged_command` performs the probe at most once: not at all when the flag is
set, once when it is not.  With the flag set, privileged calls run only their wrapped commands.
While no probe output contains `"POLKIT_OK"` the flag stays clear and every privileged call runs
the probe again: `n` calls perform `n` probes. -/
theorem probe_once_per_call_until_success (env : Env) (st : State) (helper : CStr)
    (cmds : List CStr)
    (hroot : env.euid ≠ 0) (hh : find_pkexec env = some helper) (ha : env.alloc_ok) :
    (∀ cmd, (execute_privileged_command env st cmd).2.log
        = st.log ++ (if st.polkit_authenticated then [] else [probe_cmd helper])
            ++ [wrapped_cmd helper cmd]) ∧
    (st.polkit_authenticated = true →
      (run_ops env st (cmds.map Op.privileged)).log = st.log ++ cmds.map (wrapped_cmd helper)) ∧
    (st.polkit_authenticated = false →
      (∀ s out, (execute_command env s (probe_cmd helper)).1 = some out →
        ¬ "POLKIT_OK".toList <:+: out) →
      (run_ops env st (cmds.map Op.privileged)).polkit_authenticated = false ∧
      (run_ops env st (cmds.map Op.privileged)).log
        = st.log ++ (cmds.map (fun c => [probe_cmd helper, wrapped_cmd helper c])).flatten ∧
      ((cmds.map (fun c => [probe_cmd helper, wrapped_cmd helper c])).flatten).count
        (probe_cmd helper) = cmds.length) := by
  have hp := find_pkexec_mem env helper hh
  refine ⟨?_, ?_, ?_⟩
  · intro cmd
    rw [execute_privileged_command_eq env st cmd helper hroot hh ha, execute_command_log_eq]
    cases hf : st.polkit_authenticated with
    | true => simp
    | false => simp [run_probe_log]
  · intro hf
    rw [(run_ops_authenticated env helper hroot hh ha (cmds.map Op.privileged) st hf).2]
    congr 1
    induction cmds with
    | nil => rfl
    | cons c rest ih =>
      simp only [List.map_cons, List.flatten_cons, commands_when_authenticated]
      rw [ih]
      rfl
  · intro hf hn
    obtain ⟨h1, h2⟩ := run_ops_privileged_unauthenticated env helper hroot hh ha hn cmds st hf
    exact ⟨h1, h2, count_probe_when_unauthenticated helper hp cmds⟩

set_option maxRecDepth 20000 in
theorem probe_once_per_call_until_success_witness :
    (run_ops unauthenticated_env init_state
        ([cmd_journal, cmd_dmesg, cmd_pac].map Op.privileged)).polkit_authenticated = false ∧
    ((([cmd_journal, cmd_dmesg, cmd_pac].map
        (fun c => [probe_cmd "/usr/bin/pkexec".toList,
          wrapped_cmd "/usr/bin/pkexec".toList c])).flatten).count
      (probe_cmd "/usr/bin/pkexec".toList) = [cmd_journal, cmd_dmesg, cmd_pac].length) := by
  have h := (probe_once_per_call_until_success unauthenticated_env init_state
    "/usr/bin/pkexec".toList [cmd_journal, cmd_dmesg, cmd_pac] (by decide) (by decide)
    (fun _ _ => rfl)).2.2 rfl
    (by
      intro s out ho
      have e : out = [] := by
        have : (execute_command unauthenticated_env s
            (probe_cmd "/usr/bin/pkexec".toList)).1 = some [] := rfl
        rw [this] at ho
        exact (Option.some.inj ho).symm
      rw [e]
      decide)
  exact ⟨h.1, h.2.2⟩

/-! ## The executor calls of `gather_all_errors` -/

theorem run_ops_append (env : Env) (st : State) (a b : List Op) :
    run_ops env st (a ++ b) = run_ops env (run_ops env st a) b := by
  unfold run_ops
  rw [List.foldl_append]

theorem run_ops_fixed_calls (env : Env) (st : State) :
    run_ops env st [Op.command cmd_svc, Op.privileged cmd_journal, Op.privileged cmd_dmesg,
      Op.privileged cmd_pac, Op.privileged cmd_others, Op.command cmd_unit_list]
      = (unit_list env st).2 := rfl

theorem gather_state (env : Env) (st : State) (info : Option SystemInfo) :
    (gather_all_errors env st info).2 = run_ops env st (gather_calls env st) := by
  unfold gather_all_errors gather_calls
  rw [run_ops_append, run_ops_fixed_calls]
  cases hl : (unit_list env st).1 with
  | none =>
    simp only []
    cases (gather_fixed env st info).buf <;> rfl
  | some list =>
    simp only []
    by_cases hpos : list.length > 0
    · simp only [if_pos hpos]
      unfold gather_units
      cases hm : env.mkstemp with
      | none =>
        simp only []
        cases (append_section_with_limit (env.alloc (unit_list env st).2.log 297)
          (gather_fixed env st info) (some title_units)
          (some "Collecting unit statuses...".toList) SECTION_LIMIT).buf <;> rfl
      | some tmpf =>
        simp only []
        cases hu : (units_status env st tmpf).1 with
        | none =>
          simp only []
          cases (append_section_with_limit (env.alloc (unit_list env st).2.log 297)
            (gather_fixed env st info) (some title_units)
            (some "Collecting unit statuses...".toList) SECTION_LIMIT).buf <;> rfl
        | some status =>
          simp only []
          cases (append_section_with_limit (env.alloc (units_status env st tmpf).2.log 297)
            (append_section_with_limit (env.alloc (unit_list env st).2.log 297)
              (gather_fixed env st info) (some title_units)
              (some "Collecting unit statuses...".toList) SECTION_LIMIT)
            (some title_units_detail) (some status) SECTION_LIMIT).buf <;> rfl
    · simp only [if_neg hpos]
      cases (gather_fixed env st info).buf <;> rfl

set_option maxRecDepth 40000 in
/-- C20 (counterexample). One unit has failed, so the listing is not empty, but the temporary
file for the unit names cannot be created: `gather_all_errors` then makes four calls of
`execute_privileged_command`, not five.  The commands handed to `popen` show them: the probe, the
four wrapped commands of the fixed sections, and no status command. -/
theorem status_call_skipped_without_temp_file :
    (unit_list no_temp_file_env init_state).1 = some "foo.service\n".toList ∧
    no_temp_file_env.mkstemp = none ∧
    (gather_all_errors no_temp_file_env init_state none).2.log
      = [cmd_svc, probe_cmd "/usr/bin/pkexec".toList,
         wrapped_cmd "/usr/bin/pkexec".toList cmd_journal,
         wrapped_cmd "/usr/bin/pkexec".toList cmd_dmesg,
         wrapped_cmd "/usr/bin/pkexec".toList cmd_pac,
         wrapped_cmd "/usr/bin/pkexec".toList cmd_others,
         cmd_unit_list] ∧
    (gather_calls no_temp_file_env init_state).countP Op.is_privileged = 4 ∧
    (gather_calls no_temp_file_env init_state).countP Op.is_privileged ≠ 5 := by
  decide

/-- C20 (amended). For every failed-unit listing, `gather_all_errors` makes its executor calls
in one fixed sequence with at most one call for the unit statuses: four calls of
`execute_privileged_command` when the listing is empty (or `NULL`) or the temporary file for the
unit names cannot be created, and five when the listing is not empty and the temporary file is
created, the fifth being a single call whose command names only the temporary file; so the count
does not depend on the number of unit names in the listing. -/
theorem unit_statuses_in_one_call (env : Env) (st : State) (info : Option SystemInfo) :
    (gather_all_errors env st info).2 = run_ops env st (gather_calls env st) ∧
    (((unit_list env st).1.getD [] = [] ∨ env.mkstemp = none) →
      gather_calls env st
        = [Op.command cmd_svc, Op.privileged cmd_journal, Op.privileged cmd_dmesg,
           Op.privileged cmd_pac, Op.privileged cmd_others, Op.command cmd_unit_list] ∧
      (gather_calls env st).countP Op.is_privileged = 4) ∧
    (∀ tmpf : CStr, (unit_list env st).1.getD [] ≠ [] → env.mkstemp = some tmpf →
      gather_calls env st
        = [Op.command cmd_svc, Op.privileged cmd_journal, Op.privileged cmd_dmesg,
           Op.privileged cmd_pac, Op.privileged cmd_others, Op.command cmd_unit_list,
           Op.privileged (cmd_units_status tmpf)] ∧
      (gather_calls env st).countP Op.is_privileged = 5) := by
  refine ⟨gather_state env st info, ?_, ?_⟩
  · intro he
    have e : gather_calls env st
        = [Op.command cmd_svc, Op.privileged cmd_journal, Op.privileged cmd_dmesg,
           Op.privileged cmd_pac, Op.privileged cmd_others, Op.command cmd_unit_list] := by
      unfold gather_calls
      cases hl : (unit_list env st).1 with
      | none => rfl
      | some list =>
        rcases he with he | he
        · rw [hl] at he
          have : list = [] := he
          subst this
          rfl
        · rw [he]
          by_cases hpos : list.length > 0
          · simp only [if_pos hpos]
            rfl
          · simp only [if_neg hpos]
            rfl
    rw [e]
    exact ⟨rfl, rfl⟩
  · intro tmpf hne hm
    have e : gather_calls env st
        = [Op.command cmd_svc, Op.privileged cmd_journal, Op.privileged cmd_dmesg,
           Op.privileged cmd_pac, Op.privileged cmd_others, Op.command cmd_unit_list,
           Op.privileged (cmd_units_status tmpf)] := by
      unfold gather_calls
      cases hl : (unit_list env st).1 with
      | none => rw [hl] at hne; exact absurd rfl hne
      | some list =>
        cases list with
        | nil => rw [hl] at hne; exact absurd rfl hne
        | cons c t =>
          simp only [List.length_cons, gt_iff_lt, Nat.zero_lt_succ, if_true, hm]
          rfl
    rw [e]
    exact ⟨rfl, rfl⟩

set_option maxRecDepth 40000 in
theorem unit_statuses_in_one_call_witness :
    (gather_calls one_failed_unit_env init_state).countP Op.is_privileged = 5 ∧
    (gather_calls no_temp_file_env init_state).countP Op.is_privileged = 4 ∧
    (gather_calls quiet_env init_state).countP Op.is_privileged = 4 :=
  ⟨((unit_statuses_in_one_call one_failed_unit_env init_state none).2.2
      "/tmp/crashrep_units_a1b2c3".toList (by decide) rfl).2,
   ((unit_statuses_in_one_call no_temp_file_env init_state none).2.1 (Or.inr rfl)).2,
   ((unit_statuses_in_one_call quiet_env init_state none).2.1 (Or.inl (by decide))).2⟩

/-! ## Monotonicity of the authentication flag -/

theorem flag_step_refl (env : Env) (st : State) : flag_step env st st :=
  ⟨List.prefix_refl _, id, Or.inl⟩

theorem probe_succeeded_after_mono (env : Env) (st s1 : State) (h : st.log <+: s1.log)
    (hp : probe_succeeded_after env s1) : probe_succeeded_after env st := by
  obtain ⟨s, pk, out, h1, h2, h3, h4, h5, h6⟩ := hp
  exact ⟨s, pk, out, h.trans h1, h2, h3, h4, h5, h6⟩

theorem flag_step_trans (env : Env) (st s1 s2 : State) (h1 : flag_step env st s1)
    (h2 : flag_step env s1 s2) : flag_step env st s2 := by
  obtain ⟨a1, b1, c1⟩ := h1
  obtain ⟨a2, b2, c2⟩ := h2
  refine ⟨a1.trans a2, fun h => b2 (b1 h), ?_⟩
  intro h
  rcases c2 h with h | h
  · exact c1 h
  · exact Or.inr (probe_succeeded_after_mono env st s1 a1 h)

theorem flag_step_execute_command (env : Env) (st : State) (cmd : CStr) :
    flag_step env st (execute_command env st cmd).2 := by
  refine ⟨?_, ?_, ?_⟩
  · rw [execute_command_log_eq]; exact List.prefix_append _ _
  · intro h; rw [execute_command_flag]; exact h
  · intro h; rw [execute_command_flag] at h; exact Or.inl h

theorem flag_step_run_probe (env : Env) (st : State) (pkexec : CStr) (hroot : env.euid ≠ 0)
    (hh : find_pkexec env = some pkexec) (hf : st.polkit_authenticated = false) :
    flag_step env st (run_probe env st pkexec) := by
  refine ⟨?_, run_probe_keeps_flag env st pkexec, ?_⟩
  · rw [run_probe_log]; exact List.prefix_append _ _
  · intro h
    rcases run_probe_flag env st pkexec h with h1 | ⟨out, ho, hs⟩
    · exact Or.inl h1
    · exact Or.inr ⟨st, pkexec, out, List.prefix_refl _, hf, hroot, hh, ho, hs⟩

theorem flag_step_preauthenticate (env : Env) (st : State) :
    flag_step env st (preauthenticate_polkit env st) := by
  unfold preauthenticate_polkit
  by_cases h0 : env.euid = 0
  · rw [if_pos h0]; exact flag_step_refl env st
  · rw [if_neg h0]
    cases hf : st.polkit_authenticated with
    | true => simp only [if_true]; exact flag_step_refl env st
    | false =>
      simp only [Bool.false_eq_true, if_false]
      cases hh : find_pkexec env with
      | none => exact flag_step_refl env st
      | some pk => exact flag_step_run_probe env st pk h0 hh hf

theorem flag_step_privileged (env : Env) (st : State) (cmd : CStr) :
    flag_step env st (execute_privileged_command env st cmd).2 := by
  unfold execute_privileged_command
  by_cases h0 : env.euid = 0
  · rw [if_pos h0]; exact flag_step_execute_command env st cmd
  · rw [if_neg h0]
    cases hh : find_pkexec env with
    | none => exact flag_step_execute_command env st cmd
    | some pk =>
      simp only []
      have h1 : flag_step env st (if st.polkit_authenticated = true then st
          else run_probe env st pk) := by
        cases hf : st.polkit_authenticated with
        | true => simp only [if_true]; exact flag_step_refl env st
        | false =>
          simp only [Bool.false_eq_true, if_false]
          exact flag_step_run_probe env st pk h0 hh hf
      generalize (if st.polkit_authenticated = true then st else run_probe env st pk) = st1
        at h1 ⊢
      cases escape_single_quotes env st1.log (some cmd) with
      | none => exact flag_step_trans env _ _ _ h1 (flag_step_execute_command env _ _)
      | some escaped =>
        simp only []
        split_ifs
        all_goals exact flag_step_trans env _ _ _ h1 (flag_step_execute_command env _ _)

theorem flag_step_op (env : Env) (st : State) (op : Op) : flag_step env st (step env st op) := by
  cases op with
  | preauthenticate => exact flag_step_preauthenticate env st
  | command cmd => exact flag_step_execute_command env st cmd
  | privileged cmd => exact flag_step_privileged env st cmd

theorem flag_step_run_ops (env : Env) (ops : List Op) :
    ∀ st : State, flag_step env st (run_ops env st ops) := by
  induction ops with
  | nil => intro st; exact flag_step_refl env st
  | cons op rest ih =>
    intro st
    exact flag_step_trans env _ _ _ (flag_step_op env st op) (ih (step env st op))

theorem flag_step_get_hostname (env : Env) (etc_hostname : Option (List Char)) (st : State) :
    flag_step env st (get_hostname env etc_hostname st).2 := by
  have h1 : flag_step env st (if env.access_x "/bin/hostname".toList = true
      then execute_command env st "/bin/hostname".toList else (none, st)).2 := by
    split_ifs
    · exact flag_step_execute_command env st _
    · exact flag_step_refl env st
  unfold get_hostname
  simp only []
  generalize (if env.access_x "/bin/hostname".toList = true
      then execute_command env st "/bin/hostname".toList else (none, st)) = r1 at h1 ⊢
  have h2 : flag_step env st (if null_or_empty r1.1 = true
      then execute_command env r1.2 "hostname".toList else r1).2 := by
    split_ifs
    · exact flag_step_trans env _ _ _ h1 (flag_step_execute_command env _ _)
    · exact h1
  generalize (if null_or_empty r1.1 = true
      then execute_command env r1.2 "hostname".toList else r1) = r2 at h2 ⊢
  split_ifs
  · cases etc_hostname with
    | none => exact h2
    | some file =>
      simp only []
      split_ifs
      · exact h2
      · exact h2
  · exact h2

theorem flag_step_get_dmesg_errors (env : Env) (st : State) :
    flag_step env st (get_dmesg_errors env st).2 := by
  have h1 := flag_step_privileged env st "dmesg --level=err,warn".toList
  unfold get_dmesg_errors
  simp only []
  generalize execute_privileged_command env st "dmesg --level=err,warn".toList = r at h1 ⊢
  cases r.1 with
  | none => exact flag_step_trans env _ _ _ h1 (flag_step_execute_command env _ _)
  | some output =>
    simp only []
    split_ifs
    · exact flag_step_trans env _ _ _ h1 (flag_step_execute_command env _ _)
    · exact h1

theorem flag_step_operation (env : Env) (st : State) (op : Operation) :
    flag_step env st (op.run env st) := by
  cases op with
  | call o => exact flag_step_op env st o
  | hostname f => exact flag_step_get_hostname env f st
  | uptime => exact flag_step_execute_command env st _
  | pacman_log_errors => exact flag_step_privileged env st _
  | journalctl_errors => exact flag_step_privileged env st _
  | dmesg_errors => exact flag_step_get_dmesg_errors env st
  | gather info =>
    show flag_step env st (gather_all_errors env st info).2
    rw [gather_state]
    exact flag_step_run_ops env _ st

theorem flag_step_operations (env : Env) (ops : List Operation) :
    ∀ st : State, flag_step env st (ops.foldl (fun s o => Operation.run env s o) st) := by
  induction ops with
  | nil => intro st; exact flag_step_refl env st
  | cons op rest ih =>
    intro st
    exact flag_step_trans env _ _ _ (flag_step_operation env st op) (ih (op.run env st))

/-- C17. The flag `polkit_authenticated` is clear in a fresh process.  No operation of the
program (`preauthenticate_polkit`, `execute_command`, `execute_privileged_command`, a collector,
`gather_all_errors`), and no sequence of them, changes it from true to false; and when an
operation or a sequence starts with the flag clear and ends with it set, a probe run in between
with the flag still clear printed `"POLKIT_OK"`. -/
theorem flag_monotone (env : Env) (st : State) (op : Operation) (ops : List Operation) :
    init_state.polkit_authenticated = false ∧
    (st.polkit_authenticated = true → (op.run env st).polkit_authenticated = true) ∧
    (st.polkit_authenticated = false → (op.run env st).polkit_authenticated = true →
      probe_succeeded_after env st) ∧
    (st.polkit_authenticated = true →
      (ops.foldl (fun s o => Operation.run env s o) st).polkit_authenticated = true) ∧
    (st.polkit_authenticated = false →
      (ops.foldl (fun s o => Operation.run env s o) st).polkit_authenticated = true →
      probe_succeeded_after env st) := by
  obtain ⟨_, b1, c1⟩ := flag_step_operation env st op
  obtain ⟨_, b2, c2⟩ := flag_step_operations env ops st
  refine ⟨rfl, b1, ?_, b2, ?_⟩
  · intro hf h
    rcases c1 h with h1 | h1
    · rw [hf] at h1; cases h1
    · exact h1
  · intro hf h
    rcases c2 h with h1 | h1
    · rw [hf] at h1; cases h1
    · exact h1

set_option maxRecDepth 20000 in
theorem flag_monotone_witness :
    probe_succeeded_after tools_missing_env init_state :=
  (flag_monotone tools_missing_env init_state Operation.journalctl_errors []).2.2.1 rfl
    (by decide)

/-! ## Collectors -/

set_option maxRecDepth 40000 in
/-- C18 (failing input). The privileged `journalctl` attempt prints a "not found" message:
`get_journalctl_errors` returns that message and runs no unprivileged command, whereas
`get_dmesg_errors`, in the same situation, runs plain `dmesg` and returns its output. -/
theorem journalctl_error_text_returned :
    (get_journalctl_errors tools_missing_env init_state).1
      = some "sh: line 1: journalctl: not found\n".toList ∧
    "not found".toList <:+: "sh: line 1: journalctl: not found\n".toList ∧
    (get_journalctl_errors tools_missing_env init_state).2.log
      = ["/usr/bin/pkexec /bin/sh -c 'echo POLKIT_OK'".toList,
         "/usr/bin/pkexec /bin/sh -c 'journalctl -b -p err..warning --no-pager' 2>&1".toList] ∧
    (execute_privileged_command tools_missing_env init_state
        "dmesg --level=err,warn".toList).1
      = some "sh: line 1: dmesg: not found\n".toList ∧
    (get_dmesg_errors tools_missing_env init_state).1 = some [] ∧
    (get_dmesg_errors tools_missing_env init_state).2.log
      = ["/usr/bin/pkexec /bin/sh -c 'echo POLKIT_OK'".toList,
         "/usr/bin/pkexec /bin/sh -c 'dmesg --level=err,warn' 2>&1".toList,
         "dmesg".toList] := by
  decide

set_option maxRecDepth 40000 in
/-- C19 (failing input). When `/bin/hostname` prints an empty line, `get_hostname` returns the
empty string; and when both commands print nothing and the first line of `/etc/hostname` is
empty, it returns the empty string instead of `"unknown"`. -/
theorem get_hostname_returns_empty :
    (execute_command empty_hostname_env init_state "/bin/hostname".toList).1
      = some "\n".toList ∧
    (get_hostname empty_hostname_env (some "myhost\n".toList) init_state).1 = some [] ∧
    (execute_command quiet_env init_state "hostname".toList).1 = some [] ∧
    (get_hostname quiet_env (some "\nmyhost\n".toList) init_state).1 = some [] ∧
    (get_hostname quiet_env (some "myhost\n".toList) init_state).1 = some "myhost".toList ∧
    (get_hostname quiet_env none init_state).1 = some "unknown".toList := by
  decide

/-! ## Shell quoting of the wrapped command -/

theorem sh_words_quoted (s : CStr) :
    ∀ (w rest : CStr),
      sh_words_from ShMode.quoted (some w) (escape_loop s ++ quote :: rest)
        = sh_words_from ShMode.plain (some (w ++ s)) rest := by
  induction s with
  | nil =>
    intro w rest
    simp [escape_loop, sh_words_from]
  | cons c t ih =>
    intro w rest
    have hqb : quote ≠ backslash := by decide
    by_cases hc : c = quote
    · subst hc
      simp only [escape_loop, if_true, List.cons_append, sh_words_from, Option.getD_some,
        if_neg hqb.symm, if_false, hqb, List.append_eq]
      rw [ih]
      simp
    · simp only [escape_loop, if_neg hc, List.cons_append, sh_words_from, Option.getD_some,
        List.append_eq]
      rw [ih]
      simp

theorem sh_words_plain_word (word : CStr)
    (hw : ∀ c ∈ word, c ≠ quote ∧ c ≠ backslash ∧ is_blank c = false) :
    ∀ (w rest : CStr),
      sh_words_from ShMode.plain (some w) (word ++ rest)
        = sh_words_from ShMode.plain (some (w ++ word)) rest := by
  induction word with
  | nil => intro w rest; simp
  | cons c t ih =>
    intro w rest
    obtain ⟨h1, h2, h3⟩ := hw c (List.mem_cons_self _ _)
    simp only [List.cons_append, sh_words_from, if_neg h1, if_neg h2, h3, Bool.false_eq_true,
      if_false, Option.getD_some, List.append_eq]
    rw [ih (fun d hd => hw d (List.mem_cons_of_mem _ hd))]
    simp

theorem sh_words_first_word (word : CStr) (hne : word ≠ [])
    (hw : ∀ c ∈ word, c ≠ quote ∧ c ≠ backslash ∧ is_blank c = false) (rest : CStr) :
    sh_words_from ShMode.plain none (word ++ rest)
      = sh_words_from ShMode.plain (some word) rest := by
  cases word with
  | nil => exact absurd rfl hne
  | cons c t =>
    obtain ⟨h1, h2, h3⟩ := hw c (List.mem_cons_self _ _)
    simp only [List.cons_append, sh_words_from, if_neg h1, if_neg h2, h3, Bool.false_eq_true,
      if_false, Option.getD_none, List.nil_append, List.append_eq]
    rw [sh_words_plain_word t (fun d hd => hw d (List.mem_cons_of_mem _ hd))]
    simp

theorem sh_words_space (w rest : CStr) :
    sh_words_from ShMode.plain (some w) (Char.ofNat 32 :: rest)
      = (sh_words_from ShMode.plain none rest).map (fun ws => w :: ws) := by
  have h1 : Char.ofNat 32 ≠ quote := by decide
  have h2 : Char.ofNat 32 ≠ backslash := by decide
  have h3 : is_blank (Char.ofNat 32) = true := by decide
  simp only [sh_words_from, if_neg h1, if_neg h2, h3, if_true]

theorem sh_words_quoted_text (s : CStr) :
    sh_words (quote :: escape_loop s ++ [quote]) = some [s] := by
  unfold sh_words
  simp only [List.cons_append, sh_words_from, if_true, Option.getD_none, List.append_eq]
  rw [sh_words_quoted s [] []]
  simp [sh_words_from]

theorem sh_words_wrapped (helper cmd : CStr) (hp : helper ∈ pkexec_paths) :
    sh_words (wrapped_cmd helper cmd)
      = some [helper, "/bin/sh".toList, "-c".toList, cmd, "2>&1".toList] := by
  have hhelper : helper ≠ [] ∧ ∀ c ∈ helper, c ≠ quote ∧ c ≠ backslash ∧ is_blank c = false := by
    unfold pkexec_paths at hp
    simp only [List.mem_cons, List.mem_singleton, List.not_mem_nil, or_false] at hp
    rcases hp with h | h <;> subst h <;> decide
  have hsh : ∀ c ∈ "/bin/sh".toList, c ≠ quote ∧ c ≠ backslash ∧ is_blank c = false := by decide
  have hc : ∀ c ∈ "-c".toList, c ≠ quote ∧ c ≠ backslash ∧ is_blank c = false := by decide
  have hr : ∀ c ∈ "2>&1".toList, c ≠ quote ∧ c ≠ backslash ∧ is_blank c = false := by decide
  have e1 : " /bin/sh -c '".toList
      = Char.ofNat 32 :: ("/bin/sh".toList ++ Char.ofNat 32 :: ("-c".toList
          ++ Char.ofNat 32 :: [quote])) := by decide
  have e2 : "' 2>&1".toList = quote :: Char.ofNat 32 :: ("2>&1".toList ++ []) := by decide
  rw [wrapped_cmd_eq, e1, e2]
  unfold sh_words
  simp only [List.append_assoc, List.cons_append, List.nil_append]
  rw [sh_words_first_word helper hhelper.1 hhelper.2, sh_words_space,
    sh_words_first_word _ (by decide) hsh, sh_words_space,
    sh_words_first_word _ (by decide) hc, sh_words_space]
  have hq : sh_words_from ShMode.plain none
      (quote :: (escape_loop cmd ++ quote :: Char.ofNat 32 :: ("2>&1".toList ++ [])))
      = sh_words_from ShMode.quoted (some []) (escape_loop cmd ++ quote :: Char.ofNat 32 ::
          ("2>&1".toList ++ [])) := by
    simp only [sh_words_from, if_true, Option.getD_none]
  rw [hq, sh_words_quoted, sh_words_space, sh_words_first_word _ (by decide) hr]
  simp [sh_words_from]

/-- C12. For every command string `s`, under the POSIX quoting rules (every byte between single
quotes is literal; outside them a backslash makes the next byte literal) the text
`"'" + escape_single_quotes(s) + "'"` is read as exactly one word whose value is `s`; and the
command line built by `execute_privileged_command` splits into the helper, `/bin/sh`, `-c`, the
word `s` unchanged, and the redirection `2>&1`. -/
theorem wrapping_cannot_be_broken (env : Env) (log : List CStr) (s helper : CStr)
    (ha : env.alloc log 110 = true) (hp : helper ∈ pkexec_paths) :
    escape_single_quotes env log (some s) = some (escape_loop s) ∧
    sh_words ("'".toList ++ escape_loop s ++ "'".toList) = some [s] ∧
    wrapped_cmd helper s
      = helper ++ " /bin/sh -c ".toList ++ ("'".toList ++ escape_loop s ++ "'".toList)
          ++ " 2>&1".toList ∧
    sh_words (wrapped_cmd helper s)
      = some [helper, "/bin/sh".toList, "-c".toList, s, "2>&1".toList] := by
  refine ⟨?_, sh_words_quoted_text s, ?_, sh_words_wrapped helper s hp⟩
  · unfold escape_single_quotes
    simp only [ha, if_true]
  · rw [wrapped_cmd_eq]
    have e1 : " /bin/sh -c '".toList = " /bin/sh -c ".toList ++ "'".toList := by decide
    have e2 : "' 2>&1".toList = "'".toList ++ " 2>&1".toList := by decide
    rw [e1, e2]
    simp only [List.append_assoc]

theorem wrapping_cannot_be_broken_witness :
    sh_words ("'".toList ++ escape_loop "echo 'a'; rm -rf /".toList ++ "'".toList)
      = some ["echo 'a'; rm -rf /".toList] :=
  (wrapping_cannot_be_broken quiet_env [] "echo 'a'; rm -rf /".toList "/usr/bin/pkexec".toList
    rfl (by decide)).2.1

/-! ## `size_t` arithmetic and the shares -/

/-- C21. For every budget and every fixed-overhead lengths, as 64-bit unsigned integers: with
`overhead` the machine sum of the three lengths, `available` is `budget - overhead` when
`budget > overhead` and 0 otherwise; `sys_allow = available / 2` and
`ai_allow = available - sys_allow`, so the two shares add up to `available` and differ by at
most one; and the number of bytes taken from a text is `share - 16` when `share > 16` and 0
otherwise.  No result comes from a wrapped subtraction, and when the three lengths add up
without overflow the values are those of the arithmetic on natural numbers. -/
theorem shares_without_wrapping (limit header mid tail allow : Nat) (ping : CStr)
    (hl : limit < SIZE_RANGE) (hh : header < SIZE_RANGE) (hm : mid < SIZE_RANGE)
    (ht : tail < SIZE_RANGE) (ha : allow < SIZE_RANGE) :
    (limit > size_add (size_add header mid) tail →
      available_size_t limit header mid tail + size_add (size_add header mid) tail = limit) ∧
    (¬ limit > size_add (size_add header mid) tail →
      available_size_t limit header mid tail = 0) ∧
    (header + mid + tail < SIZE_RANGE →
      available_size_t limit header mid tail
        = if limit > header + mid + tail then limit - header - mid - tail else 0) ∧
    sys_allow_size_t (available_size_t limit header mid tail)
      = available_size_t limit header mid tail / 2 ∧
    sys_allow_size_t (available_size_t limit header mid tail)
        + ai_allow_size_t (available_size_t limit header mid tail)
      = available_size_t limit header mid tail ∧
    sys_allow_size_t (available_size_t limit header mid tail)
      ≤ ai_allow_size_t (available_size_t limit header mid tail) ∧
    ai_allow_size_t (available_size_t limit header mid tail)
      ≤ sys_allow_size_t (available_size_t limit header mid tail) + 1 ∧
    (allow > 16 → take_size_t allow 16 + 16 = allow) ∧
    (¬ allow > 16 → take_size_t allow 16 = 0) ∧
    (header_len ping + mid_len + tail_len < SIZE_RANGE →
      available_size_t limit (header_len ping) mid_len tail_len = available limit ping) := by
  unfold SIZE_RANGE at hl hh hm ht ha
  have hav : available_size_t limit header mid tail < 18446744073709551616 := by
    unfold available_size_t size_sub SIZE_RANGE
    split_ifs
    · exact Nat.mod_lt _ (by norm_num)
    · norm_num
  refine ⟨?_, ?_, ?_, rfl, ?_, ?_, ?_, ?_, ?_, ?_⟩
  · intro h
    unfold available_size_t
    rw [if_pos h]
    unfold size_add size_sub SIZE_RANGE at *
    omega
  · intro h
    unfold available_size_t
    rw [if_neg h]
  · intro hsum
    unfold available_size_t size_add size_sub SIZE_RANGE at *
    split_ifs <;> omega
  · generalize available_size_t limit header mid tail = a at hav
    unfold ai_allow_size_t sys_allow_size_t size_sub SIZE_RANGE
    omega
  · generalize available_size_t limit header mid tail = a at hav
    unfold ai_allow_size_t sys_allow_size_t size_sub SIZE_RANGE
    omega
  · generalize available_size_t limit header mid tail = a at hav
    unfold ai_allow_size_t sys_allow_size_t size_sub SIZE_RANGE
    omega
  · intro h
    unfold take_size_t size_sub SIZE_RANGE
    rw [if_pos h]
    omega
  · intro h
    unfold take_size_t
    rw [if_neg h]
  · intro hsum
    unfold available available_size_t size_add size_sub SIZE_RANGE at *
    split_ifs <;> omega

theorem shares_without_wrapping_witness :
    available_size_t 65536 41 30 1 + size_add (size_add 41 30) 1 = 65536 ∧
    take_size_t 32732 16 + 16 = 32732 :=
  ⟨(shares_without_wrapping 65536 41 30 1 32732 "maintainer".toList (by decide) (by decide) (by decide)
      (by decide) (by decide)).1 (by decide),
   (shares_without_wrapping 65536 41 30 1 32732 "maintainer".toList (by decide) (by decide) (by decide)
      (by decide) (by decide)).2.2.2.2.2.2.2.1 (by decide)⟩

/-! ## The two truncation markers -/

/-- C22 (counterexample). The suffix of the payload splitter and the note of the section
aggregator are different strings. -/
theorem markers_differ :
    trunc_suffix = "\n... (truncated)".toList ∧ note = "\n... (truncated)\n".toList ∧
    trunc_suffix ≠ note := by
  decide

/-- C22 (amended). The marker of the section aggregator is the marker of the payload splitter
followed by a line feed: the splitter appends the 16 bytes `"\n... (truncated)"`, the aggregator
the 17 bytes `"\n... (truncated)\n"`. -/
theorem note_is_suffix_and_newline :
    trunc_suffix = "\n... (truncated)".toList ∧ note = "\n... (truncated)\n".toList ∧
    note = trunc_suffix ++ [newline] ∧ trunc_suffix.length = 16 ∧ note.length = 17 ∧
    trunc_suffix <+: note := by
  refine ⟨rfl, rfl, by decide, by decide, by decide, ?_⟩
  exact ⟨[newline], by decide⟩

/-! ## Independence of the two parts -/

theorem issue_body_eq (limit : Nat) (ping all_info ai_message : CStr) :
    issue_body limit ping all_info ai_message
      = "@".toList ++ ping ++ "\n\n## System Information\n```\n".toList
        ++ sys_part all_info (sys_allow limit ping)
        ++ "\n```\n\n## AI Generated Summary\n".toList
        ++ ai_part ai_message (ai_allow limit ping) ++ "\n".toList := by
  unfold issue_body
  apply snprintf_fits
  unfold body_needed header_len mid_len tail_len
  simp only [List.length_append, header_fmt_length, mid_fmt_length]
  have e1 : "@".toList.length = 1 := by decide
  have e2 : "\n\n## System Information\n```\n".toList.length = 28 := by decide
  have e3 : "\n```\n\n## AI Generated Summary\n".toList.length = 30 := by decide
  have e4 : "\n".toList.length = 1 := by decide
  have e5 : tail_fmt.length = 1 := by decide
  rw [e1, e2, e3, e4, e5]
  omega

/-- C23. For a fixed budget and mention target, the issue body is the fixed header, the system
part, the fixed separator, the summary part and the fixed tail, where the system part is a
function of the report text and its own share only and the summary part a function of the
summary text and its own share only: changing the summary leaves the beginning of the body up to
the end of the system part unchanged, and changing the report leaves the summary part and
everything after it unchanged. -/
theorem parts_independent (limit : Nat) (ping report1 report2 summary1 summary2 : CStr) :
    issue_body limit ping report1 summary1
      = ("@".toList ++ ping ++ "\n\n## System Information\n```\n".toList)
        ++ sys_part report1 (sys_allow limit ping)
        ++ "\n```\n\n## AI Generated Summary\n".toList
        ++ ai_part summary1 (ai_allow limit ping) ++ "\n".toList ∧
    (issue_body limit ping report1 summary1).take
        (("@".toList ++ ping ++ "\n\n## System Information\n```\n".toList).length
          + (sys_part report1 (sys_allow limit ping)).length)
      = (issue_body limit ping report1 summary2).take
        (("@".toList ++ ping ++ "\n\n## System Information\n```\n".toList).length
          + (sys_part report1 (sys_allow limit ping)).length) ∧
    (issue_body limit ping report1 summary1).drop
        (("@".toList ++ ping ++ "\n\n## System Information\n```\n".toList).length
          + (sys_part report1 (sys_allow limit ping)).length)
      = (issue_body limit ping report2 summary1).drop
        (("@".toList ++ ping ++ "\n\n## System Information\n```\n".toList).length
          + (sys_part report2 (sys_allow limit ping)).length) ∧
    sys_allow limit ping + ai_allow limit ping = available limit ping ∧
    sys_allow limit ping ≤ ai_allow limit ping := by
  have key : ∀ (r s : CStr),
      issue_body limit ping r s
        = ("@".toList ++ ping ++ "\n\n## System Information\n```\n".toList
            ++ sys_part r (sys_allow limit ping))
          ++ ("\n```\n\n## AI Generated Summary\n".toList
            ++ ai_part s (ai_allow limit ping) ++ "\n".toList) := by
    intro r s
    rw [issue_body_eq]
    simp only [List.append_assoc]
  have hlen : ∀ r : CStr,
      ("@".toList ++ ping ++ "\n\n## System Information\n```\n".toList).length
          + (sys_part r (sys_allow limit ping)).length
        = ("@".toList ++ ping ++ "\n\n## System Information\n```\n".toList
            ++ sys_part r (sys_allow limit ping)).length := by
    intro r
    simp only [List.length_append]
  refine ⟨issue_body_eq limit ping report1 summary1, ?_, ?_, shares_sum limit ping,
    ai_allow_ge_sys_allow limit ping⟩
  · rw [hlen, key report1 summary1, key report1 summary2, List.take_left, List.take_left]
  · rw [hlen, hlen, key report1 summary1, key report2 summary1, List.drop_left,
      List.drop_left]

/-! ## `escape_single_quotes` -/

theorem escape_loop_append (a b : CStr) :
    escape_loop (a ++ b) = escape_loop a ++ escape_loop b := by
  induction a with
  | nil => rfl
  | cons c t ih =>
    simp only [List.cons_append, escape_loop, List.append_eq]
    split_ifs
    · rw [ih]; rfl
    · rw [ih]; rfl

theorem escape_loop_length (s : CStr) :
    (escape_loop s).length = s.length + 3 * s.count quote := by
  induction s with
  | nil => rfl
  | cons c t ih =>
    unfold escape_loop
    by_cases h : c = quote
    · subst h
      rw [if_pos rfl, List.count_cons_self]
      simp only [List.length_cons, ih]
      omega
    · rw [if_neg h, List.count_cons_of_ne (fun e => h e.symm)]
      simp only [List.length_cons, ih]
      omega

theorem escape_loop_of_no_quote (s : CStr) (h : quote ∉ s) : escape_loop s = s := by
  induction s with
  | nil => rfl
  | cons c t ih =>
    unfold escape_loop
    have hc : c ≠ quote := fun e => h (e ▸ List.mem_cons_self _ _)
    rw [if_neg hc, ih (fun hm => h (List.mem_cons_of_mem _ hm))]

theorem escape_loop_flatMap (s : CStr) :
    escape_loop s
      = (s.map (fun c => if c = quote then [quote, backslash, quote, quote] else [c])).flatten := by
  induction s with
  | nil => rfl
  | cons c t ih =>
    unfold escape_loop
    rw [List.map_cons, List.flatten_cons, ← ih]
    split_ifs <;> rfl

/-- C26. For every string `s`, `escape_single_quotes(s)` is `s` with every single quote replaced
by the four bytes quote, backslash, quote, quote and every other byte kept, in order.  It is the
identity on strings without single quotes, it distributes over concatenation, and its length is
`len(s) + 3 * (number of single quotes in s)`, at most `4 * len(s)`, so the result and its
terminator fit the buffer of `4 * len(s) + 1` bytes. -/
theorem escape_single_quotes_spec (env : Env) (log : List CStr) (s a b : CStr)
    (halloc : env.alloc log 110 = true) :
    escape_single_quotes env log (some s) = some (escape_loop s) ∧
    escape_loop s
      = (s.map (fun c => if c = quote then [quote, backslash, quote, quote] else [c])).flatten ∧
    [quote, backslash, quote, quote] = "'\\''".toList ∧
    (quote ∉ s → escape_loop s = s) ∧
    escape_loop (a ++ b) = escape_loop a ++ escape_loop b ∧
    (escape_loop s).length = s.length + 3 * s.count quote ∧
    (escape_loop s).length ≤ 4 * s.length ∧
    (escape_loop s).length + 1 ≤ s.length * 4 + 1 := by
  have hl := escape_loop_length s
  have hc : s.count quote ≤ s.length := List.count_le_length _ _
  refine ⟨?_, escape_loop_flatMap s, by decide, escape_loop_of_no_quote s,
    escape_loop_append a b, hl, by omega, by omega⟩
  unfold escape_single_quotes
  simp only [halloc, if_true]

theorem escape_single_quotes_spec_witness :
    escape_single_quotes quiet_env [] (some "it's".toList) = some "it'\\''s".toList ∧
    escape_loop "uptime".toList = "uptime".toList := by
  have h := escape_single_quotes_spec quiet_env [] "it's".toList [] [] rfl
  have h2 := escape_single_quotes_spec quiet_env [] "uptime".toList [] [] rfl
  refine ⟨?_, h2.2.2.2.1 (by decide)⟩
  rw [h.1]
  decide

/-! ## `get_dmesg_errors` -/

/-- C27. For every output of the privileged attempt `dmesg --level=err,warn`: when it contains
`"not found"` or `"Operation not permitted"` (case-sensitive, anywhere), `get_dmesg_errors` runs
the unfiltered, unprivileged `dmesg` and returns its output; otherwise it runs nothing more and
returns the privileged output unchanged. -/
theorem dmesg_fallback_iff_marker (env : Env) (st : State) (out : CStr)
    (h : (execute_privileged_command env st "dmesg --level=err,warn".toList).1 = some out) :
    (("not found".toList <:+: out ∨ "Operation not permitted".toList <:+: out) →
      get_dmesg_errors env st
        = execute_command env
            (execute_privileged_command env st "dmesg --level=err,warn".toList).2
            "dmesg".toList) ∧
    (¬ ("not found".toList <:+: out ∨ "Operation not permitted".toList <:+: out) →
      get_dmesg_errors env st
        = (some out, (execute_privileged_command env st "dmesg --level=err,warn".toList).2)) ∧
    ((get_dmesg_errors env st).2.log
        = (execute_privileged_command env st "dmesg --level=err,warn".toList).2.log
            ++ ["dmesg".toList]
      ↔ ("not found".toList <:+: out ∨ "Operation not permitted".toList <:+: out)) := by
  have hcond : ((strstr out "not found".toList).isSome
        || (strstr out "Operation not permitted".toList).isSome) = true
      ↔ ("not found".toList <:+: out ∨ "Operation not permitted".toList <:+: out) := by
    rw [Bool.or_eq_true, strstr_isSome_iff, strstr_isSome_iff]
  have e1 : ("not found".toList <:+: out ∨ "Operation not permitted".toList <:+: out) →
      get_dmesg_errors env st
        = execute_command env
            (execute_privileged_command env st "dmesg --level=err,warn".toList).2
            "dmesg".toList := by
    intro hm
    unfold get_dmesg_errors
    simp only [h]
    rw [if_pos (hcond.mpr hm)]
  have e2 : ¬ ("not found".toList <:+: out ∨ "Operation not permitted".toList <:+: out) →
      get_dmesg_errors env st
        = (some out, (execute_privileged_command env st "dmesg --level=err,warn".toList).2) := by
    intro hm
    unfold get_dmesg_errors
    simp only [h]
    rw [if_neg (fun hc => hm (hcond.mp hc))]
  refine ⟨e1, e2, ?_⟩
  constructor
  · intro hlog
    by_contra hm
    rw [e2 hm] at hlog
    have := congrArg List.length hlog
    simp at this
  · intro hm
    rw [e1 hm, execute_command_log_eq]

set_option maxRecDepth 40000 in
theorem dmesg_fallback_iff_marker_witness :
    get_dmesg_errors tools_missing_env init_state
      = execute_command tools_missing_env
          (execute_privileged_command tools_missing_env init_state
            "dmesg --level=err,warn".toList).2 "dmesg".toList :=
  (dmesg_fallback_iff_marker tools_missing_env init_state
    "sh: line 1: dmesg: not found\n".toList (by decide)).1 (Or.inl (by decide))

/-! ## `execute_command` returns the whole output -/

theorem fgets_append (n : Nat) :
    ∀ stream : List Char, (fgets n stream).1 ++ (fgets n stream).2 = stream := by
  induction n with
  | zero => intro stream; rfl
  | succ k ih =>
    intro stream
    cases stream with
    | nil => rfl
    | cons c t =>
      unfold fgets
      split_ifs
      · rfl
      · simp only [List.cons_append, ih t]

theorem fgets_rest_length (n : Nat) (c : Char) (t : List Char) :
    (fgets (n + 1) (c :: t)).2.length ≤ t.length := by
  unfold fgets
  split_ifs
  · exact Nat.le_refl _
  · have h := congrArg List.length (fgets_append n t)
    rw [List.length_append] at h
    simp only []
    omega

theorem c_str_of_no_nul (l : List Char) (h : NUL ∉ l) : c_str l = l := by
  unfold c_str
  rw [List.takeWhile_eq_self_iff]
  intro c hc
  simp only [bne_iff_ne, ne_eq]
  intro e
  exact h (e ▸ hc)

theorem read_loop_whole_of_realloc (env : Env) (log : List CStr)
    (h : env.alloc log 85 = true) (fuel : Nat) :
    ∀ (stream : List Char) (acc : CStr), stream.length ≤ fuel → NUL ∉ stream →
      read_loop env log fuel stream (some acc) = some (acc ++ stream) := by
  induction fuel with
  | zero =>
    intro stream acc hlen _
    have : stream = [] := List.length_eq_zero.mp (Nat.le_zero.mp hlen)
    subst this
    simp [read_loop]
  | succ n ih =>
    intro stream acc hlen hnul
    cases stream with
    | nil => simp [read_loop]
    | cons c t =>
      unfold read_loop
      rw [if_neg (List.cons_ne_nil _ _), if_pos h]
      have happ := fgets_append 1023 (c :: t)
      have hrest : (fgets 1023 (c :: t)).2.length ≤ t.length := fgets_rest_length 1022 c t
      have hn1 : NUL ∉ (fgets 1023 (c :: t)).1 := by
        intro hm
        exact hnul (happ ▸ List.mem_append_left _ hm)
      have hn2 : NUL ∉ (fgets 1023 (c :: t)).2 := by
        intro hm
        exact hnul (happ ▸ List.mem_append_right _ hm)
      rw [c_str_of_no_nul _ hn1, Option.getD_some,
        ih _ _ (by simp only [List.length_cons] at hlen; omega) hn2, List.append_assoc, happ]

theorem read_loop_whole (env : Env) (h : env.alloc_ok) (log : List CStr) (fuel : Nat) :
    ∀ (stream : List Char) (acc : CStr), stream.length ≤ fuel → NUL ∉ stream →
      read_loop env log fuel stream (some acc) = some (acc ++ stream) :=
  read_loop_whole_of_realloc env log (h log 85) fuel

theorem execute_command_whole_of_sites (env : Env) (st : State) (cmd : CStr)
    (h70 : env.alloc st.log 70 = true) (h85 : env.alloc (st.log ++ [cmd]) 85 = true)
    (stream : List Char) (hp : env.popen st.log cmd = some stream) (hnul : NUL ∉ stream) :
    (execute_command env st cmd).1 = some stream := by
  unfold execute_command strdup
  simp only [hp, h70, if_true]
  rw [read_loop_whole_of_realloc env _ h85 _ stream [] (Nat.le_refl _) hnul]
  rfl

theorem execute_command_whole (env : Env) (h : env.alloc_ok) (st : State) (cmd : CStr)
    (stream : List Char) (hp : env.popen st.log cmd = some stream) (hnul : NUL ∉ stream) :
    (execute_command env st cmd).1 = some stream :=
  execute_command_whole_of_sites env st cmd (h _ 70) (h _ 85) stream hp hnul

/-- C24. With allocation succeeding: for every command whose process can be started and whose
output has no NUL byte, whatever the number and the length of its lines, `execute_command`
returns exactly the whole output (the chunks of at most 1023 bytes read by `fgets`, put end to
end); the exit status is never looked at.  When the process cannot be started it returns
`"Error: Command failed to execute"`. -/
theorem execute_command_returns_output (env : Env) (st : State) (cmd : CStr)
    (stream : List Char) (h : env.alloc_ok) :
    (env.popen st.log cmd = some stream → NUL ∉ stream →
      (execute_command env st cmd).1 = some stream) ∧
    (env.popen st.log cmd = none →
      (execute_command env st cmd).1 = some "Error: Command failed to execute".toList) ∧
    ((fgets 1023 stream).1 ++ (fgets 1023 stream).2 = stream ∧
      (fgets 1023 stream).1.length ≤ 1023) := by
  refine ⟨fun hp hnul => execute_command_whole env h st cmd stream hp hnul, ?_,
    fgets_append 1023 stream, ?_⟩
  · intro hp
    unfold execute_command strdup
    simp only [hp, h _, if_true]
  · have key : ∀ (n : Nat) (s : List Char), (fgets n s).1.length ≤ n := by
      intro n
      induction n with
      | zero => intro s; simp [fgets]
      | succ k ih =>
        intro s
        cases s with
        | nil => simp [fgets]
        | cons c t =>
          unfold fgets
          split_ifs
          · simp
          · simp only [List.length_cons]
            have := ih t
            omega
    exact key 1023 stream

theorem execute_command_returns_output_witness :
    (execute_command one_failed_unit_env init_state cmd_unit_list).1
      = some "foo.service\n".toList :=
  (execute_command_returns_output one_failed_unit_env init_state cmd_unit_list
    "foo.service\n".toList (fun _ _ => rfl)).1 (by decide) (by decide)

/-! ## The report and the error gate -/

theorem title_infix_render_sections (limit : Nat) (sections : List (CStr × CStr))
    (s : CStr × CStr) (hs : s ∈ sections) : s.1 <:+: render_sections limit sections := by
  induction sections with
  | nil => cases hs
  | cons x rest ih =>
    unfold render_sections
    rcases List.mem_cons.mp hs with e | e
    · subst e
      unfold render_section
      refine ⟨"== ".toList, " ==\n".toList ++ section_body s.2 limit ++ [newline]
        ++ render_sections limit rest, ?_⟩
      simp only [List.append_assoc]
    · obtain ⟨a, b, hab⟩ := ih e
      exact ⟨render_section limit x ++ a, b, by rw [← hab]; simp only [List.append_assoc]⟩

theorem append_section_of_realloc_failure (title content : Option CStr) (limit : Nat) :
    append_section_with_limit false { buf := none, len := 0, cap := 0 } title content limit
      = { buf := none, len := 0, cap := 0 } := by
  unfold append_section_with_limit
  simp

theorem gather_fixed_of_realloc_failure (env : Env) (h : ∀ log, env.alloc log 297 = false)
    (st : State) (info : Option SystemInfo) :
    gather_fixed env st info = { buf := none, len := 0, cap := 0 } := by
  unfold gather_fixed
  simp only [h _, append_section_of_realloc_failure]

theorem gather_of_realloc_failure (env : Env) (h : ∀ log, env.alloc log 297 = false)
    (st : State) (info : Option SystemInfo) :
    (gather_all_errors env st info).1
      = strdup env (gather_all_errors env st info).2.log 394
          "(no errors found or failed to collect error data)".toList := by
  unfold gather_all_errors
  rw [gather_fixed_of_realloc_failure env h]
  cases hl : (unit_list env st).1 with
  | none => rfl
  | some list =>
    by_cases hpos : list.length > 0
    · simp only [if_pos hpos]
      unfold gather_units
      simp only [h _, append_section_of_realloc_failure]
      cases hm : env.mkstemp with
      | none => rfl
      | some tmpf =>
        dsimp only
        cases hu : (units_status env st tmpf).1 with
        | none => rfl
        | some status => rfl
    · simp only [if_neg hpos]

theorem append_section_dropped (b : Buffer) (title content : CStr) (limit : Nat)
    (hgrow : b.len + (title.length + 4
        + (if content.length > limit then limit + 32 else content.length) + 4) + 1 > b.cap) :
    append_section_with_limit false b (some title) (some content) limit = b := by
  unfold append_section_with_limit
  simp only [Option.getD_some, decide_eq_true hgrow, Bool.not_false, Bool.and_self, if_true]

theorem low_memory_popen (log : List CStr) (cmd : CStr) (h1 : cmd ≠ cmd_svc)
    (h2 : cmd ≠ cmd_unit_list) :
    low_memory_env.popen log cmd = some (List.replicate 1100 'x') := by
  show (if cmd = cmd_svc ∨ cmd = cmd_unit_list then some [] else some (List.replicate 1100 'x'))
    = some (List.replicate 1100 'x')
  rw [if_neg (by simp [h1, h2])]

theorem low_memory_command (st : State) (cmd : CStr) (h1 : cmd ≠ cmd_svc)
    (h2 : cmd ≠ cmd_unit_list) :
    execute_privileged_command low_memory_env st cmd
      = (some (List.replicate 1100 'x'), { st with log := st.log ++ [cmd] }) := by
  have hroot : execute_privileged_command low_memory_env st cmd
      = execute_command low_memory_env st cmd := rfl
  have hnul : NUL ∉ List.replicate 1100 'x' := by
    intro h
    exact absurd (List.eq_of_mem_replicate h) (by decide)
  rw [hroot]
  refine Prod.ext ?_ (execute_command_log low_memory_env st cmd)
  exact execute_command_whole_of_sites low_memory_env st cmd rfl rfl _
    (low_memory_popen st.log cmd h1 h2) hnul

set_option maxRecDepth 20000 in
theorem low_memory_fixed :
    gather_fixed low_memory_env init_state none
      = { buf := some "== System Metadata ==\nHostname: (unknown)\nKernel: (unknown)\nOS Release: (unknown)\nUptime: (unknown)\n\n\n== Systemd Failed Units ==\n\n".toList,
          len := 130, cap := 1126 } := by
  have hs : svc low_memory_env init_state
      = (some [], { polkit_authenticated := false, log := [cmd_svc] }) := rfl
  have hj : journal low_memory_env init_state
      = (some (List.replicate 1100 'x'),
          { polkit_authenticated := false, log := [cmd_svc, cmd_journal] }) := by
    unfold journal
    rw [hs, low_memory_command _ _ (by decide) (by decide)]
    rfl
  have hd : dmesg low_memory_env init_state
      = (some (List.replicate 1100 'x'),
          { polkit_authenticated := false, log := [cmd_svc, cmd_journal, cmd_dmesg] }) := by
    unfold dmesg
    rw [hj, low_memory_command _ _ (by decide) (by decide)]
    rfl
  have hp : pac low_memory_env init_state
      = (some (List.replicate 1100 'x'),
          { polkit_authenticated := false,
            log := [cmd_svc, cmd_journal, cmd_dmesg, cmd_pac] }) := by
    unfold pac
    rw [hd, low_memory_command _ _ (by decide) (by decide)]
    rfl
  have ho : others low_memory_env init_state
      = (some (List.replicate 1100 'x'),
          { polkit_authenticated := false,
            log := [cmd_svc, cmd_journal, cmd_dmesg, cmd_pac, cmd_others] }) := by
    unfold others
    rw [hp, low_memory_command _ _ (by decide) (by decide)]
    rfl
  have hb2 : append_section_with_limit (low_memory_env.alloc [cmd_svc] 297)
      (append_section_with_limit (low_memory_env.alloc init_state.log 297)
        { buf := none, len := 0, cap := 0 } (some title_meta) (some (meta_text none))
        SECTION_LIMIT)
      (some title_svc) (some ((some ([] : CStr)).getD none_text)) SECTION_LIMIT
      = { buf := some "== System Metadata ==\nHostname: (unknown)\nKernel: (unknown)\nOS Release: (unknown)\nUptime: (unknown)\n\n\n== Systemd Failed Units ==\n\n".toList,
          len := 130, cap := 1126 } := by
    rfl
  have hlen : (List.replicate 1100 'x').length = 1100 := List.length_replicate _ _
  have hlim : SECTION_LIMIT = 204800 := rfl
  have drop : ∀ (log : List CStr) (title : CStr), log ≠ [] → 17 ≤ title.length →
      append_section_with_limit (low_memory_env.alloc log 297)
        { buf := some "== System Metadata ==\nHostname: (unknown)\nKernel: (unknown)\nOS Release: (unknown)\nUptime: (unknown)\n\n\n== Systemd Failed Units ==\n\n".toList,
          len := 130, cap := 1126 }
        (some title) (some ((some (List.replicate 1100 'x')).getD none_text)) SECTION_LIMIT
      = { buf := some "== System Metadata ==\nHostname: (unknown)\nKernel: (unknown)\nOS Release: (unknown)\nUptime: (unknown)\n\n\n== Systemd Failed Units ==\n\n".toList,
          len := 130, cap := 1126 } := by
    intro log title hne ht
    have ha : low_memory_env.alloc log 297 = false := by
      cases log with
      | nil => exact absurd rfl hne
      | cons c t => rfl
    rw [ha]
    apply append_section_dropped
    rw [Option.getD_some, hlen, hlim]
    simp only []
    split_ifs <;> omega
  unfold gather_fixed
  simp only [hs, hj, hd, hp, ho]
  rw [hb2, drop _ _ (by decide) (by decide), drop _ _ (by decide) (by decide),
    drop _ _ (by decide) (by decide), drop _ _ (by decide) (by decide)]

/-- C25 (counterexample). A root process on a machine without failed units and with long logs,
where the `realloc` of `append_section_with_limit` succeeds for the first section only: the
second section, being short, still fits the block, the four sections after it need a larger
block and are dropped, and the report holds the sections "System Metadata" and
"Systemd Failed Units" alone.  It contains none of the keywords, so `detect_errors` returns 0 on
it although the journal command did print its output, and the gate of
`on_report_bug_button_clicked` takes the branch "No significant errors detected". -/
theorem partial_report_not_flagged :
    (gather_all_errors low_memory_env init_state none).1
      = some "== System Metadata ==\nHostname: (unknown)\nKernel: (unknown)\nOS Release: (unknown)\nUptime: (unknown)\n\n\n== Systemd Failed Units ==\n\n".toList ∧
    (journal low_memory_env init_state).1 = some (List.replicate 1100 'x') ∧
    detect_errors "== System Metadata ==\nHostname: (unknown)\nKernel: (unknown)\nOS Release: (unknown)\nUptime: (unknown)\n\n\n== Systemd Failed Units ==\n\n".toList = 0 ∧
    (gather_all_errors low_memory_env init_state none).1.map detect_errors = some 0 ∧
    report_gate (gather_all_errors low_memory_env init_state none).1
      = GateBranch.no_significant_errors := by
  have hu : (unit_list low_memory_env init_state).1 = some [] := rfl
  have hg : (gather_all_errors low_memory_env init_state none).1
      = some "== System Metadata ==\nHostname: (unknown)\nKernel: (unknown)\nOS Release: (unknown)\nUptime: (unknown)\n\n\n== Systemd Failed Units ==\n\n".toList := by
    unfold gather_all_errors
    rw [low_memory_fixed, hu]
    rfl
  have hd : detect_errors "== System Metadata ==\nHostname: (unknown)\nKernel: (unknown)\nOS Release: (unknown)\nUptime: (unknown)\n\n\n== Systemd Failed Units ==\n\n".toList = 0 := by
    decide
  refine ⟨hg, ?_, hd, ?_, ?_⟩
  · have h : journal low_memory_env init_state
        = execute_privileged_command low_memory_env
            { polkit_authenticated := false, log := [cmd_svc] } cmd_journal := rfl
    rw [h, low_memory_command _ _ (by decide) (by decide)]
  · rw [hg, Option.map_some', hd]
  · rw [hg]
    unfold report_gate
    simp only [hd]
    rfl

/-- C25 (amended). For every `SystemInfo` and every outcome of the commands, all outputs empty,
`NULL` or error texts included: when every `realloc` made by `append_section_with_limit`
succeeds, `gather_all_errors` returns a report that contains the lowercase keyword `"error"`,
which occurs in the section titles `"Journalctl (errors)"` and
`"Other /var/log Matches (grep -i 'error')"`, so `detect_errors` returns 1 on it; when every such
`realloc` fails, nothing is collected and `gather_all_errors` returns `NULL` or the fallback text
`"(no errors found or failed to collect error data)"`, which contains `"error"` too, so
`detect_errors` returns 1 on whatever text is returned.  In both cases the gate of
`on_report_bug_button_clicked` does not take the branch "No significant errors detected". -/
theorem report_flagged_all_or_nothing (env : Env) (st : State) (info : Option SystemInfo) :
    ((∀ log, env.alloc log 297 = true) →
      ∃ report : CStr,
        (gather_all_errors env st info).1 = some report ∧
        "Journalctl (errors)".toList <:+: report ∧
        "Other /var/log Matches (grep -i 'error')".toList <:+: report ∧
        "error".toList <:+: report ∧
        detect_errors report = 1 ∧
        report_gate (gather_all_errors env st info).1 = GateBranch.errors_detected) ∧
    ((∀ log, env.alloc log 297 = false) →
      ((gather_all_errors env st info).1 = none ∨
        (gather_all_errors env st info).1
          = some "(no errors found or failed to collect error data)".toList) ∧
      (∀ report : CStr, (gather_all_errors env st info).1 = some report →
        report = "(no errors found or failed to collect error data)".toList ∧
        "error".toList <:+: report ∧
        detect_errors report = 1) ∧
      report_gate (gather_all_errors env st info).1 ≠ GateBranch.no_significant_errors) := by
  constructor
  · intro h
    have hg := gather_report_of_realloc env h st info
    refine ⟨_, hg, ?_⟩
    have hj : "Journalctl (errors)".toList
        <:+: render_sections SECTION_LIMIT (gather_sections env st info) :=
      title_infix_render_sections SECTION_LIMIT _
        (title_journal, (journal env st).1.getD none_text)
        (by unfold gather_sections fixed_sections; simp)
    have ho : "Other /var/log Matches (grep -i 'error')".toList
        <:+: render_sections SECTION_LIMIT (gather_sections env st info) :=
      title_infix_render_sections SECTION_LIMIT _
        (title_others, (others env st).1.getD none_text)
        (by unfold gather_sections fixed_sections; simp)
    have he : "error".toList <:+: "Journalctl (errors)".toList := by decide
    have hr := he.trans hj
    have hd := detect_loop_eq_one _ error_keywords "error".toList (by decide) hr
    refine ⟨hj, ho, hr, hd, ?_⟩
    rw [hg]
    unfold report_gate
    have hd2 : detect_errors (render_sections SECTION_LIMIT (gather_sections env st info)) = 1 :=
      hd
    simp only [hd2]
    rfl
  · intro h
    have e := gather_of_realloc_failure env h st info
    unfold strdup at e
    have hf : detect_errors "(no errors found or failed to collect error data)".toList = 1 := by
      decide
    refine ⟨?_, ?_, ?_⟩
    · by_cases ha : env.alloc (gather_all_errors env st info).2.log 394 = true
      · rw [if_pos ha] at e
        exact Or.inr e
      · rw [if_neg ha] at e
        exact Or.inl e
    · intro report hrep
      by_cases ha : env.alloc (gather_all_errors env st info).2.log 394 = true
      · rw [if_pos ha, hrep] at e
        have e2 : report = "(no errors found or failed to collect error data)".toList :=
          Option.some.inj e
        subst e2
        exact ⟨rfl, by decide, hf⟩
      · rw [if_neg ha, hrep] at e
        cases e
    · by_cases ha : env.alloc (gather_all_errors env st info).2.log 394 = true
      · rw [if_pos ha] at e
        rw [e]
        unfold report_gate
        simp only [hf]
        intro hc
        cases hc
      · rw [if_neg ha] at e
        rw [e]
        intro hc
        cases hc

set_option maxRecDepth 40000 in
theorem report_flagged_all_or_nothing_witness :
    (∃ report : CStr,
      (gather_all_errors quiet_env init_state none).1 = some report ∧
      detect_errors report = 1) ∧
    (gather_all_errors no_report_buffer_env init_state none).1
      = some "(no errors found or failed to collect error data)".toList ∧
    detect_errors "(no errors found or failed to collect error data)".toList = 1 := by
  obtain ⟨r, h1, _, _, _, h5, _⟩ :=
    (report_flagged_all_or_nothing quiet_env init_state none).1 (fun _ => rfl)
  have h2 := (report_flagged_all_or_nothing no_report_buffer_env init_state none).2
    (fun _ => rfl)
  have e : (gather_all_errors no_report_buffer_env init_state none).1
      = some "(no errors found or failed to collect error data)".toList := by decide
  exact ⟨⟨r, h1, h5⟩, e, (h2.2.1 _ e).2.2⟩

/-! ## Capacity of the report buffer -/

theorem append_sections_wf (calls : List (Option CStr × Option CStr × Nat)) :
    ∀ b : Buffer, b.wf → (append_sections b calls).wf := by
  induction calls with
  | nil => intro b hb; exact hb
  | cons call rest ih =>
    intro b hb
    exact ih _ (append_section_wf b hb call.1 call.2.1 call.2.2)

theorem append_sections_take_succ (calls : List (Option CStr × Option CStr × Nat)) (b : Buffer)
    (k : Nat) (hk : k < calls.length) :
    append_sections b (calls.take (k + 1))
      = append_section_with_limit true (append_sections b (calls.take k))
          (calls.get ⟨k, hk⟩).1 (calls.get ⟨k, hk⟩).2.1 (calls.get ⟨k, hk⟩).2.2 := by
  unfold append_sections
  rw [List.take_succ, List.foldl_append]
  have : calls[k]? = some (calls.get ⟨k, hk⟩) := by
    rw [List.getElem?_eq_getElem hk]
    rfl
  rw [this]
  rfl

theorem render_section_length_le_add (title content : Option CStr) (limit : Nat) :
    (render_section limit (title.getD [], content.getD "(no data)".toList)).length + 1
      ≤ section_add title content limit + 1 := by
  unfold render_section section_body section_add
  have hd := section_delimiter_length (title.getD [])
  have hn := note_length
  simp only [List.length_append, List.length_singleton] at hd ⊢
  split_ifs with h
  · simp only [List.length_append, List.length_take]
    omega
  · omega

/-- C28 (counterexample). For an empty title, the 5-byte content `"01234"` and limit 4, the
call writes 30 bytes (delimiter line, 4 bytes of content, the 17-byte marker, the final newline
and the terminator); the size the code reserves is `add + 1 = 45`, whereas
`title length + 8 + min(content length, limit + 32) + 1` is 14, less than the bytes written. -/
theorem min_formula_too_small :
    (append_section_with_limit true null_buffer (some []) (some "01234".toList) 4).buf
      = some "==  ==\n0123\n... (truncated)\n\n".toList ∧
    (append_section_with_limit true null_buffer (some []) (some "01234".toList) 4).len + 1 = 30 ∧
    section_add (some []) (some "01234".toList) 4 + 1 = 45 ∧
    (append_section_with_limit true null_buffer (some []) (some "01234".toList) 4).cap
      = section_add (some []) (some "01234".toList) 4 + 1024 ∧
    ([] : CStr).length + 8 + min "01234".toList.length (4 + 32) + 1 = 14 ∧
    ¬ ((append_section_with_limit true null_buffer (some []) (some "01234".toList) 4).len + 1
        ≤ ([] : CStr).length + 8 + min "01234".toList.length (4 + 32) + 1) := by
  decide

/-- C28 (amended). For every sequence of `append_section_with_limit` calls starting from the
empty buffer (`NULL`, length 0, capacity 0; allocation succeeding), the buffer holds exactly
`length` bytes before its terminator and `length + 1 ≤ capacity` after every call: the size
reserved before writing, `add + 1` with `add = title length + 8 + (limit + 32 when the content is
longer than the limit, the content length otherwise)`, is at least the number of bytes written
(delimiter line, content or truncated content plus the 17-byte marker, final newline,
terminator). -/
theorem capacity_invariant (calls : List (Option CStr × Option CStr × Nat)) (k : Nat)
    (hk : k < calls.length) :
    (append_sections null_buffer (calls.take k)).wf ∧
    append_sections null_buffer (calls.take (k + 1))
      = append_section_with_limit true (append_sections null_buffer (calls.take k))
          (calls.get ⟨k, hk⟩).1 (calls.get ⟨k, hk⟩).2.1 (calls.get ⟨k, hk⟩).2.2 ∧
    section_add (calls.get ⟨k, hk⟩).1 (calls.get ⟨k, hk⟩).2.1 (calls.get ⟨k, hk⟩).2.2
      = ((calls.get ⟨k, hk⟩).1.getD []).length + 8
        + (if ((calls.get ⟨k, hk⟩).2.1.getD "(no data)".toList).length > (calls.get ⟨k, hk⟩).2.2
           then (calls.get ⟨k, hk⟩).2.2 + 32
           else ((calls.get ⟨k, hk⟩).2.1.getD "(no data)".toList).length) ∧
    (append_sections null_buffer (calls.take (k + 1))).len + 1
      ≤ (append_sections null_buffer (calls.take k)).len
        + (section_add (calls.get ⟨k, hk⟩).1 (calls.get ⟨k, hk⟩).2.1 (calls.get ⟨k, hk⟩).2.2 + 1) ∧
    (append_sections null_buffer (calls.take (k + 1))).len + 1
      ≤ (append_sections null_buffer (calls.take (k + 1))).cap ∧
    (∃ s, (append_sections null_buffer (calls.take (k + 1))).buf = some s ∧
      s.length = (append_sections null_buffer (calls.take (k + 1))).len) := by
  have hw := append_sections_wf (calls.take k) null_buffer null_buffer_wf
  have he := append_sections_take_succ calls null_buffer k hk
  generalize calls.get ⟨k, hk⟩ = call at he ⊢
  generalize append_sections null_buffer (calls.take k) = b at hw he ⊢
  obtain ⟨h1, h2, h3⟩ := append_section_spec b hw call.1 call.2.1 call.2.2
  have h4 := render_section_length_le_add call.1 call.2.1 call.2.2
  refine ⟨hw, he, ?_, ?_, ?_, ?_⟩
  · unfold section_add
    omega
  · rw [he, h2]
    omega
  · rw [he]
    exact h3
  · rw [he]
    refine ⟨_, h1, ?_⟩
    rw [h2, List.length_append, b.wf_length hw]

theorem capacity_invariant_witness :
    (append_sections null_buffer
        ([(some title_meta, some "Hostname: h\n\n".toList, SECTION_LIMIT),
          (some title_svc, none, 4)].take (1 + 1))).len + 1
      ≤ (append_sections null_buffer
        ([(some title_meta, some "Hostname: h\n\n".toList, SECTION_LIMIT),
          (some title_svc, none, 4)].take (1 + 1))).cap :=
  (capacity_invariant [(some title_meta, some "Hostname: h\n\n".toList, SECTION_LIMIT),
    (some title_svc, none, 4)] 1 (by decide)).2.2.2.2.1

/-! ## The request body of the standalone crash handler -/

theorem lex_none_of_state (s : CStr) :
    ∀ q : LexState, lex_state q s = none → lex q s = none := by
  induction s with
  | nil => intro q h; cases h
  | cons c rest ih =>
    intro q h
    unfold lex
    unfold lex_state at h
    cases hs : lex_step q c with
    | none => rfl
    | some r =>
      rw [hs] at h
      simp only [] at h ⊢
      rw [ih r.2 h]
      rfl

theorem lex_state_append (a b : CStr) :
    ∀ q : LexState, lex_state q (a ++ b) = (lex_state q a).bind (fun q2 => lex_state q2 b) := by
  induction a with
  | nil => intro q; rfl
  | cons c rest ih =>
    intro q
    simp only [List.cons_append, lex_state, List.append_eq]
    cases lex_step q c with
    | none => rfl
    | some r => exact ih r.2

theorem lex_state_none_append (a b : CStr) (q : LexState)
    (h : ∀ q2, lex_state q2 b = none) : lex_state q (a ++ b) = none := by
  rw [lex_state_append]
  cases lex_state q a with
  | none => rfl
  | some q2 => exact h q2

theorem lex_state_architecture (rest : CStr) :
    ∀ q : LexState, lex_state q ("\nArchitecture:".toList ++ rest) = none := by
  have hout : lex_state LexState.out ("Architecture:".toList ++ rest) = none := rfl
  intro q
  cases q with
  | out => rfl
  | str => rfl
  | esc => rfl
  | hex n => rfl
  | word w =>
    have e : "\nArchitecture:".toList ++ rest
        = Char.ofNat 10 :: ("Architecture:".toList ++ rest) := rfl
    rw [e]
    unfold lex_state lex_step
    have hws : json_ws (Char.ofNat 10) = true := by decide
    simp only [hws, if_true]
    cases json_atom w with
    | true => exact hout
    | false => rfl
theorem lex_state_str_plain (f : CStr) (hf : ∀ c ∈ f, c ≠ dquote ∧ c ≠ backslash) :
    lex_state LexState.str f = some LexState.str ∨ lex_state LexState.str f = none := by
  induction f with
  | nil => exact Or.inl rfl
  | cons c rest ih =>
    obtain ⟨h1, h2⟩ := hf c (List.mem_cons_self _ _)
    unfold lex_state lex_step
    simp only [if_neg h1, if_neg h2]
    by_cases h3 : c.toNat < 32
    · rw [if_pos h3]; exact Or.inr rfl
    · rw [if_neg h3]
      exact ih (fun d hd => hf d (List.mem_cons_of_mem _ hd))

theorem lex_state_str_newline (f : CStr) (hf : ∀ c ∈ f, c ≠ dquote ∧ c ≠ backslash)
    (hn : newline ∈ f) : lex_state LexState.str f = none := by
  induction f with
  | nil => cases hn
  | cons c rest ih =>
    obtain ⟨h1, h2⟩ := hf c (List.mem_cons_self _ _)
    unfold lex_state lex_step
    simp only [if_neg h1, if_neg h2]
    by_cases h3 : c.toNat < 32
    · rw [if_pos h3]
    · rw [if_neg h3]
      rcases List.mem_cons.mp hn with e | e
      · exact absurd (e ▸ (by decide : newline.toNat < 32)) h3
      · exact ih (fun d hd => hf d (List.mem_cons_of_mem _ hd)) e

set_option maxRecDepth 20000 in
theorem json_payload_state (report : CrashReport)
    (h1 : ∀ c ∈ report.system_info, c ≠ dquote ∧ c ≠ backslash)
    (h2 : ∀ c ∈ report.user_notes, c ≠ dquote ∧ c ≠ backslash)
    (h3 : ∀ c ∈ report.backtrace, c ≠ dquote ∧ c ≠ backslash)
    (hn : newline ∈ report.system_info ∨ newline ∈ report.user_notes
      ∨ newline ∈ report.backtrace) :
    lex_state LexState.out (json_payload report) = none := by
  unfold json_payload
  simp only [List.append_assoc]
  have t1 : lex_state LexState.out
      "\x7b\"content\": \"New Crash Report\",\"embeds\": [\x7b\"title\": \"Crash Report\",\"fields\": [\x7b\"name\": \"System Info\", \"value\": \"".toList
      = some LexState.str := rfl
  have t2 : lex_state LexState.str
      "\"\x7d,\x7b\"name\": \"User Notes\", \"value\": \"".toList = some LexState.str := rfl
  have t3 : lex_state LexState.str
      "\"\x7d,\x7b\"name\": \"Backtrace\", \"value\": \"```".toList = some LexState.str := rfl
  rw [lex_state_append, t1, Option.some_bind, lex_state_append]
  rcases lex_state_str_plain report.system_info h1 with e1 | e1
  · rw [e1, Option.some_bind, lex_state_append, t2, Option.some_bind, lex_state_append]
    rcases lex_state_str_plain report.user_notes h2 with e2 | e2
    · rw [e2, Option.some_bind, lex_state_append, t3, Option.some_bind, lex_state_append]
      rcases lex_state_str_plain report.backtrace h3 with e3 | e3
      · rcases hn with hn | hn | hn
        · rw [lex_state_str_newline _ h1 hn] at e1; cases e1
        · rw [lex_state_str_newline _ h2 hn] at e2; cases e2
        · rw [lex_state_str_newline _ h3 hn] at e3; cases e3
      · rw [e3]; rfl
    · rw [e2]; rfl
  · rw [e1]; rfl

theorem json_not_well_formed_of_state (text : CStr)
    (h : lex_state LexState.out text = none) : json_well_formed text = false := by
  unfold json_well_formed
  rw [lex_none_of_state text LexState.out h]

theorem json_payload_system_info_state (sysname release machine notes backtrace : CStr) :
    lex_state LexState.out (json_payload
      { backtrace := backtrace,
        system_info := get_system_info (some (sysname, release, machine)),
        user_notes := notes }) = none := by
  unfold json_payload get_system_info
  have e : "\nArchitecture: ".toList = "\nArchitecture:".toList ++ " ".toList := by decide
  simp only [e, List.append_assoc]
  rw [← List.append_assoc, ← List.append_assoc, ← List.append_assoc, ← List.append_assoc]
  exact lex_state_none_append _ _ _ (lex_state_architecture _)

set_option maxRecDepth 100000 in
/-- C29 (counterexample). Three reports whose user notes contain a backslash, double quotes, or
double quotes and a line feed, and whose request bodies are nevertheless well-formed JSON: the
notes `see \n below` (a backslash followed by `n`), `x", "y": "z`, and `a",` line feed
`"k":"b`. -/
theorem raw_characters_can_leave_json_well_formed :
    backslash ∈ "see \\n below".toList ∧
    json_well_formed (json_payload
      { backtrace := [], system_info := get_system_info none,
        user_notes := "see \\n below".toList }) = true ∧
    dquote ∈ "x\", \"y\": \"z".toList ∧
    json_well_formed (json_payload
      { backtrace := [], system_info := get_system_info none,
        user_notes := "x\", \"y\": \"z".toList }) = true ∧
    newline ∈ "a\",\n\"k\":\"b".toList ∧
    json_well_formed (json_payload
      { backtrace := [], system_info := get_system_info none,
        user_notes := "a\",\n\"k\":\"b".toList }) = true := by
  decide

/-- C29 (amended). `send_report` puts the system-info, user-notes and backtrace strings verbatim,
without escaping, into the fixed JSON template.  For every report whose fields contain a line
feed and neither a double quote nor a backslash, and for every system_info produced by a
successful `get_system_info` (which has a line feed between the OS and the Architecture line),
whatever the other fields, the body is not well-formed JSON. -/
theorem json_payload_not_well_formed (report : CrashReport)
    (sysname release machine notes backtrace : CStr) :
    json_payload report
      = "\x7b\"content\": \"New Crash Report\",\"embeds\": [\x7b\"title\": \"Crash Report\",\"fields\": [\x7b\"name\": \"System Info\", \"value\": \"".toList
        ++ report.system_info
        ++ "\"\x7d,\x7b\"name\": \"User Notes\", \"value\": \"".toList
        ++ report.user_notes
        ++ "\"\x7d,\x7b\"name\": \"Backtrace\", \"value\": \"```".toList
        ++ report.backtrace
        ++ "```\"\x7d]\x7d]\x7d".toList ∧
    get_system_info (some (sysname, release, machine))
      = "OS: ".toList ++ sysname ++ " ".toList ++ release ++ "\nArchitecture: ".toList
          ++ machine ∧
    newline ∈ get_system_info (some (sysname, release, machine)) ∧
    json_well_formed (json_payload
      { backtrace := backtrace,
        system_info := get_system_info (some (sysname, release, machine)),
        user_notes := notes }) = false ∧
    ((∀ c ∈ report.system_info ++ report.user_notes ++ report.backtrace,
        c ≠ dquote ∧ c ≠ backslash) →
      newline ∈ report.system_info ++ report.user_notes ++ report.backtrace →
      json_well_formed (json_payload report) = false) := by
  refine ⟨rfl, rfl, ?_, ?_, ?_⟩
  · unfold get_system_info
    simp only [List.mem_append]
    exact Or.inl (Or.inr (by decide))
  · exact json_not_well_formed_of_state _
      (json_payload_system_info_state sysname release machine notes backtrace)
  · intro hq hn
    apply json_not_well_formed_of_state
    apply json_payload_state report
    · exact fun c hc => hq c (List.mem_append_left _ (List.mem_append_left _ hc))
    · exact fun c hc => hq c (List.mem_append_left _ (List.mem_append_right _ hc))
    · exact fun c hc => hq c (List.mem_append_right _ hc)
    · simp only [List.mem_append] at hn
      rcases hn with (h | h) | h
      · exact Or.inl h
      · exact Or.inr (Or.inl h)
      · exact Or.inr (Or.inr h)

set_option maxRecDepth 20000 in
theorem json_payload_not_well_formed_witness :
    json_well_formed (json_payload
      { backtrace := "./crash_reporter(+0x1a2b)\n".toList,
        system_info := "Could not get system info.".toList,
        user_notes := "it crashed".toList }) = false :=
  (json_payload_not_well_formed
    { backtrace := "./crash_reporter(+0x1a2b)\n".toList,
      system_info := "Could not get system info.".toList,
      user_notes := "it crashed".toList } [] [] [] [] []).2.2.2.2 (by decide) (by decide)

end CrashReporter
